import Mathlib

/-!
# MIPS DSP ASE emulation helpers (`target-mips/dsp_helper.c`)

A shallow embedding of the internal kernels and lane macros of
`target-mips/dsp_helper.c`, followed by theorems about them.  The checksum of
`slirp/ncsi.c` is embedded at the end of the definitions.

Conventions of the embedding:

* every C integer value is a Lean `Int` holding the mathematical value of the
  C object; a conversion to an unsigned type of width `w` is `toU w`, a
  conversion to a signed type of width `w` is `toS w` (two's complement
  wrap-around, which is what the build's `-fwrapv` gives for signed overflow);
* `&`, `|`, `^` are `Int.land`, `Int.lor`, `Int.xor` (two's complement on
  unbounded integers), `>>` is `Int.shiftRight` (arithmetic) and `<<` is a
  multiplication by a power of two followed by the conversion to the type of
  the shifted expression;
* the processing context `CPUMIPSState` is passed explicitly; a kernel that
  takes `env` returns its result together with the new context;
* `TARGET_MIPS64` is a compile-time switch in the source and a `Bool`
  parameter here.
-/

namespace DspHelper

/-! ## C integer conversions -/

/-- Conversion of a C integer value to the unsigned type of width `w`. -/
def toU (w : Nat) (x : Int) : Int := x % 2 ^ w

/-- Conversion of a C integer value to the signed type of width `w`
(two's complement wrap-around). -/
def toS (w : Nat) (x : Int) : Int := (x + 2 ^ (w - 1)) % 2 ^ w - 2 ^ (w - 1)

/-- Width of `target_ulong` / `target_long`. -/
def TARGET_LONG_BITS (TARGET_MIPS64 : Bool) : Nat := if TARGET_MIPS64 then 64 else 32

def INT8_MIN : Int := -128
def INT8_MAX : Int := 127
def INT16_MIN : Int := -32768
def INT16_MAX : Int := 32767
def INT32_MIN : Int := -2147483648
def INT32_MAX : Int := 2147483647

/-! ## Processing context -/

/-- The part of `TCState` (`env->active_tc`) the DSP helpers use: the accumulator
bank `HI[]`/`LO[]` and the `DSPControl` word, all of type `target_ulong`. -/
structure TCState where
  HI : Nat → Int
  LO : Nat → Int
  DSPControl : Int

/-- The processing context `CPUMIPSState`. -/
structure CPUMIPSState where
  active_tc : TCState

/-- Replace `env->active_tc.DSPControl`. -/
def CPUMIPSState.setDSPControl (env : CPUMIPSState) (v : Int) : CPUMIPSState :=
  { env with active_tc := { env.active_tc with DSPControl := v } }

/-- A freshly reset context: accumulators and `DSPControl` are zero. -/
def env0 : CPUMIPSState := ⟨⟨fun _ => 0, fun _ => 0, 0⟩⟩

/-! ## Internal functions -/

/-- `MIPSDSP_ABS(x)`: `((x) >= 0) ? x : -x`. -/
def MIPSDSP_ABS (x : Int) : Int := if x ≥ 0 then x else -x

/-- `MIPSDSP_OVERFLOW(a, b, c, d)`: `(!(!((a ^ b ^ -1) & (a ^ c) & d)))`. -/
def MIPSDSP_OVERFLOW (a b c d : Int) : Bool :=
  Int.land (Int.land (Int.xor (Int.xor a b) (-1)) (Int.xor a c)) d != 0

/-- `set_DSPControl_overflow_flag`:
`env->active_tc.DSPControl |= (target_ulong)flag << position`. -/
def set_DSPControl_overflow_flag (TARGET_MIPS64 : Bool) (flag : Int) (position : Nat)
    (env : CPUMIPSState) : CPUMIPSState :=
  env.setDSPControl
    (Int.lor env.active_tc.DSPControl
      (toU (TARGET_LONG_BITS TARGET_MIPS64)
        (toU (TARGET_LONG_BITS TARGET_MIPS64) flag * 2 ^ position)))

/-! ## Saturating absolute value -/

/-- `mipsdsp_sat_abs8` (`DO_MIPS_SAT_ABS(8)`); `a` is an `int8_t`. -/
def mipsdsp_sat_abs8 (TARGET_MIPS64 : Bool) (a : Int) (env : CPUMIPSState) :
    Int × CPUMIPSState :=
  if a = INT8_MIN then
    (INT8_MAX, set_DSPControl_overflow_flag TARGET_MIPS64 1 20 env)
  else
    (toS 8 (MIPSDSP_ABS a), env)

/-- `mipsdsp_sat_abs16` (`DO_MIPS_SAT_ABS(16)`); `a` is an `int16_t`. -/
def mipsdsp_sat_abs16 (TARGET_MIPS64 : Bool) (a : Int) (env : CPUMIPSState) :
    Int × CPUMIPSState :=
  if a = INT16_MIN then
    (INT16_MAX, set_DSPControl_overflow_flag TARGET_MIPS64 1 20 env)
  else
    (toS 16 (MIPSDSP_ABS a), env)

/-- `mipsdsp_sat_abs32` (`DO_MIPS_SAT_ABS(32)`); `a` is an `int32_t`. -/
def mipsdsp_sat_abs32 (TARGET_MIPS64 : Bool) (a : Int) (env : CPUMIPSState) :
    Int × CPUMIPSState :=
  if a = INT32_MIN then
    (INT32_MAX, set_DSPControl_overflow_flag TARGET_MIPS64 1 20 env)
  else
    (toS 32 (MIPSDSP_ABS a), env)

/-! ## Signed and unsigned addition -/

/-- `mipsdsp_add_i16(int16_t a, int16_t b, env)`, returns `int16_t`. -/
def mipsdsp_add_i16 (TARGET_MIPS64 : Bool) (a b : Int) (env : CPUMIPSState) :
    Int × CPUMIPSState :=
  let tempI := toS 16 (a + b)
  let env := if MIPSDSP_OVERFLOW a b tempI 0x8000 then
      set_DSPControl_overflow_flag TARGET_MIPS64 1 20 env
    else env
  (tempI, env)

/-- `mipsdsp_sat_add_i16(int16_t a, int16_t b, env)`, returns `int16_t`. -/
def mipsdsp_sat_add_i16 (TARGET_MIPS64 : Bool) (a b : Int) (env : CPUMIPSState) :
    Int × CPUMIPSState :=
  let tempS := toS 16 (a + b)
  if MIPSDSP_OVERFLOW a b tempS 0x8000 then
    let tempS := if a > 0 then toS 16 0x7FFF else toS 16 0x8000
    (tempS, set_DSPControl_overflow_flag TARGET_MIPS64 1 20 env)
  else
    (tempS, env)

/-- `mipsdsp_sat_add_i32(int32_t a, int32_t b, env)`, returns `int32_t`. -/
def mipsdsp_sat_add_i32 (TARGET_MIPS64 : Bool) (a b : Int) (env : CPUMIPSState) :
    Int × CPUMIPSState :=
  let tempI := toS 32 (a + b)
  if MIPSDSP_OVERFLOW a b tempI 0x80000000 then
    let tempI := if a > 0 then toS 32 0x7FFFFFFF else toS 32 0x80000000
    (tempI, set_DSPControl_overflow_flag TARGET_MIPS64 1 20 env)
  else
    (tempI, env)

/-- `mipsdsp_add_u8(uint8_t a, uint8_t b, env)`, returns `uint8_t`. -/
def mipsdsp_add_u8 (TARGET_MIPS64 : Bool) (a b : Int) (env : CPUMIPSState) :
    Int × CPUMIPSState :=
  let temp := toU 16 (toU 16 a + toU 16 b)
  let env := if Int.land temp 0x0100 != 0 then
      set_DSPControl_overflow_flag TARGET_MIPS64 1 20 env
    else env
  (toU 8 (Int.land temp 0xFF), env)

/-- `mipsdsp_add_u16(uint16_t a, uint16_t b, env)`, returns `uint16_t`. -/
def mipsdsp_add_u16 (TARGET_MIPS64 : Bool) (a b : Int) (env : CPUMIPSState) :
    Int × CPUMIPSState :=
  let temp := toU 32 (toU 32 a + toU 32 b)
  let env := if Int.land temp 0x00010000 != 0 then
      set_DSPControl_overflow_flag TARGET_MIPS64 1 20 env
    else env
  (toU 16 (Int.land temp 0xFFFF), env)

/-- `mipsdsp_sat_add_u8(uint8_t a, uint8_t b, env)`, returns `uint8_t`. -/
def mipsdsp_sat_add_u8 (TARGET_MIPS64 : Bool) (a b : Int) (env : CPUMIPSState) :
    Int × CPUMIPSState :=
  let temp := toU 16 (toU 16 a + toU 16 b)
  let result := toU 8 (Int.land temp 0xFF)
  if Int.land 0x0100 temp != 0 then
    (0xFF, set_DSPControl_overflow_flag TARGET_MIPS64 1 20 env)
  else
    (result, env)

/-- `mipsdsp_sat_add_u16(uint16_t a, uint16_t b, env)`, returns `uint16_t`. -/
def mipsdsp_sat_add_u16 (TARGET_MIPS64 : Bool) (a b : Int) (env : CPUMIPSState) :
    Int × CPUMIPSState :=
  let temp := toU 32 (toU 32 a + toU 32 b)
  let result := toU 16 (Int.land temp 0xFFFF)
  if Int.land 0x00010000 temp != 0 then
    (0xFFFF, set_DSPControl_overflow_flag TARGET_MIPS64 1 20 env)
  else
    (result, env)

/-- `mipsdsp_add_i32(int32_t a, int32_t b, env)`, returns `int32_t`. -/
def mipsdsp_add_i32 (TARGET_MIPS64 : Bool) (a b : Int) (env : CPUMIPSState) :
    Int × CPUMIPSState :=
  let temp := toS 32 (a + b)
  let env := if MIPSDSP_OVERFLOW a b temp 0x80000000 then
      set_DSPControl_overflow_flag TARGET_MIPS64 1 20 env
    else env
  (temp, env)

/-! ## Averaging addition -/

/-- `mipsdsp_rshift1_add_q16(int16_t a, int16_t b)`, returns `int16_t`. -/
def mipsdsp_rshift1_add_q16 (a b : Int) : Int :=
  let temp := toS 32 (toS 32 a + toS 32 b)
  toS 16 (Int.land (Int.shiftRight temp 1) 0xFFFF)

/-- `mipsdsp_rrshift1_add_q16(int16_t a, int16_t b)`, returns `int16_t`. -/
def mipsdsp_rrshift1_add_q16 (a b : Int) : Int :=
  let temp := toS 32 (toS 32 a + toS 32 b)
  let temp := toS 32 (temp + 1)
  toS 16 (Int.land (Int.shiftRight temp 1) 0xFFFF)

/-- `mipsdsp_rshift1_add_q32(int32_t a, int32_t b)`, returns `int32_t`. -/
def mipsdsp_rshift1_add_q32 (a b : Int) : Int :=
  let temp := toS 64 (toS 64 a + toS 64 b)
  toS 32 (Int.land (Int.shiftRight temp 1) 0xFFFFFFFF)

/-- `mipsdsp_rrshift1_add_q32(int32_t a, int32_t b)`, returns `int32_t`. -/
def mipsdsp_rrshift1_add_q32 (a b : Int) : Int :=
  let temp := toS 64 (toS 64 a + toS 64 b)
  let temp := toS 64 (temp + 1)
  toS 32 (Int.land (Int.shiftRight temp 1) 0xFFFFFFFF)

/-! ## Q15 multiplication with the per-accumulator flag -/

/-- `mipsdsp_mul_q15_q15(int32_t ac, uint16_t a, uint16_t b, env)`, returns
`int32_t`.  The accumulator index is a natural number here: a negative `ac`
makes the shift count of the flag position negative, which C leaves undefined. -/
def mipsdsp_mul_q15_q15 (TARGET_MIPS64 : Bool) (ac : Nat) (a b : Int) (env : CPUMIPSState) :
    Int × CPUMIPSState :=
  if a = 0x8000 ∧ b = 0x8000 then
    (toS 32 0x7FFFFFFF, set_DSPControl_overflow_flag TARGET_MIPS64 1 (16 + ac) env)
  else
    (toS 32 (toU 32 (toU 32 (toU 32 a * toU 32 b) * 2 ^ 1)), env)

/-! ## Signed and unsigned subtraction -/

/-- `mipsdsp_sub_i16(int16_t a, int16_t b, env)`, returns `uint16_t`.  The
macro argument `-b` is the negation of the promoted `int`, which cannot
overflow. -/
def mipsdsp_sub_i16 (TARGET_MIPS64 : Bool) (a b : Int) (env : CPUMIPSState) :
    Int × CPUMIPSState :=
  let temp := toS 16 (a - b)
  let env := if MIPSDSP_OVERFLOW a (-b) temp 0x8000 then
      set_DSPControl_overflow_flag TARGET_MIPS64 1 20 env
    else env
  (toU 16 temp, env)

/-- `mipsdsp_sat16_sub(int16_t a, int16_t b, env)`, returns `uint16_t`. -/
def mipsdsp_sat16_sub (TARGET_MIPS64 : Bool) (a b : Int) (env : CPUMIPSState) :
    Int × CPUMIPSState :=
  let temp := toS 16 (a - b)
  if MIPSDSP_OVERFLOW a (-b) temp 0x8000 then
    let temp := if a > 0 then toS 16 0x7FFF else toS 16 0x8000
    (toU 16 temp, set_DSPControl_overflow_flag TARGET_MIPS64 1 20 env)
  else
    (toU 16 temp, env)

/-- `mipsdsp_sat32_sub(int32_t a, int32_t b, env)`, returns `uint32_t`.  The
macro argument `-b` is an `int32_t` negation and wraps for `INT32_MIN`. -/
def mipsdsp_sat32_sub (TARGET_MIPS64 : Bool) (a b : Int) (env : CPUMIPSState) :
    Int × CPUMIPSState :=
  let temp := toS 32 (a - b)
  if MIPSDSP_OVERFLOW a (toS 32 (-b)) temp 0x80000000 then
    let temp := if a > 0 then toS 32 0x7FFFFFFF else toS 32 0x80000000
    (toU 32 (Int.land (toU 64 temp) 0xFFFFFFFF),
      set_DSPControl_overflow_flag TARGET_MIPS64 1 20 env)
  else
    (toU 32 (Int.land (toU 64 temp) 0xFFFFFFFF), env)

/-- `mipsdsp_sub_u16_u16(uint16_t a, uint16_t b, env)`, returns `uint16_t`. -/
def mipsdsp_sub_u16_u16 (TARGET_MIPS64 : Bool) (a b : Int) (env : CPUMIPSState) :
    Int × CPUMIPSState :=
  let temp := toU 32 (toU 32 a - toU 32 b)
  let temp16 := toU 8 (Int.land (Int.shiftRight temp 16) 0x01)
  let env := if temp16 = 1 then
      set_DSPControl_overflow_flag TARGET_MIPS64 1 20 env
    else env
  (toU 16 (Int.land temp 0x0000FFFF), env)

/-- `mipsdsp_satu16_sub_u16_u16(uint16_t a, uint16_t b, env)`, returns `uint16_t`. -/
def mipsdsp_satu16_sub_u16_u16 (TARGET_MIPS64 : Bool) (a b : Int) (env : CPUMIPSState) :
    Int × CPUMIPSState :=
  let temp := toU 32 (toU 32 a - toU 32 b)
  let temp16 := toU 8 (Int.land (Int.shiftRight temp 16) 0x01)
  if temp16 = 1 then
    (toU 16 (Int.land 0x0000 0x0000FFFF), set_DSPControl_overflow_flag TARGET_MIPS64 1 20 env)
  else
    (toU 16 (Int.land temp 0x0000FFFF), env)

/-- `mipsdsp_sub_u8(uint8_t a, uint8_t b, env)`, returns `uint8_t`. -/
def mipsdsp_sub_u8 (TARGET_MIPS64 : Bool) (a b : Int) (env : CPUMIPSState) :
    Int × CPUMIPSState :=
  let temp := toU 16 (toU 16 a - toU 16 b)
  let temp8 := toU 8 (Int.land (Int.shiftRight temp 8) 0x01)
  let env := if temp8 = 1 then
      set_DSPControl_overflow_flag TARGET_MIPS64 1 20 env
    else env
  (toU 8 (Int.land temp 0x00FF), env)

/-- `mipsdsp_satu8_sub(uint8_t a, uint8_t b, env)`, returns `uint8_t`. -/
def mipsdsp_satu8_sub (TARGET_MIPS64 : Bool) (a b : Int) (env : CPUMIPSState) :
    Int × CPUMIPSState :=
  let temp := toU 16 (toU 16 a - toU 16 b)
  let temp8 := toU 8 (Int.land (Int.shiftRight temp 8) 0x01)
  if temp8 = 1 then
    (toU 8 (Int.land 0x00 0x00FF), set_DSPControl_overflow_flag TARGET_MIPS64 1 20 env)
  else
    (toU 8 (Int.land temp 0x00FF), env)

/-- `mipsdsp_sub32(int32_t a, int32_t b, env)`, returns `uint32_t`. -/
def mipsdsp_sub32 (TARGET_MIPS64 : Bool) (a b : Int) (env : CPUMIPSState) :
    Int × CPUMIPSState :=
  let temp := toS 32 (a - b)
  let env := if MIPSDSP_OVERFLOW a (toS 32 (-b)) temp 0x80000000 then
      set_DSPControl_overflow_flag TARGET_MIPS64 1 20 env
    else env
  (toU 32 temp, env)

/-! ## Carry flag -/

/-- `set_DSPControl_carryflag`:
`env->active_tc.DSPControl |= (target_ulong)flag << 13`. -/
def set_DSPControl_carryflag (TARGET_MIPS64 : Bool) (flag : Int) (env : CPUMIPSState) :
    CPUMIPSState :=
  env.setDSPControl
    (Int.lor env.active_tc.DSPControl
      (toU (TARGET_LONG_BITS TARGET_MIPS64)
        (toU (TARGET_LONG_BITS TARGET_MIPS64) flag * 2 ^ 13)))

/-- `get_DSPControl_carryflag`: `(env->active_tc.DSPControl >> 13) & 0x01`, a `uint32_t`. -/
def get_DSPControl_carryflag (env : CPUMIPSState) : Int :=
  toU 32 (Int.land (Int.shiftRight env.active_tc.DSPControl 13) 0x01)

/-! ## Shifts by a run-time count

The count of a C shift is an `int` after promotion.  A count that is negative or
not below the width of the shifted type is undefined in C; here a negative count
shifts by zero and a large one shifts all the same, so every definition is total. -/

/-- `x << n` at type `int` (a 32-bit signed shift that wraps). -/
def shlInt (x n : Int) : Int := toS 32 (x * 2 ^ n.toNat)

/-- `x << n` at type `int64_t`. -/
def shlInt64 (x n : Int) : Int := toS 64 (x * 2 ^ n.toNat)

/-- `x << n` at type `uint32_t`. -/
def shlU32 (x n : Int) : Int := toU 32 (x * 2 ^ n.toNat)

/-- `x << n` at type `uint64_t`. -/
def shlU64 (x n : Int) : Int := toU 64 (x * 2 ^ n.toNat)

/-- `x >> n`: arithmetic on a signed value, logical on an unsigned (non-negative) one. -/
def shr (x n : Int) : Int := Int.shiftRight x n.toNat

/-! ## Saturating accumulation -/

/-- `mipsdsp_sat32_acc_q31(int32_t acc, int32_t a, env)`, returns `int32_t`.
Without `TARGET_MIPS64` the 64-bit `temp` is `HI[acc]:LO[acc]`, with it `temp` is
`LO[acc]`. -/
def mipsdsp_sat32_acc_q31 (TARGET_MIPS64 : Bool) (acc : Nat) (a : Int) (env : CPUMIPSState) :
    Int × CPUMIPSState :=
  let temp :=
    if TARGET_MIPS64 then toS 64 (toU 64 (env.active_tc.LO acc))
    else toS 64 (Int.lor (toU 64 (toU 64 (env.active_tc.HI acc) * 2 ^ 32))
      (toU 64 (env.active_tc.LO acc)))
  let temp_sum := toS 64 (toS 64 a + temp)
  let temp32 := toS 32 (Int.land (Int.shiftRight temp_sum 32) 0x01)
  let temp31 := toS 32 (Int.land (Int.shiftRight temp_sum 31) 0x01)
  let result := toS 32 (Int.land temp_sum 0xFFFFFFFF)
  if temp32 ≠ temp31 then
    let result := if temp32 = 0 then toS 32 0x7FFFFFFF else toS 32 0x80000000
    (result, set_DSPControl_overflow_flag TARGET_MIPS64 1 (16 + acc) env)
  else
    (result, env)

/-- `target_ulong x + int64_t y` stored to an `int64_t`: with `TARGET_MIPS64` both
operands are converted to `uint64_t`, without it `x` is a `uint32_t` and is
converted to `int64_t`. -/
def addTargetUlongInt64 (TARGET_MIPS64 : Bool) (x y : Int) : Int :=
  if TARGET_MIPS64 then toS 64 (toU 64 (x + toU 64 y)) else toS 64 (x + y)

/-- `target_ulong x - int64_t y` stored to an `int64_t`. -/
def subTargetUlongInt64 (TARGET_MIPS64 : Bool) (x y : Int) : Int :=
  if TARGET_MIPS64 then toS 64 (toU 64 (x - toU 64 y)) else toS 64 (x - y)

/-- `mipsdsp_sat64_acc_add_q63(int64_t *ret, int32_t ac, int64_t *a, env)`; `a` is
`(a[0], a[1])` and the first component of the result is `(ret[0], ret[1])`; index 0 is
LO and index 1 is HI. -/
def mipsdsp_sat64_acc_add_q63 (TARGET_MIPS64 : Bool) (ac : Nat) (a : Int × Int)
    (env : CPUMIPSState) : (Int × Int) × CPUMIPSState :=
  let ret0 := addTargetUlongInt64 TARGET_MIPS64 (env.active_tc.LO ac) a.1
  let ret1 := addTargetUlongInt64 TARGET_MIPS64 (env.active_tc.HI ac) a.2
  let ret1 :=
    if toU 64 ret0 < toU 64 (env.active_tc.LO ac) ∧ toU 64 ret0 < toU 64 a.1 then
      toS 64 (ret1 + 1)
    else ret1
  let temp64 : Bool := Int.land ret1 1 != 0
  if (if temp64 then (1 : Int) else 0) ≠ Int.land (Int.shiftRight ret0 63) 0x01 then
    if temp64 then
      ((toS 64 (shlU64 0x01 63), toS 64 (toU 64 (Int.lnot 0))),
        set_DSPControl_overflow_flag TARGET_MIPS64 1 (16 + ac) env)
    else
      ((toS 64 (toU 64 (shlU64 0x01 63 - 1)), 0x00),
        set_DSPControl_overflow_flag TARGET_MIPS64 1 (16 + ac) env)
  else
    ((ret0, ret1), env)

/-- `mipsdsp_sat64_acc_sub_q63(int64_t *ret, int32_t ac, int64_t *a, env)`, with the
same conventions as `mipsdsp_sat64_acc_add_q63`. -/
def mipsdsp_sat64_acc_sub_q63 (TARGET_MIPS64 : Bool) (ac : Nat) (a : Int × Int)
    (env : CPUMIPSState) : (Int × Int) × CPUMIPSState :=
  let ret0 := subTargetUlongInt64 TARGET_MIPS64 (env.active_tc.LO ac) a.1
  let ret1 := subTargetUlongInt64 TARGET_MIPS64 (env.active_tc.HI ac) a.2
  let ret1 :=
    if toU 64 ret0 > toU 64 (env.active_tc.LO ac) then toS 64 (ret1 - 1) else ret1
  let temp64 : Bool := Int.land ret1 1 != 0
  if (if temp64 then (1 : Int) else 0) ≠ Int.land (Int.shiftRight ret0 63) 0x01 then
    if temp64 then
      ((toS 64 (shlU64 0x01 63), toS 64 (toU 64 (Int.lnot 0))),
        set_DSPControl_overflow_flag TARGET_MIPS64 1 (16 + ac) env)
    else
      ((toS 64 (toU 64 (shlU64 0x01 63 - 1)), 0x00),
        set_DSPControl_overflow_flag TARGET_MIPS64 1 (16 + ac) env)
  else
    ((ret0, ret1), env)

/-! ## Multiplication -/

/-- `mipsdsp_mul_i16_i16(int16_t a, int16_t b, env)`, returns `int32_t`. -/
def mipsdsp_mul_i16_i16 (TARGET_MIPS64 : Bool) (a b : Int) (env : CPUMIPSState) :
    Int × CPUMIPSState :=
  let temp := toS 32 (toS 32 a * toS 32 b)
  let env := if temp > toS 32 0x7FFF ∨ temp < toS 32 0xFFFF8000 then
      set_DSPControl_overflow_flag TARGET_MIPS64 1 21 env
    else env
  let temp := toS 32 (Int.land temp 0x0000FFFF)
  (temp, env)

/-- `mipsdsp_sat16_mul_i16_i16(int16_t a, int16_t b, env)`, returns `int32_t`. -/
def mipsdsp_sat16_mul_i16_i16 (TARGET_MIPS64 : Bool) (a b : Int) (env : CPUMIPSState) :
    Int × CPUMIPSState :=
  let temp := toS 32 (toS 32 a * toS 32 b)
  if temp > toS 32 0x7FFF then
    (toS 32 (Int.land (toS 32 0x00007FFF) 0x0000FFFF),
      set_DSPControl_overflow_flag TARGET_MIPS64 1 21 env)
  else if temp < toS 32 0xffff8000 then
    (toS 32 (Int.land (toS 32 0xFFFF8000) 0x0000FFFF),
      set_DSPControl_overflow_flag TARGET_MIPS64 1 21 env)
  else
    (toS 32 (Int.land temp 0x0000FFFF), env)

/-- `mipsdsp_mul_q15_q15_overflowflag21(uint16_t a, uint16_t b, env)`, returns
`int32_t`. -/
def mipsdsp_mul_q15_q15_overflowflag21 (TARGET_MIPS64 : Bool) (a b : Int)
    (env : CPUMIPSState) : Int × CPUMIPSState :=
  if a = 0x8000 ∧ b = 0x8000 then
    (toS 32 0x7FFFFFFF, set_DSPControl_overflow_flag TARGET_MIPS64 1 21 env)
  else
    (shlInt (toS 32 (toS 32 (toS 16 a) * toS 32 (toS 16 b))) 1, env)

/-- `mipsdsp_mul_q31_q31(int32_t ac, uint32_t a, uint32_t b, env)`, returns `int64_t`. -/
def mipsdsp_mul_q31_q31 (TARGET_MIPS64 : Bool) (ac : Nat) (a b : Int) (env : CPUMIPSState) :
    Int × CPUMIPSState :=
  if a = 0x80000000 ∧ b = 0x80000000 then
    (toS 64 (toU 64 (shlU64 0x01 63 - 1)),
      set_DSPControl_overflow_flag TARGET_MIPS64 1 (16 + ac) env)
  else
    (toS 64 (shlU64 (toU 64 (toU 64 a * toU 64 b)) 1), env)

/-- `mipsdsp_mul_u8_u16(uint8_t a, uint16_t b, env)`, returns `uint16_t`. -/
def mipsdsp_mul_u8_u16 (TARGET_MIPS64 : Bool) (a b : Int) (env : CPUMIPSState) :
    Int × CPUMIPSState :=
  let tempI := toU 32 (toU 32 a * toU 32 b)
  if tempI > 0x0000FFFF then
    (toU 16 (Int.land 0x0000FFFF 0x0000FFFF),
      set_DSPControl_overflow_flag TARGET_MIPS64 1 21 env)
  else
    (toU 16 (Int.land tempI 0x0000FFFF), env)

/-- `mipsdsp_rashift_short_acc(int32_t ac, int32_t shift, env)`, returns `int64_t`. -/
def mipsdsp_rashift_short_acc (TARGET_MIPS64 : Bool) (ac : Nat) (shift : Int)
    (env : CPUMIPSState) : Int × CPUMIPSState :=
  let sign := toS 32 (Int.land (Int.shiftRight (env.active_tc.HI ac) 31) 0x01)
  let acc := Int.lor (shlInt64 (toS 64 (env.active_tc.HI ac)) 32)
    (Int.land (toS 64 (env.active_tc.LO ac)) 0xFFFFFFFF)
  let temp :=
    if shift = 0 then acc
    else if sign = 0 then
      Int.land (toS 64 (shlInt64 0x01 (32 - shift + 1) - 1)) (shr acc shift)
    else
      Int.lor (shlInt64 (toS 64 (shlInt64 0x01 (shift + 1) - 1)) (32 - shift)) (shr acc shift)
  let temp31 := toS 32 (Int.land (Int.shiftRight temp 31) 0x01)
  let env := if sign ≠ temp31 then
      set_DSPControl_overflow_flag TARGET_MIPS64 1 23 env
    else env
  (temp, env)

/-- `mipsdsp_rndq15_mul_q15_q15(uint16_t a, uint16_t b, env)`, returns `int16_t`.
The product `a * b` is taken on the promoted `int` operands. -/
def mipsdsp_rndq15_mul_q15_q15 (TARGET_MIPS64 : Bool) (a b : Int) (env : CPUMIPSState) :
    Int × CPUMIPSState :=
  if a = 0x8000 ∧ b = 0x8000 then
    (toS 16 (Int.shiftRight (Int.land 0x7FFF0000 0xFFFF0000) 16),
      set_DSPControl_overflow_flag TARGET_MIPS64 1 21 env)
  else
    let temp := toU 32 (shlInt (toS 32 (a * b)) 1)
    let temp := toU 32 (temp + 0x00008000)
    (toS 16 (Int.shiftRight (Int.land temp 0xFFFF0000) 16), env)

/-- `mipsdsp_sat16_mul_q15_q15(uint16_t a, uint16_t b, env)`, returns `int32_t`. -/
def mipsdsp_sat16_mul_q15_q15 (TARGET_MIPS64 : Bool) (a b : Int) (env : CPUMIPSState) :
    Int × CPUMIPSState :=
  if a = 0x8000 ∧ b = 0x8000 then
    (toS 32 (Int.land (Int.shiftRight (toS 32 0x7FFF0000) 16) 0x0000FFFF),
      set_DSPControl_overflow_flag TARGET_MIPS64 1 21 env)
  else
    let temp := toS 32 (toU 32 (toU 32 a * toU 32 b))
    let temp := shlInt temp 1
    (toS 32 (Int.land (Int.shiftRight temp 16) 0x0000FFFF), env)

/-- `mipsdsp_trunc16_sat16_round(int32_t a, env)`, returns `uint16_t`. -/
def mipsdsp_trunc16_sat16_round (TARGET_MIPS64 : Bool) (a : Int) (env : CPUMIPSState) :
    Int × CPUMIPSState :=
  let temp := toS 64 (toS 32 (toS 32 a + 0x00008000))
  if a > toS 32 0x7fff8000 then
    (toU 16 (Int.land (Int.shiftRight 0x7FFFFFFF 16) 0xFFFF),
      set_DSPControl_overflow_flag TARGET_MIPS64 1 22 env)
  else
    (toU 16 (Int.land (Int.shiftRight temp 16) 0xFFFF), env)

/-- `mipsdsp_sat8_reduce_precision(uint16_t a, env)`, returns `uint8_t`. -/
def mipsdsp_sat8_reduce_precision (TARGET_MIPS64 : Bool) (a : Int) (env : CPUMIPSState) :
    Int × CPUMIPSState :=
  let sign := toU 32 (Int.land (Int.shiftRight a 15) 0x01)
  let mag := toU 16 (Int.land a 0x7FFF)
  if sign = 0 then
    if mag > 0x7F80 then
      (0xFF, set_DSPControl_overflow_flag TARGET_MIPS64 1 22 env)
    else
      (toU 8 (Int.land (Int.shiftRight mag 7) 0xFFFF), env)
  else
    (0x00, set_DSPControl_overflow_flag TARGET_MIPS64 1 22 env)

/-! ## Left shifts -/

/-- `mipsdsp_lshift8(uint8_t a, uint8_t s, env)`, returns `uint8_t`. -/
def mipsdsp_lshift8 (TARGET_MIPS64 : Bool) (a s : Int) (env : CPUMIPSState) :
    Int × CPUMIPSState :=
  if s = 0 then (a, env)
  else
    let sign := toU 8 (Int.land (shr a 7) 0x01)
    let discard :=
      if sign ≠ 0 then
        toU 8 (Int.lor (shlInt (toS 32 (shlInt 0x01 (8 - s) - 1)) s)
          (Int.land (shr a (6 - (s - 1))) (toS 32 (shlInt 0x01 s - 1))))
      else toU 8 (shr a (6 - (s - 1)))
    let env := if discard ≠ 0x00 then
        set_DSPControl_overflow_flag TARGET_MIPS64 1 22 env
      else env
    (toU 8 (shlInt a s), env)

/-- `mipsdsp_lshift16(uint16_t a, uint8_t s, env)`, returns `uint16_t`. -/
def mipsdsp_lshift16 (TARGET_MIPS64 : Bool) (a s : Int) (env : CPUMIPSState) :
    Int × CPUMIPSState :=
  if s = 0 then (a, env)
  else
    let sign := toU 8 (Int.land (shr a 15) 0x01)
    let discard :=
      if sign ≠ 0 then
        toU 16 (Int.lor (shlInt (toS 32 (shlInt 0x01 (16 - s) - 1)) s)
          (Int.land (shr a (14 - (s - 1))) (toS 32 (shlInt 0x01 s - 1))))
      else toU 16 (shr a (14 - (s - 1)))
    let env := if discard ≠ 0x0000 ∧ discard ≠ 0xFFFF then
        set_DSPControl_overflow_flag TARGET_MIPS64 1 22 env
      else env
    (toU 16 (shlInt a s), env)

/-- `mipsdsp_lshift32(uint32_t a, uint8_t s, env)`, returns `uint32_t`. -/
def mipsdsp_lshift32 (TARGET_MIPS64 : Bool) (a s : Int) (env : CPUMIPSState) :
    Int × CPUMIPSState :=
  if s = 0 then (a, env)
  else
    let discard := toU 32 (shr (toS 32 a) (31 - (s - 1)))
    let env := if discard ≠ 0x00000000 ∧ discard ≠ 0xFFFFFFFF then
        set_DSPControl_overflow_flag TARGET_MIPS64 1 22 env
      else env
    (shlU32 a s, env)

/-- `mipsdsp_sat16_lshift(uint16_t a, uint8_t s, env)`, returns `uint16_t`. -/
def mipsdsp_sat16_lshift (TARGET_MIPS64 : Bool) (a s : Int) (env : CPUMIPSState) :
    Int × CPUMIPSState :=
  if s = 0 then (a, env)
  else
    let sign := toU 8 (Int.land (shr a 15) 0x01)
    let discard :=
      if sign ≠ 0 then
        toU 16 (Int.lor (shlInt (toS 32 (shlInt 0x01 (16 - s) - 1)) s)
          (Int.land (shr a (14 - (s - 1))) (toS 32 (shlInt 0x01 s - 1))))
      else toU 16 (shr a (14 - (s - 1)))
    if discard ≠ 0x0000 ∧ discard ≠ 0xFFFF then
      (toU 16 (if sign = 0 then 0x7FFF else 0x8000),
        set_DSPControl_overflow_flag TARGET_MIPS64 1 22 env)
    else
      (toU 16 (shlInt a s), env)

/-- `mipsdsp_sat32_lshift(uint32_t a, uint8_t s, env)`, returns `uint32_t`.  The mask
expressions are `int` expressions and are converted to `uint32_t` where they meet
the unsigned operand. -/
def mipsdsp_sat32_lshift (TARGET_MIPS64 : Bool) (a s : Int) (env : CPUMIPSState) :
    Int × CPUMIPSState :=
  if s = 0 then (a, env)
  else
    let sign := toU 8 (Int.land (shr a 31) 0x01)
    let discard :=
      if sign ≠ 0 then
        toU 32 (Int.lor (toU 32 (shlInt (toS 32 (shlInt 0x01 (32 - s) - 1)) s))
          (Int.land (shr a (30 - (s - 1))) (toU 32 (toS 32 (shlInt 0x01 s - 1)))))
      else toU 32 (shr a (30 - (s - 1)))
    if discard ≠ 0x00000000 ∧ discard ≠ 0xFFFFFFFF then
      (toU 32 (if sign = 0 then 0x7FFFFFFF else 0x80000000),
        set_DSPControl_overflow_flag TARGET_MIPS64 1 22 env)
    else
      (shlU32 a s, env)

/-! ## Rounding right shifts -/

/-- `mipsdsp_rnd8_rashift(uint8_t a, uint8_t s)`, returns `uint8_t`. -/
def mipsdsp_rnd8_rashift (a s : Int) : Int :=
  let temp :=
    if s = 0 then shlU32 (toU 32 a) 1
    else toU 32 (shr (toS 32 (toS 8 a)) (s - 1))
  toU 8 (shr (toU 32 (temp + 1)) 1)

/-- `mipsdsp_rnd16_rashift(uint16_t a, uint8_t s)`, returns `uint16_t`. -/
def mipsdsp_rnd16_rashift (a s : Int) : Int :=
  let temp :=
    if s = 0 then shlU32 (toU 32 a) 1
    else toU 32 (shr (toS 32 (toS 16 a)) (s - 1))
  toU 16 (shr (toU 32 (temp + 1)) 1)

/-- `mipsdsp_rnd32_rashift(uint32_t a, uint8_t s)`, returns `uint32_t`. -/
def mipsdsp_rnd32_rashift (a s : Int) : Int :=
  let temp :=
    if s = 0 then toS 64 (shlU64 (toU 64 a) 1)
    else shr (toS 64 (toS 32 a)) (s - 1)
  let temp := toS 64 (temp + 1)
  toU 32 (Int.land (toU 64 (shr temp 1)) 0xFFFFFFFF)

/-! ## Averaging subtraction -/

/-- `mipsdsp_rshift1_sub_u8(uint8_t a, uint8_t b)`, returns `uint8_t`. -/
def mipsdsp_rshift1_sub_u8 (a b : Int) : Int :=
  let temp := toU 16 (toU 16 a - toU 16 b)
  toU 8 (Int.land (Int.shiftRight temp 1) 0x00FF)

/-- `mipsdsp_rrshift1_sub_u8(uint8_t a, uint8_t b)`, returns `uint8_t`. -/
def mipsdsp_rrshift1_sub_u8 (a b : Int) : Int :=
  let temp := toU 16 (toU 16 a - toU 16 b + 1)
  toU 8 (Int.land (Int.shiftRight temp 1) 0x00FF)

/-! ## Accumulator shift -/

/-- `mipsdsp_rashift_acc(uint64_t *p, uint32_t ac, uint32_t shift, env)`; the result
is `(p[0], p[1])`, `p[0]` the low and `p[1]` the high word. -/
def mipsdsp_rashift_acc (ac : Nat) (shift : Int) (env : CPUMIPSState) : Int × Int :=
  let tempB := toU 64 (env.active_tc.HI ac)
  let tempA := toU 64 (env.active_tc.LO ac)
  let shift := toU 32 (Int.land shift 0x1F)
  if shift = 0 then
    (tempA, tempB)
  else
    (Int.lor (shlU64 tempB (64 - shift)) (shr tempA shift),
      toU 64 (shr (toS 64 tempB) shift))

/-- The local `discard` of `mipsdsp_lshift16` and `mipsdsp_sat16_lshift` (computed
when `s != 0`), a `uint16_t`. -/
def mipsdsp_lshift16_discard (a s : Int) : Int :=
  let sign := toU 8 (Int.land (shr a 15) 0x01)
  if sign ≠ 0 then
    toU 16 (Int.lor (shlInt (toS 32 (shlInt 0x01 (16 - s) - 1)) s)
      (Int.land (shr a (14 - (s - 1))) (toS 32 (shlInt 0x01 s - 1))))
  else toU 16 (shr a (14 - (s - 1)))

/-! ## `DSPControl` fields -/

/-- `set_DSPControl_24(uint32_t flag, int len, env)`; `filter` is a `uint32_t`. -/
def set_DSPControl_24 (TARGET_MIPS64 : Bool) (flag len : Int) (env : CPUMIPSState) :
    CPUMIPSState :=
  let w := TARGET_LONG_BITS TARGET_MIPS64
  let filter := toU 32 (shlInt (toS 32 (shlInt 0x01 len - 1)) 24)
  let filter := toU 32 (Int.lnot filter)
  let d := Int.land env.active_tc.DSPControl filter
  env.setDSPControl (Int.lor d (toU w (toU w flag * 2 ^ 24)))

/-- `get_DSPControl_24(int len, env)`, returns `uint32_t`. -/
def get_DSPControl_24 (len : Int) (env : CPUMIPSState) : Int :=
  let filter := toU 32 (toS 32 (shlInt 0x01 len - 1))
  toU 32 (Int.land (Int.shiftRight env.active_tc.DSPControl 24) filter)

/-- `set_DSPControl_pos(uint32_t pos, env)`: the mask is `0xFFFFFFC0` without
`TARGET_MIPS64` and `0xFFFFFF80` with it. -/
def set_DSPControl_pos (TARGET_MIPS64 : Bool) (pos : Int) (env : CPUMIPSState) :
    CPUMIPSState :=
  let dspc := env.active_tc.DSPControl
  let dspc := if TARGET_MIPS64 then Int.land dspc 0xFFFFFF80 else Int.land dspc 0xFFFFFFC0
  let dspc := Int.lor dspc pos
  env.setDSPControl dspc

/-- `get_DSPControl_pos(env)`, returns `uint32_t`: the mask is `0x3F` without
`TARGET_MIPS64` and `0x7F` with it. -/
def get_DSPControl_pos (TARGET_MIPS64 : Bool) (env : CPUMIPSState) : Int :=
  let dspc := env.active_tc.DSPControl
  toU 32 (if TARGET_MIPS64 then Int.land dspc 0x7F else Int.land dspc 0x3F)

/-! ## Averaging addition of bytes -/

/-- `mipsdsp_rshift1_add_u8(uint8_t a, uint8_t b)`, returns `uint8_t`. -/
def mipsdsp_rshift1_add_u8 (a b : Int) : Int :=
  let temp := toU 16 (toU 16 a + toU 16 b)
  toU 8 (Int.land (Int.shiftRight temp 1) 0x00FF)

/-- `mipsdsp_rrshift1_add_u8(uint8_t a, uint8_t b)`, returns `uint8_t`. -/
def mipsdsp_rrshift1_add_u8 (a b : Int) : Int :=
  let temp := toU 16 (toU 16 a + toU 16 b + 1)
  toU 8 (Int.land (Int.shiftRight temp 1) 0x00FF)

/-! ## Rounding accumulator shift -/

/-- `mipsdsp_rndrashift_acc(uint64_t *p, uint32_t ac, uint32_t shift, env)`; the
result is `(p[0], p[1], p[2])`.  `tempB` and `tempA` are `int64_t`, so `tempA >> n` is
an arithmetic shift. -/
def mipsdsp_rndrashift_acc (ac : Nat) (shift : Int) (env : CPUMIPSState) :
    Int × Int × Int :=
  let tempB := toS 64 (env.active_tc.HI ac)
  let tempA := toS 64 (env.active_tc.LO ac)
  let shift := toU 32 (Int.land shift 0x3F)
  if shift = 0 then
    (toU 64 (shlInt64 tempA 1),
      toU 64 (Int.lor (shlInt64 tempB 1) (shr tempA 63)),
      toU 64 (shr tempB 63))
  else
    (toU 64 (Int.lor (shlInt64 tempB (65 - shift)) (shr tempA (shift - 1))),
      toU 64 (shr (toS 64 tempB) (shift - 1)),
      if tempB ≥ 0 then 0x0 else toU 64 (Int.lnot 0))

/-! ## Lane macros -/

def MIPSDSP_LLO : Int := 0x00000000FFFFFFFF
def MIPSDSP_LO : Int := 0x0000FFFF
def MIPSDSP_Q0 : Int := 0x000000FF

/-- `MIPSDSP_SPLIT32_8(num, a, b, c, d)`; the result is `(a, b, c, d)`. -/
def MIPSDSP_SPLIT32_8 (num : Int) : Int × Int × Int × Int :=
  (Int.land (Int.shiftRight num 24) MIPSDSP_Q0,
   Int.land (Int.shiftRight num 16) MIPSDSP_Q0,
   Int.land (Int.shiftRight num 8) MIPSDSP_Q0,
   Int.land num MIPSDSP_Q0)

/-- `MIPSDSP_SPLIT32_16(num, a, b)`; the result is `(a, b)`. -/
def MIPSDSP_SPLIT32_16 (num : Int) : Int × Int :=
  (Int.land (Int.shiftRight num 16) MIPSDSP_LO, Int.land num MIPSDSP_LO)

/-- `MIPSDSP_RETURN32(a)`: `((target_long)(int32_t)a)`. -/
def MIPSDSP_RETURN32 (a : Int) : Int := toS 32 a

/-- `MIPSDSP_RETURN32_8(a, b, c, d)`. -/
def MIPSDSP_RETURN32_8 (a b c d : Int) : Int :=
  toS 32
    (Int.lor (toU 32 (toU 32 a * 2 ^ 24))
      (Int.lor (toU 32 (toU 32 b * 2 ^ 16))
        (Int.lor (toU 32 (toU 32 c * 2 ^ 8))
          (Int.land (toU 32 d) 0xFF))))

/-- `MIPSDSP_RETURN32_16(a, b)`. -/
def MIPSDSP_RETURN32_16 (a b : Int) : Int :=
  toS 32 (Int.lor (toU 32 (toU 32 a * 2 ^ 16)) (Int.land (toU 32 b) 0xFFFF))

/-- `MIPSDSP_SPLIT64_16(num, a, b, c, d)` (only with `TARGET_MIPS64`). -/
def MIPSDSP_SPLIT64_16 (num : Int) : Int × Int × Int × Int :=
  (Int.land (Int.shiftRight num 48) MIPSDSP_LO,
   Int.land (Int.shiftRight num 32) MIPSDSP_LO,
   Int.land (Int.shiftRight num 16) MIPSDSP_LO,
   Int.land num MIPSDSP_LO)

/-- `MIPSDSP_SPLIT64_32(num, a, b)` (only with `TARGET_MIPS64`). -/
def MIPSDSP_SPLIT64_32 (num : Int) : Int × Int :=
  (Int.land (Int.shiftRight num 32) MIPSDSP_LLO, Int.land num MIPSDSP_LLO)

/-- `MIPSDSP_RETURN64_16(a, b, c, d)` (only with `TARGET_MIPS64`). -/
def MIPSDSP_RETURN64_16 (a b c d : Int) : Int :=
  Int.lor
    (Int.lor
      (Int.lor (toU 64 (toU 64 a * 2 ^ 48)) (toU 64 (toU 64 b * 2 ^ 32)))
      (toU 64 (toU 64 c * 2 ^ 16)))
    (toU 64 d)

/-- `MIPSDSP_RETURN64_32(a, b)` (only with `TARGET_MIPS64`). -/
def MIPSDSP_RETURN64_32 (a b : Int) : Int :=
  Int.lor (toU 64 (toU 64 a * 2 ^ 32)) (toU 64 b)

/-! ## Packed helpers

A helper-generating macro is a function of the kernel `func` it is instantiated
with.  The kernel argument takes lane values as the macro holds them (`uint8_t`,
`uint16_t`, `uint32_t` or `target_ulong` variables); each instantiation converts
them to the parameter types of its kernel. -/

/-- Kernel of two operands that takes the context. -/
abbrev EnvKernel := Int → Int → CPUMIPSState → Int × CPUMIPSState

/-- `ARITH_PH_ENV(name, func)`: `helper_<name>_ph(rs, rt, env)`. -/
def ARITH_PH_ENV (TARGET_MIPS64 : Bool) (func : EnvKernel) (rs rt : Int)
    (env : CPUMIPSState) : Int × CPUMIPSState :=
  let rsh := toU 16 (MIPSDSP_SPLIT32_16 rs).1
  let rsl := toU 16 (MIPSDSP_SPLIT32_16 rs).2
  let rth := toU 16 (MIPSDSP_SPLIT32_16 rt).1
  let rtl := toU 16 (MIPSDSP_SPLIT32_16 rt).2
  let r1 := func rsh rth env
  let temph := toU 16 r1.1
  let r2 := func rsl rtl r1.2
  let templ := toU 16 r2.1
  (toU (TARGET_LONG_BITS TARGET_MIPS64) (MIPSDSP_RETURN32_16 temph templ), r2.2)

/-- `ARITH_QH_ENV(name, func)`: `helper_<name>_qh(rs, rt, env)` (only with
`TARGET_MIPS64`). -/
def ARITH_QH_ENV (func : EnvKernel) (rs rt : Int) (env : CPUMIPSState) :
    Int × CPUMIPSState :=
  let rs3 := toU 16 (MIPSDSP_SPLIT64_16 rs).1
  let rs2 := toU 16 (MIPSDSP_SPLIT64_16 rs).2.1
  let rs1 := toU 16 (MIPSDSP_SPLIT64_16 rs).2.2.1
  let rs0 := toU 16 (MIPSDSP_SPLIT64_16 rs).2.2.2
  let rt3 := toU 16 (MIPSDSP_SPLIT64_16 rt).1
  let rt2 := toU 16 (MIPSDSP_SPLIT64_16 rt).2.1
  let rt1 := toU 16 (MIPSDSP_SPLIT64_16 rt).2.2.1
  let rt0 := toU 16 (MIPSDSP_SPLIT64_16 rt).2.2.2
  let rD := func rs3 rt3 env
  let rC := func rs2 rt2 rD.2
  let rB := func rs1 rt1 rC.2
  let rA := func rs0 rt0 rB.2
  (MIPSDSP_RETURN64_16 (toU 16 rD.1) (toU 16 rC.1) (toU 16 rB.1) (toU 16 rA.1), rA.2)

/-- `ARITH_W_ENV(name, func)`: `helper_<name>_w(rs, rt, env)`. -/
def ARITH_W_ENV (TARGET_MIPS64 : Bool) (func : EnvKernel) (rs rt : Int)
    (env : CPUMIPSState) : Int × CPUMIPSState :=
  let r := func rs rt env
  let rd := toU 32 r.1
  (toU (TARGET_LONG_BITS TARGET_MIPS64) (MIPSDSP_RETURN32 rd), r.2)

/-- `ARITH_PW_ENV(name, func)`: `helper_<name>_pw(rs, rt, env)` (only with
`TARGET_MIPS64`). -/
def ARITH_PW_ENV (func : EnvKernel) (rs rt : Int) (env : CPUMIPSState) :
    Int × CPUMIPSState :=
  let rs1 := toU 32 (MIPSDSP_SPLIT64_32 rs).1
  let rs0 := toU 32 (MIPSDSP_SPLIT64_32 rs).2
  let rt1 := toU 32 (MIPSDSP_SPLIT64_32 rt).1
  let rt0 := toU 32 (MIPSDSP_SPLIT64_32 rt).2
  let rB := func rs1 rt1 env
  let rA := func rs0 rt0 rB.2
  (MIPSDSP_RETURN64_32 (toU 32 rB.1) (toU 32 rA.1), rA.2)

/-- `ARITH_QB_ENV(name, func)`: `helper_<name>_qb(rs, rt, env)`; lane 0 is processed
first. -/
def ARITH_QB_ENV (TARGET_MIPS64 : Bool) (func : EnvKernel) (rs rt : Int)
    (env : CPUMIPSState) : Int × CPUMIPSState :=
  let rs3 := toU 8 (MIPSDSP_SPLIT32_8 rs).1
  let rs2 := toU 8 (MIPSDSP_SPLIT32_8 rs).2.1
  let rs1 := toU 8 (MIPSDSP_SPLIT32_8 rs).2.2.1
  let rs0 := toU 8 (MIPSDSP_SPLIT32_8 rs).2.2.2
  let rt3 := toU 8 (MIPSDSP_SPLIT32_8 rt).1
  let rt2 := toU 8 (MIPSDSP_SPLIT32_8 rt).2.1
  let rt1 := toU 8 (MIPSDSP_SPLIT32_8 rt).2.2.1
  let rt0 := toU 8 (MIPSDSP_SPLIT32_8 rt).2.2.2
  let r0 := func rs0 rt0 env
  let r1 := func rs1 rt1 r0.2
  let r2 := func rs2 rt2 r1.2
  let r3 := func rs3 rt3 r2.2
  (toU (TARGET_LONG_BITS TARGET_MIPS64)
    (MIPSDSP_RETURN32_8 (toU 8 r3.1) (toU 8 r2.1) (toU 8 r1.1) (toU 8 r0.1)), r3.2)

/-- One iteration of the loop of `ARITH_OB_ENV`, for lane `i`; the state is
`(result, env)`. -/
def ARITH_OB_ENV_step (func : EnvKernel) (rs rt : Int) (st : Int × CPUMIPSState) (i : Nat) :
    Int × CPUMIPSState :=
  let rs_t := toU 8 (Int.land (Int.shiftRight rs (8 * i)) MIPSDSP_Q0)
  let rt_t := toU 8 (Int.land (Int.shiftRight rt (8 * i)) MIPSDSP_Q0)
  let r := func rs_t rt_t st.2
  let temp := toU 8 r.1
  (Int.lor st.1 (toU 64 (toU 64 temp * 2 ^ (8 * i))), r.2)

/-- `ARITH_OB_ENV(name, func)`: `helper_<name>_ob(rs, rt, env)` (only with
`TARGET_MIPS64`); `for (i = 0; i < 8; i++)` starting from `result = 0`. -/
def ARITH_OB_ENV (func : EnvKernel) (rs rt : Int) (env : CPUMIPSState) :
    Int × CPUMIPSState :=
  (List.range 8).foldl (ARITH_OB_ENV_step func rs rt) (0, env)

/-- `SUBU_QB(name, func)`: `helper_<name>_qb(rs, rt, env)`; lane 3 is processed first. -/
def SUBU_QB (TARGET_MIPS64 : Bool) (func : EnvKernel) (rs rt : Int)
    (env : CPUMIPSState) : Int × CPUMIPSState :=
  let rs3 := toU 8 (MIPSDSP_SPLIT32_8 rs).1
  let rs2 := toU 8 (MIPSDSP_SPLIT32_8 rs).2.1
  let rs1 := toU 8 (MIPSDSP_SPLIT32_8 rs).2.2.1
  let rs0 := toU 8 (MIPSDSP_SPLIT32_8 rs).2.2.2
  let rt3 := toU 8 (MIPSDSP_SPLIT32_8 rt).1
  let rt2 := toU 8 (MIPSDSP_SPLIT32_8 rt).2.1
  let rt1 := toU 8 (MIPSDSP_SPLIT32_8 rt).2.2.1
  let rt0 := toU 8 (MIPSDSP_SPLIT32_8 rt).2.2.2
  let rD := func rs3 rt3 env
  let rC := func rs2 rt2 rD.2
  let rB := func rs1 rt1 rC.2
  let rA := func rs0 rt0 rB.2
  (toU (TARGET_LONG_BITS TARGET_MIPS64)
    (MIPSDSP_RETURN32_8 (toU 8 rD.1) (toU 8 rC.1) (toU 8 rB.1) (toU 8 rA.1)), rA.2)

/-- `helper_addsc(rs, rt, env)`. -/
def helper_addsc (TARGET_MIPS64 : Bool) (rs rt : Int) (env : CPUMIPSState) :
    Int × CPUMIPSState :=
  let tempRs := Int.land (toU 64 rs) MIPSDSP_LLO
  let tempRt := Int.land (toU 64 rt) MIPSDSP_LLO
  let temp := toU 64 (tempRs + tempRt)
  let flag := toS 32 (Int.shiftRight (Int.land temp 0x0100000000) 32)
  let env := set_DSPControl_carryflag TARGET_MIPS64 (toU 32 flag) env
  (toU (TARGET_LONG_BITS TARGET_MIPS64) (toS 32 (Int.land temp MIPSDSP_LLO)), env)

/-- `helper_addwc(rs, rt, env)`. -/
def helper_addwc (TARGET_MIPS64 : Bool) (rs rt : Int) (env : CPUMIPSState) :
    Int × CPUMIPSState :=
  let tempL := toS 64 (toS 64 (toS 64 (toS 32 rs) + toS 64 (toS 32 rt))
    + toS 64 (get_DSPControl_carryflag env))
  let temp31 := toS 32 (Int.land (Int.shiftRight tempL 31) 0x01)
  let temp32 := toS 32 (Int.land (Int.shiftRight tempL 32) 0x01)
  let env := if temp31 ≠ temp32 then
      set_DSPControl_overflow_flag TARGET_MIPS64 1 20 env
    else env
  let rd := toU 32 (Int.land (toU 64 tempL) MIPSDSP_LLO)
  (toU (TARGET_LONG_BITS TARGET_MIPS64) (toS 32 rd), env)

/-! ### Shift helpers -/

/-- `SHIFT_QB_ENV(name, func)`: `helper_<name>_qb(sa, rt, env)`. -/
def SHIFT_QB_ENV (TARGET_MIPS64 : Bool) (func : EnvKernel) (sa rt : Int)
    (env : CPUMIPSState) : Int × CPUMIPSState :=
  let sa := Int.land sa 0x07
  let rt3 := toU 8 (MIPSDSP_SPLIT32_8 rt).1
  let rt2 := toU 8 (MIPSDSP_SPLIT32_8 rt).2.1
  let rt1 := toU 8 (MIPSDSP_SPLIT32_8 rt).2.2.1
  let rt0 := toU 8 (MIPSDSP_SPLIT32_8 rt).2.2.2
  let r3 := func rt3 sa env
  let r2 := func rt2 sa r3.2
  let r1 := func rt1 sa r2.2
  let r0 := func rt0 sa r1.2
  (toU (TARGET_LONG_BITS TARGET_MIPS64)
    (MIPSDSP_RETURN32_8 (toU 8 r3.1) (toU 8 r2.1) (toU 8 r1.1) (toU 8 r0.1)), r0.2)

/-- One iteration of the loop of `SHIFT_OB_ENV`, for lane `i`; `sa` is already masked
and the state is `(temp, env)`. -/
def SHIFT_OB_ENV_step (func : EnvKernel) (rt sa : Int) (st : Int × CPUMIPSState) (i : Nat) :
    Int × CPUMIPSState :=
  let rt_t := toU 8 (Int.land (Int.shiftRight rt (8 * i)) MIPSDSP_Q0)
  let r := func rt_t sa st.2
  let rt_t := toU 8 r.1
  (Int.lor st.1 (toU 64 (toU 64 rt_t * 2 ^ (8 * i))), r.2)

/-- `SHIFT_OB_ENV(name, func)`: `helper_<name>_ob(rt, sa, env)` (only with
`TARGET_MIPS64`). -/
def SHIFT_OB_ENV (func : EnvKernel) (rt sa : Int) (env : CPUMIPSState) :
    Int × CPUMIPSState :=
  let sa := Int.land sa 0x07
  (List.range 8).foldl (SHIFT_OB_ENV_step func rt sa) (0, env)

/-- `SHIFT_PH(name, func)` in its first definition, the one with `env`:
`helper_<name>_ph(sa, rt, env)`. -/
def SHIFT_PH (TARGET_MIPS64 : Bool) (func : EnvKernel) (sa rt : Int)
    (env : CPUMIPSState) : Int × CPUMIPSState :=
  let sa := Int.land sa 0x0F
  let rth := toU 16 (MIPSDSP_SPLIT32_16 rt).1
  let rtl := toU 16 (MIPSDSP_SPLIT32_16 rt).2
  let rh := func rth sa env
  let rl := func rtl sa rh.2
  (toU (TARGET_LONG_BITS TARGET_MIPS64) (MIPSDSP_RETURN32_16 (toU 16 rh.1) (toU 16 rl.1)),
    rl.2)

/-- `SHIFT_QH_ENV(name, func)`: `helper_<name>_qh(rt, sa, env)` (only with
`TARGET_MIPS64`). -/
def SHIFT_QH_ENV (func : EnvKernel) (rt sa : Int) (env : CPUMIPSState) :
    Int × CPUMIPSState :=
  let sa := Int.land sa 0x0F
  let rt3 := toU 16 (MIPSDSP_SPLIT64_16 rt).1
  let rt2 := toU 16 (MIPSDSP_SPLIT64_16 rt).2.1
  let rt1 := toU 16 (MIPSDSP_SPLIT64_16 rt).2.2.1
  let rt0 := toU 16 (MIPSDSP_SPLIT64_16 rt).2.2.2
  let r3 := func rt3 sa env
  let r2 := func rt2 sa r3.2
  let r1 := func rt1 sa r2.2
  let r0 := func rt0 sa r1.2
  (MIPSDSP_RETURN64_16 (toU 16 r3.1) (toU 16 r2.1) (toU 16 r1.1) (toU 16 r0.1), r0.2)

/-- `SHIFT_W(name, func)`: `helper_<name>_w(sa, rt)`, for a kernel without `env`. -/
def SHIFT_W (TARGET_MIPS64 : Bool) (func : Int → Int → Int) (sa rt : Int) : Int :=
  let sa := Int.land sa 0x1F
  let temp := toU 32 (func rt sa)
  toU (TARGET_LONG_BITS TARGET_MIPS64) (toS 32 temp)

/-- `SHIFT_W_ENV(name, func)`: `helper_<name>_w(sa, rt, env)`. -/
def SHIFT_W_ENV (TARGET_MIPS64 : Bool) (func : EnvKernel) (sa rt : Int)
    (env : CPUMIPSState) : Int × CPUMIPSState :=
  let sa := Int.land sa 0x1F
  let r := func rt sa env
  let temp := toU 32 r.1
  (toU (TARGET_LONG_BITS TARGET_MIPS64) (toS 32 temp), r.2)

/-- `SHIFT_PW_ENV(name, func)`: `helper_<name>_pw(rt, sa, env)` (only with
`TARGET_MIPS64`). -/
def SHIFT_PW_ENV (func : EnvKernel) (rt sa : Int) (env : CPUMIPSState) :
    Int × CPUMIPSState :=
  let sa := Int.land sa 0x1F
  let rt1 := toU 32 (MIPSDSP_SPLIT64_32 rt).1
  let rt0 := toU 32 (MIPSDSP_SPLIT64_32 rt).2
  let r1 := func rt1 sa env
  let r0 := func rt0 sa r1.2
  (MIPSDSP_RETURN64_32 (toU 32 r1.1) (toU 32 r0.1), r0.2)

/-- `SHIFT_QB_ENV(shll, lshift8)`: `helper_shll_qb`. -/
def helper_shll_qb (TARGET_MIPS64 : Bool) (sa rt : Int) (env : CPUMIPSState) :
    Int × CPUMIPSState :=
  SHIFT_QB_ENV TARGET_MIPS64
    (fun a s e => mipsdsp_lshift8 TARGET_MIPS64 (toU 8 a) (toU 8 s) e) sa rt env

/-- `SHIFT_PH(shll, lshift16)`: `helper_shll_ph`. -/
def helper_shll_ph (TARGET_MIPS64 : Bool) (sa rt : Int) (env : CPUMIPSState) :
    Int × CPUMIPSState :=
  SHIFT_PH TARGET_MIPS64
    (fun a s e => mipsdsp_lshift16 TARGET_MIPS64 (toU 16 a) (toU 8 s) e) sa rt env

/-- `SHIFT_PH(shll_s, sat16_lshift)`: `helper_shll_s_ph`. -/
def helper_shll_s_ph (TARGET_MIPS64 : Bool) (sa rt : Int) (env : CPUMIPSState) :
    Int × CPUMIPSState :=
  SHIFT_PH TARGET_MIPS64
    (fun a s e => mipsdsp_sat16_lshift TARGET_MIPS64 (toU 16 a) (toU 8 s) e) sa rt env

/-- `SHIFT_W_ENV(shll_s, sat32_lshift)`: `helper_shll_s_w`. -/
def helper_shll_s_w (TARGET_MIPS64 : Bool) (sa rt : Int) (env : CPUMIPSState) :
    Int × CPUMIPSState :=
  SHIFT_W_ENV TARGET_MIPS64
    (fun a s e => mipsdsp_sat32_lshift TARGET_MIPS64 (toU 32 a) (toU 8 s) e) sa rt env

/-- `SHIFT_W(shra_r, rnd32_rashift)`: `helper_shra_r_w`. -/
def helper_shra_r_w (TARGET_MIPS64 : Bool) (sa rt : Int) : Int :=
  SHIFT_W TARGET_MIPS64 (fun a s => mipsdsp_rnd32_rashift (toU 32 a) (toU 8 s)) sa rt

/-! ### Instantiations and hand-written helpers -/

/-- `ARITH_QB_ENV(addu_s, sat_add_u8)`: `helper_addu_s_qb`. -/
def helper_addu_s_qb (TARGET_MIPS64 : Bool) (rs rt : Int) (env : CPUMIPSState) :
    Int × CPUMIPSState :=
  ARITH_QB_ENV TARGET_MIPS64
    (fun a b e => mipsdsp_sat_add_u8 TARGET_MIPS64 (toU 8 a) (toU 8 b) e) rs rt env

/-- `ARITH_PH_ENV(addq_s, sat_add_i16)`: `helper_addq_s_ph`. -/
def helper_addq_s_ph (TARGET_MIPS64 : Bool) (rs rt : Int) (env : CPUMIPSState) :
    Int × CPUMIPSState :=
  ARITH_PH_ENV TARGET_MIPS64
    (fun a b e => mipsdsp_sat_add_i16 TARGET_MIPS64 (toS 16 a) (toS 16 b) e) rs rt env

/-- `helper_absq_s_qb(rt, env)`. -/
def helper_absq_s_qb (TARGET_MIPS64 : Bool) (rt : Int) (env : CPUMIPSState) :
    Int × CPUMIPSState :=
  let tempD := toU 8 (MIPSDSP_SPLIT32_8 rt).1
  let tempC := toU 8 (MIPSDSP_SPLIT32_8 rt).2.1
  let tempB := toU 8 (MIPSDSP_SPLIT32_8 rt).2.2.1
  let tempA := toU 8 (MIPSDSP_SPLIT32_8 rt).2.2.2
  let rD := mipsdsp_sat_abs8 TARGET_MIPS64 (toS 8 tempD) env
  let rC := mipsdsp_sat_abs8 TARGET_MIPS64 (toS 8 tempC) rD.2
  let rB := mipsdsp_sat_abs8 TARGET_MIPS64 (toS 8 tempB) rC.2
  let rA := mipsdsp_sat_abs8 TARGET_MIPS64 (toS 8 tempA) rB.2
  (toU (TARGET_LONG_BITS TARGET_MIPS64)
    (MIPSDSP_RETURN32_8 (toU 8 rD.1) (toU 8 rC.1) (toU 8 rB.1) (toU 8 rA.1)), rA.2)

/-- First loop of `helper_absq_s_ob`, iteration `i`: `temp[i]` is read from `rt` and
replaced by its saturated absolute value.  The state is `(temp, env)` with `temp`
holding `temp[0]`, ..., `temp[i - 1]`. -/
def helper_absq_s_ob_step1 (rt : Int) (st : List Int × CPUMIPSState) (i : Nat) :
    List Int × CPUMIPSState :=
  let t := toS 8 (Int.land (Int.shiftRight rt (8 * i)) MIPSDSP_Q0)
  let r := mipsdsp_sat_abs8 true t st.2
  (st.1 ++ [toS 8 r.1], r.2)

/-- Second loop of `helper_absq_s_ob`, iteration `i`:
`result = (uint64_t)(uint8_t)temp[i] << (8 * i)`, an assignment (not `|=`), so the
previous `result` is not read. -/
def helper_absq_s_ob_step2 (temp : List Int) (_result : Int) (i : Nat) : Int :=
  toU 64 (toU 64 (toU 8 (temp.getD i 0)) * 2 ^ (8 * i))

/-- `helper_absq_s_ob(rt, env)` (only with `TARGET_MIPS64`).  `result` is declared
without an initial value and assigned in every iteration of the second loop; the
fold starts from 0, which is never read. -/
def helper_absq_s_ob (rt : Int) (env : CPUMIPSState) : Int × CPUMIPSState :=
  let l1 := (List.range 8).foldl (helper_absq_s_ob_step1 rt) ([], env)
  ((List.range 8).foldl (helper_absq_s_ob_step2 l1.1) 0, l1.2)

/-- `SUBUH_QB(name, var)`: `helper_<name>_qb(rs, rt)`.  The difference of the two
`uint16_t` operands is taken at type `int`. -/
def SUBUH_QB (TARGET_MIPS64 : Bool) (var : Int) (rs rt : Int) : Int :=
  let rs3 := toU 8 (MIPSDSP_SPLIT32_8 rs).1
  let rs2 := toU 8 (MIPSDSP_SPLIT32_8 rs).2.1
  let rs1 := toU 8 (MIPSDSP_SPLIT32_8 rs).2.2.1
  let rs0 := toU 8 (MIPSDSP_SPLIT32_8 rs).2.2.2
  let rt3 := toU 8 (MIPSDSP_SPLIT32_8 rt).1
  let rt2 := toU 8 (MIPSDSP_SPLIT32_8 rt).2.1
  let rt1 := toU 8 (MIPSDSP_SPLIT32_8 rt).2.2.1
  let rt0 := toU 8 (MIPSDSP_SPLIT32_8 rt).2.2.2
  let tempD := toU 8 (Int.shiftRight (toS 32 (toU 16 rs3 - toU 16 rt3 + var)) 1)
  let tempC := toU 8 (Int.shiftRight (toS 32 (toU 16 rs2 - toU 16 rt2 + var)) 1)
  let tempB := toU 8 (Int.shiftRight (toS 32 (toU 16 rs1 - toU 16 rt1 + var)) 1)
  let tempA := toU 8 (Int.shiftRight (toS 32 (toU 16 rs0 - toU 16 rt0 + var)) 1)
  toU (TARGET_LONG_BITS TARGET_MIPS64)
    (Int.lor
      (Int.lor
        (Int.lor (toU 32 (toU 32 tempD * 2 ^ 24)) (toU 32 (toU 32 tempC * 2 ^ 16)))
        (toU 32 (toU 32 tempB * 2 ^ 8)))
      (toU 32 tempA))

/-- `SUBUH_QB(subuh, 0)`: `helper_subuh_qb`. -/
def helper_subuh_qb (TARGET_MIPS64 : Bool) (rs rt : Int) : Int :=
  SUBUH_QB TARGET_MIPS64 0 rs rt

/-- `SUBUH_QB(subuh_r, 1)`: `helper_subuh_r_qb`. -/
def helper_subuh_r_qb (TARGET_MIPS64 : Bool) (rs rt : Int) : Int :=
  SUBUH_QB TARGET_MIPS64 1 rs rt

/-- `helper_precr_sra_ph_w(uint32_t sa, rs, rt)`. -/
def helper_precr_sra_ph_w (TARGET_MIPS64 : Bool) (sa rs rt : Int) : Int :=
  let tempB := toU 16 (Int.land (shr (toS 32 rt) sa) MIPSDSP_LO)
  let tempA := toU 16 (Int.land (shr (toS 32 rs) sa) MIPSDSP_LO)
  toU (TARGET_LONG_BITS TARGET_MIPS64) (MIPSDSP_RETURN32_16 tempB tempA)

/-- `helper_precr_sra_r_ph_w(uint32_t sa, rs, rt)`; `tempB` and `tempA` are
`uint64_t`. -/
def helper_precr_sra_r_ph_w (TARGET_MIPS64 : Bool) (sa rs rt : Int) : Int :=
  let w := TARGET_LONG_BITS TARGET_MIPS64
  let tempB :=
    if sa = 0 then toU 64 (toU w (Int.land rt MIPSDSP_LO * 2 ^ 1))
    else toU 64 (toS 32 (shr (toS 32 rt) (sa - 1) + 1))
  let tempA :=
    if sa = 0 then toU 64 (toU w (Int.land rs MIPSDSP_LO * 2 ^ 1))
    else toU 64 (toS 32 (shr (toS 32 rs) (sa - 1) + 1))
  let rt := toU w (Int.lor
    (toU 64 (Int.land (Int.shiftRight tempB 1) MIPSDSP_LO * 2 ^ 16))
    (Int.land (Int.shiftRight tempA 1) MIPSDSP_LO))
  toU w (toS 32 rt)

/-- `PRECR_QH_PW(name, var)`: `helper_precr_<name>_qh_pw(rs, rt, uint32_t sa)` (only
with `TARGET_MIPS64`). -/
def PRECR_QH_PW (var : Int) (rs rt sa : Int) : Int :=
  let rs3 := toU 16 (MIPSDSP_SPLIT64_16 rs).1
  let rs2 := toU 16 (MIPSDSP_SPLIT64_16 rs).2.1
  let rs1 := toU 16 (MIPSDSP_SPLIT64_16 rs).2.2.1
  let rs0 := toU 16 (MIPSDSP_SPLIT64_16 rs).2.2.2
  let rt3 := toU 16 (MIPSDSP_SPLIT64_16 rt).1
  let rt2 := toU 16 (MIPSDSP_SPLIT64_16 rt).2.1
  let rt1 := toU 16 (MIPSDSP_SPLIT64_16 rt).2.2.1
  let rt0 := toU 16 (MIPSDSP_SPLIT64_16 rt).2.2.2
  if sa = 0 then
    MIPSDSP_RETURN64_16 (toU 16 (shlInt rt2 var)) (toU 16 (shlInt rt0 var))
      (toU 16 (shlInt rs2 var)) (toU 16 (shlInt rs0 var))
  else
    MIPSDSP_RETURN64_16
      (toU 16 (shr (toS 32 (shr (toS 16 rt3) sa + var)) var))
      (toU 16 (shr (toS 32 (shr (toS 16 rt1) sa + var)) var))
      (toU 16 (shr (toS 32 (shr (toS 16 rs3) sa + var)) var))
      (toU 16 (shr (toS 32 (shr (toS 16 rs1) sa + var)) var))

/-- `PRECR_QH_PW(sra, 0)`: `helper_precr_sra_qh_pw`. -/
def helper_precr_sra_qh_pw (rs rt sa : Int) : Int := PRECR_QH_PW 0 rs rt sa

/-- `PRECR_QH_PW(sra_r, 1)`: `helper_precr_sra_r_qh_pw`. -/
def helper_precr_sra_r_qh_pw (rs rt sa : Int) : Int := PRECR_QH_PW 1 rs rt sa

/-! ## NC-SI checksum (`slirp/ncsi.c`) -/

/-- One iteration of the loop of `ncsi_calculate_checksum`:
`checksum += htons(data[i])` on a `uint32_t`. -/
def ncsi_calculate_checksum_step (htons : Int → Int) (data : Nat → Int) (checksum : Int)
    (i : Nat) : Int :=
  toU 32 (checksum + toU 16 (htons (data i)))

/-- `ncsi_calculate_checksum(uint16_t *data, int len)`, returns `uint32_t`:
`for (i = 0; i < len; i++)` from `checksum = 0`, then `~checksum + 1`.  The byte
order conversion `htons` of the host (`uint16_t` to `uint16_t`) is a parameter. -/
def ncsi_calculate_checksum (htons : Int → Int) (data : Nat → Int) (len : Int) : Int :=
  let checksum := (List.range len.toNat).foldl (ncsi_calculate_checksum_step htons data) 0
  toU 32 (toU 32 (Int.lnot checksum) + 1)

/-! ## Flag preservation predicates -/

/-- Every bit of the `DSPControl` value `old` that is 1 is still 1 in `new`
(`old AND new = old`). -/
def FlagsKept (old new : Int) : Prop :=
  Int.land old new = old ∧ ∀ p : Nat, old.testBit p = true → new.testBit p = true

/-- An operation on the context never clears a `DSPControl` bit. -/
def KeepsFlags {α : Type} (f : CPUMIPSState → α × CPUMIPSState) : Prop :=
  ∀ env, FlagsKept env.active_tc.DSPControl (f env).2.active_tc.DSPControl

/-- A one-operand kernel never clears a `DSPControl` bit. -/
def KeepsFlags1 (k : Int → CPUMIPSState → Int × CPUMIPSState) : Prop :=
  ∀ a, KeepsFlags (k a)

/-- A two-operand kernel or helper never clears a `DSPControl` bit. -/
def KeepsFlags2 (k : EnvKernel) : Prop :=
  ∀ a b, KeepsFlags (k a b)

/-- The only effect of an operation on the context is, at most, to set the overflow
flag at `position`. -/
def SetsOnlyFlag {α : Type} (TARGET_MIPS64 : Bool) (position : Nat)
    (f : CPUMIPSState → α × CPUMIPSState) : Prop :=
  ∀ env, (f env).2 = env ∨
    (f env).2 = set_DSPControl_overflow_flag TARGET_MIPS64 1 position env

/-- An operation leaves every `HI[i]` and `LO[i]` of the context as it was: the new
context is the old one with, at most, another `DSPControl`. -/
def KeepsAccumulators {α : Type} (f : CPUMIPSState → α × CPUMIPSState) : Prop :=
  ∀ env, (∀ i, (f env).2.active_tc.HI i = env.active_tc.HI i) ∧
    (∀ i, (f env).2.active_tc.LO i = env.active_tc.LO i) ∧
    (f env).2 = env.setDSPControl (f env).2.active_tc.DSPControl

/-! ## Auxiliary values for the accumulator theorems -/

/-- A 32-bit-mode context whose accumulator 0 holds `HI = 2`, `LO = 0` (the 64-bit
value `2 ^ 33`) and whose `DSPControl` is zero. -/
def envAcc2Pow33 : CPUMIPSState := ⟨⟨fun _ => 2, fun _ => 0, 0⟩⟩

/-- The 128-bit word `hi:lo` made of the 64-bit patterns of `hi` and `lo`. -/
def word128 (hi lo : Int) : Int := toU 64 hi * 2 ^ 64 + toU 64 lo

/-- A context whose accumulator 0 holds `HI = 0`, `LO = 0x7FFFFFFF` and whose
`DSPControl` is zero. -/
def envAccInt32Max : CPUMIPSState := ⟨⟨fun _ => 0, fun _ => 0x7FFFFFFF, 0⟩⟩

/-- A 64-bit-mode context whose accumulator 0 holds `HI = 0`,
`LO = 0xFFFFFFFFFFFFFFFF` and whose `DSPControl` is zero. -/
def envAccLoOnes : CPUMIPSState := ⟨⟨fun _ => 0, fun _ => 0xFFFFFFFFFFFFFFFF, 0⟩⟩

/-- A context whose accumulators hold `HI = hi`, `LO = lo` and whose `DSPControl`
is zero. -/
def envAcc (hi lo : Int) : CPUMIPSState := ⟨⟨fun _ => hi, fun _ => lo, 0⟩⟩

/-! ## Bit-level lemmas on `Int` -/

theorem land_natCast (m n : Nat) : Int.land (m : Int) (n : Int) = ((m &&& n : Nat) : Int) := rfl

theorem lor_natCast (m n : Nat) : Int.lor (m : Int) (n : Int) = ((m ||| n : Nat) : Int) := rfl

theorem ldiff_mask (k n : Nat) : Nat.ldiff (2 ^ k - 1) n = 2 ^ k - (n % 2 ^ k + 1) := by
  apply Nat.eq_of_testBit_eq
  intro i
  have hlt : n % 2 ^ k < 2 ^ k := Nat.mod_lt _ (Nat.two_pow_pos k)
  rw [Nat.testBit_ldiff, Nat.testBit_two_pow_sub_one, Nat.testBit_two_pow_sub_succ hlt,
    Nat.testBit_mod_two_pow]
  by_cases h : i < k <;> simp [h]

/-- Masking with `2 ^ k - 1` is reduction modulo `2 ^ k`, also for negative values. -/
theorem land_mask (x : Int) (k : Nat) : Int.land x (2 ^ k - 1) = x % 2 ^ k := by
  have hpos : 0 < 2 ^ k := Nat.two_pow_pos k
  have hc : ((2 : Int) ^ k - 1) = ((2 ^ k - 1 : Nat) : Int) := by
    rw [Nat.cast_sub hpos]; push_cast; rfl
  rw [hc]
  cases x with
  | ofNat n =>
    show Int.land (n : Int) ((2 ^ k - 1 : Nat) : Int) = (n : Int) % 2 ^ k
    rw [land_natCast, Nat.and_pow_two_sub_one_eq_mod]
    push_cast; rfl
  | negSucc n =>
    show ((Nat.ldiff (2 ^ k - 1) n : Nat) : Int) = Int.negSucc n % 2 ^ k
    rw [ldiff_mask]
    have hlt : n % 2 ^ k < 2 ^ k := Nat.mod_lt _ hpos
    have h2 : (Int.negSucc n) % (2 : Int) ^ k = ((2 ^ k - (n % 2 ^ k + 1) : Nat) : Int) := by
      have : ((2 : Int) ^ k) = ((2 ^ k : Nat) : Int) := by push_cast; rfl
      rw [this]
      show Int.emod (Int.negSucc n) ((2 ^ k : Nat) : Int) = _
      simp only [Int.emod, Int.natAbs_ofNat]
      rw [Int.subNatNat_of_le (by omega)]
    rw [h2]

theorem ldiff_two_pow (k n : Nat) :
    Nat.ldiff (2 ^ k) n = if n.testBit k then 0 else 2 ^ k := by
  apply Nat.eq_of_testBit_eq
  intro i
  rw [Nat.testBit_ldiff, Nat.testBit_two_pow]
  by_cases h : k = i
  · subst h
    cases hn : n.testBit k <;> simp [Nat.testBit_two_pow_self]
  · cases hn : n.testBit k <;> simp [h, Nat.testBit_two_pow]

theorem and_two_pow_eq (k n : Nat) :
    n &&& 2 ^ k = if n.testBit k then 2 ^ k else 0 := by
  apply Nat.eq_of_testBit_eq
  intro i
  rw [Nat.testBit_and, Nat.testBit_two_pow]
  by_cases h : k = i
  · subst h
    cases hn : n.testBit k <;> simp [Nat.testBit_two_pow_self]
  · cases hn : n.testBit k <;> simp [h, Nat.testBit_two_pow]

/-- Masking with the single bit `2 ^ k` tests bit `k`. -/
theorem land_two_pow_ne_zero (x : Int) (k : Nat) :
    (Int.land x (2 ^ k) != 0) = x.testBit k := by
  have hpos : 0 < 2 ^ k := Nat.two_pow_pos k
  have hc : ((2 : Int) ^ k) = ((2 ^ k : Nat) : Int) := by push_cast; rfl
  rw [hc]
  cases x with
  | ofNat n =>
    show (Int.land (n : Int) ((2 ^ k : Nat) : Int) != 0) = Nat.testBit n k
    rw [land_natCast, and_two_pow_eq]
    cases hn : n.testBit k
    · simp
    · simp only [if_true]
      have : ((2 ^ k : Nat) : Int) ≠ 0 := by omega
      simp
  | negSucc n =>
    show ((((Nat.ldiff (2 ^ k) n : Nat) : Int)) != 0) = !(Nat.testBit n k)
    rw [ldiff_two_pow]
    cases hn : n.testBit k
    · simp only [Bool.false_eq_true, if_false]
      have : ((2 ^ k : Nat) : Int) ≠ 0 := by omega
      simp
    · simp

/-- An `or` of a multiple of `2 ^ k` with a value below `2 ^ k` is their sum. -/
theorem lor_eq_add (a b : Int) (k : Nat) (ha : 0 ≤ a) (hb : 0 ≤ b) (hbk : b < 2 ^ k) :
    Int.lor (a * 2 ^ k) b = a * 2 ^ k + b := by
  obtain ⟨m, rfl⟩ := Int.eq_ofNat_of_zero_le ha
  obtain ⟨n, rfl⟩ := Int.eq_ofNat_of_zero_le hb
  have hn : n < 2 ^ k := by exact_mod_cast hbk
  have hc : ((m : Int) * 2 ^ k) = ((2 ^ k * m : Nat) : Int) := by push_cast; ring
  rw [hc, lor_natCast, ← Nat.mul_add_lt_is_or hn m]
  push_cast; rfl

/-- Bit `k` of an integer, arithmetically (floor division, so also for negative values). -/
theorem testBit_eq_div_mod (x : Int) (k : Nat) :
    x.testBit k = decide (x / 2 ^ k % 2 = 1) := by
  have hpos : 0 < 2 ^ k := Nat.two_pow_pos k
  cases x with
  | ofNat n =>
    show Nat.testBit n k = _
    rw [Nat.testBit_to_div_mod]
    have : ((Int.ofNat n) / 2 ^ k % 2 = 1) ↔ (n / 2 ^ k % 2 = 1) := by
      have h1 : (Int.ofNat n) / 2 ^ k % 2 = ((n / 2 ^ k % 2 : Nat) : Int) := by
        push_cast; rfl
      rw [h1]; omega
    simp only [this]
  | negSucc n =>
    show (!(Nat.testBit n k)) = _
    rw [Nat.testBit_to_div_mod]
    have h1 : (Int.negSucc n) / (2 : Int) ^ k = -(((n / 2 ^ k : Nat) : Int) + 1) := by
      have hp : (0 : Int) < 2 ^ k := by positivity
      rw [Int.negSucc_ediv _ hp]
      push_cast; rfl
    rw [h1]
    generalize n / 2 ^ k = q
    by_cases hq : q % 2 = 1
    · have : ¬ ((-((q : Int) + 1)) % 2 = 1) := by omega
      rw [decide_eq_true hq, decide_eq_false this]; rfl
    · have : ((-((q : Int) + 1)) % 2 = 1) := by omega
      rw [decide_eq_false hq, decide_eq_true this]; rfl

theorem shiftRight_div (x : Int) (k : Nat) : Int.shiftRight x k = x / 2 ^ k := by
  have h := Int.shiftRight_eq_div_pow x k
  rw [show x >>> k = Int.shiftRight x k from rfl] at h
  rw [h]; push_cast; rfl

theorem land_comm_int (x y : Int) : Int.land x y = Int.land y x := by
  cases x <;> cases y <;> simp [Int.land, Nat.land_comm, Nat.lor_comm]

theorem land_bit_iff (x : Int) (k : Nat) :
    (Int.land x (2 ^ k) != 0) = decide (x / 2 ^ k % 2 = 1) := by
  rw [land_two_pow_ne_zero, testBit_eq_div_mod]

theorem land_0x01 (x : Int) : Int.land x 0x01 = x % 2 := by
  have h := land_mask x 1; norm_num at h; exact h

theorem land_0xFF (x : Int) : Int.land x 0xFF = x % 256 := by
  have h := land_mask x 8; norm_num at h; exact h

theorem land_0xFFFF (x : Int) : Int.land x 0xFFFF = x % 65536 := by
  have h := land_mask x 16; norm_num at h; exact h

theorem land_0xFFFFFFFF (x : Int) : Int.land x 0xFFFFFFFF = x % 4294967296 := by
  have h := land_mask x 32; norm_num at h; exact h

theorem land_0x0100 (x : Int) : (Int.land x 0x0100 != 0) = decide (x / 256 % 2 = 1) := by
  have h := land_bit_iff x 8; norm_num at h ⊢; exact h

theorem land_0x0100_left (x : Int) : (Int.land 0x0100 x != 0) = decide (x / 256 % 2 = 1) := by
  rw [land_comm_int, land_0x0100]

theorem land_0x10000 (x : Int) :
    (Int.land x 0x00010000 != 0) = decide (x / 65536 % 2 = 1) := by
  have h := land_bit_iff x 16; norm_num at h ⊢; exact h

theorem land_0x10000_left (x : Int) :
    (Int.land 0x00010000 x != 0) = decide (x / 65536 % 2 = 1) := by
  rw [land_comm_int, land_0x10000]

theorem testBit_neg_one (k : Nat) : Int.testBit (-1) k = true := by
  show (!(Nat.testBit 0 k)) = true
  simp

/-- The sign-bit test of `MIPSDSP_OVERFLOW` with the mask `2 ^ k`: the first two
arguments agree in bit `k` and the third differs from the first there. -/
theorem MIPSDSP_OVERFLOW_iff (a b c : Int) (k : Nat) :
    MIPSDSP_OVERFLOW a b c (2 ^ k) = true ↔
      ((a / 2 ^ k % 2 = 1 ↔ b / 2 ^ k % 2 = 1) ∧ ¬ (a / 2 ^ k % 2 = 1 ↔ c / 2 ^ k % 2 = 1)) := by
  unfold MIPSDSP_OVERFLOW
  rw [land_two_pow_ne_zero, Int.testBit_land, Int.testBit_lxor, Int.testBit_lxor,
    Int.testBit_lxor, testBit_neg_one, testBit_eq_div_mod a, testBit_eq_div_mod b,
    testBit_eq_div_mod c]
  by_cases ha : a / 2 ^ k % 2 = 1 <;> by_cases hb : b / 2 ^ k % 2 = 1 <;>
    by_cases hc : c / 2 ^ k % 2 = 1 <;> simp [ha, hb, hc]

theorem MIPSDSP_OVERFLOW_16 (a b c : Int) :
    MIPSDSP_OVERFLOW a b c 0x8000 = true ↔
      ((a / 32768 % 2 = 1 ↔ b / 32768 % 2 = 1) ∧ ¬ (a / 32768 % 2 = 1 ↔ c / 32768 % 2 = 1)) := by
  have h := MIPSDSP_OVERFLOW_iff a b c 15; norm_num at h ⊢; exact h

theorem MIPSDSP_OVERFLOW_32 (a b c : Int) :
    MIPSDSP_OVERFLOW a b c 0x80000000 = true ↔
      ((a / 2147483648 % 2 = 1 ↔ b / 2147483648 % 2 = 1) ∧
        ¬ (a / 2147483648 % 2 = 1 ↔ c / 2147483648 % 2 = 1)) := by
  have h := MIPSDSP_OVERFLOW_iff a b c 31; norm_num at h ⊢; exact h

/-- Setting a flag below bit 32 ORs exactly that bit into `DSPControl`, in both
target widths. -/
theorem set_flag_eq (m64 : Bool) (p : Nat) (hp : p < 32) (env : CPUMIPSState) :
    set_DSPControl_overflow_flag m64 1 p env =
      env.setDSPControl (Int.lor env.active_tc.DSPControl (2 ^ p)) := by
  unfold set_DSPControl_overflow_flag toU TARGET_LONG_BITS
  have h32 : (2 : Int) ^ p < 2 ^ 32 := pow_lt_pow_right₀ (by norm_num) hp
  have h64 : (2 : Int) ^ p < 2 ^ 64 := pow_lt_pow_right₀ (by norm_num) (by omega)
  have h0 : (0 : Int) ≤ 2 ^ p := by positivity
  cases m64
  · have : (1 % (2 : Int) ^ 32 * 2 ^ p) % 2 ^ 32 = 2 ^ p := by
      rw [show (1 : Int) % 2 ^ 32 = 1 from by norm_num, one_mul]
      exact Int.emod_eq_of_lt h0 h32
    simp only [Bool.false_eq_true, if_false, this]
  · have : (1 % (2 : Int) ^ 64 * 2 ^ p) % 2 ^ 64 = 2 ^ p := by
      rw [show (1 : Int) % 2 ^ 64 = 1 from by norm_num, one_mul]
      exact Int.emod_eq_of_lt h0 h64
    simp only [if_true, this]

/-- An `or` of a non-negative multiple of `2 ^ k` with a value below `2 ^ k` is
their sum; the multiple is given by divisibility. -/
theorem lor_eq_add_of_dvd (u b : Int) (k : Nat) (hu : 0 ≤ u) (hd : u % 2 ^ k = 0)
    (hb : 0 ≤ b) (hbk : b < 2 ^ k) : Int.lor u b = u + b := by
  have hp : (0 : Int) < 2 ^ k := by positivity
  have hu2 : u = u / 2 ^ k * 2 ^ k := by
    have := Int.emod_add_ediv u (2 ^ k)
    rw [hd] at this
    linarith [mul_comm (u / 2 ^ k) ((2 : Int) ^ k)]
  have hq : 0 ≤ u / 2 ^ k := Int.ediv_nonneg hu (le_of_lt hp)
  rw [hu2, lor_eq_add _ _ k hq hb hbk]

/-! ## Lane codec round trip -/

theorem split32_8_return (x : Int) (h0 : 0 ≤ x) (h1 : x < 2 ^ 32) :
    toU 32 (MIPSDSP_RETURN32_8 (MIPSDSP_SPLIT32_8 x).1 (MIPSDSP_SPLIT32_8 x).2.1
      (MIPSDSP_SPLIT32_8 x).2.2.1 (MIPSDSP_SPLIT32_8 x).2.2.2) = x := by
  simp only [MIPSDSP_SPLIT32_8, MIPSDSP_RETURN32_8, MIPSDSP_Q0, shiftRight_div, land_0xFF]
  norm_num at h1
  have e3 : toU 32 (toU 32 (x / 2 ^ 24 % 256) * 2 ^ 24) = (x / 2 ^ 24 % 256) * 2 ^ 24 := by
    simp only [toU]; norm_num; omega
  have e2 : toU 32 (toU 32 (x / 2 ^ 16 % 256) * 2 ^ 16) = (x / 2 ^ 16 % 256) * 2 ^ 16 := by
    simp only [toU]; norm_num; omega
  have e1 : toU 32 (toU 32 (x / 2 ^ 8 % 256) * 2 ^ 8) = (x / 2 ^ 8 % 256) * 2 ^ 8 := by
    simp only [toU]; norm_num; omega
  have e0 : toU 32 (x % 256) % 256 = x % 256 := by
    simp only [toU]; norm_num
  rw [e3, e2, e1, e0]
  rw [lor_eq_add _ _ 8 (by omega) (by omega) (by norm_num; omega)]
  rw [lor_eq_add _ _ 16 (by omega) (by omega) (by norm_num; omega)]
  rw [lor_eq_add _ _ 24 (by omega) (by omega) (by norm_num; omega)]
  simp only [toU, toS]
  norm_num
  omega

theorem split32_16_return (x : Int) (h0 : 0 ≤ x) (h1 : x < 2 ^ 32) :
    toU 32 (MIPSDSP_RETURN32_16 (MIPSDSP_SPLIT32_16 x).1 (MIPSDSP_SPLIT32_16 x).2) = x := by
  simp only [MIPSDSP_SPLIT32_16, MIPSDSP_RETURN32_16, MIPSDSP_LO, shiftRight_div, land_0xFFFF]
  norm_num at h1
  have e1 : toU 32 (toU 32 (x / 2 ^ 16 % 65536) * 2 ^ 16) = (x / 2 ^ 16 % 65536) * 2 ^ 16 := by
    simp only [toU]; norm_num; omega
  have e0 : toU 32 (x % 65536) % 65536 = x % 65536 := by
    simp only [toU]; norm_num
  rw [e1, e0]
  rw [lor_eq_add _ _ 16 (by omega) (by omega) (by norm_num; omega)]
  simp only [toU, toS]
  norm_num
  omega

theorem split64_16_return (x : Int) (h0 : 0 ≤ x) (h1 : x < 2 ^ 64) :
    MIPSDSP_RETURN64_16 (MIPSDSP_SPLIT64_16 x).1 (MIPSDSP_SPLIT64_16 x).2.1
      (MIPSDSP_SPLIT64_16 x).2.2.1 (MIPSDSP_SPLIT64_16 x).2.2.2 = x := by
  simp only [MIPSDSP_SPLIT64_16, MIPSDSP_RETURN64_16, MIPSDSP_LO, shiftRight_div, land_0xFFFF]
  norm_num at h1
  have e3 : toU 64 (toU 64 (x / 2 ^ 48 % 65536) * 2 ^ 48) = (x / 2 ^ 48 % 65536) * 2 ^ 48 := by
    simp only [toU]; norm_num; omega
  have e2 : toU 64 (toU 64 (x / 2 ^ 32 % 65536) * 2 ^ 32) = (x / 2 ^ 32 % 65536) * 2 ^ 32 := by
    simp only [toU]; norm_num; omega
  have e1 : toU 64 (toU 64 (x / 2 ^ 16 % 65536) * 2 ^ 16) = (x / 2 ^ 16 % 65536) * 2 ^ 16 := by
    simp only [toU]; norm_num; omega
  have e0 : toU 64 (x % 65536) = x % 65536 := by
    simp only [toU]; norm_num; omega
  rw [e3, e2, e1, e0]
  have hA : 0 ≤ x / 2 ^ 48 % 65536 ∧ x / 2 ^ 48 % 65536 < 65536 := by omega
  have hB : 0 ≤ x / 2 ^ 32 % 65536 ∧ x / 2 ^ 32 % 65536 < 65536 := by omega
  have hC : 0 ≤ x / 2 ^ 16 % 65536 ∧ x / 2 ^ 16 % 65536 < 65536 := by omega
  have hD : 0 ≤ x % 65536 ∧ x % 65536 < 65536 := by omega
  have hx : x = x / 2 ^ 48 % 65536 * 2 ^ 48 + x / 2 ^ 32 % 65536 * 2 ^ 32
      + x / 2 ^ 16 % 65536 * 2 ^ 16 + x % 65536 := by
    norm_num; omega
  generalize x / 2 ^ 48 % 65536 = A at *
  generalize x / 2 ^ 32 % 65536 = B at *
  generalize x / 2 ^ 16 % 65536 = C at *
  generalize x % 65536 = D at *
  have l1 : Int.lor (A * 2 ^ 48) (B * 2 ^ 32) = A * 2 ^ 48 + B * 2 ^ 32 :=
    lor_eq_add_of_dvd _ _ 48 (by omega) (by norm_num) (by omega) (by norm_num; omega)
  have l2 : Int.lor (A * 2 ^ 48 + B * 2 ^ 32) (C * 2 ^ 16)
      = A * 2 ^ 48 + B * 2 ^ 32 + C * 2 ^ 16 :=
    lor_eq_add_of_dvd _ _ 32 (by omega) (by norm_num; omega) (by omega) (by norm_num; omega)
  have l3 : Int.lor (A * 2 ^ 48 + B * 2 ^ 32 + C * 2 ^ 16) D
      = A * 2 ^ 48 + B * 2 ^ 32 + C * 2 ^ 16 + D :=
    lor_eq_add_of_dvd _ _ 16 (by omega) (by norm_num; omega) (by omega) (by norm_num; omega)
  rw [l1, l2, l3]
  exact hx.symm

theorem split64_32_return (x : Int) (h0 : 0 ≤ x) (h1 : x < 2 ^ 64) :
    MIPSDSP_RETURN64_32 (MIPSDSP_SPLIT64_32 x).1 (MIPSDSP_SPLIT64_32 x).2 = x := by
  simp only [MIPSDSP_SPLIT64_32, MIPSDSP_RETURN64_32, MIPSDSP_LLO, shiftRight_div,
    land_0xFFFFFFFF]
  norm_num at h1
  have e1 : toU 64 (toU 64 (x / 2 ^ 32 % 4294967296) * 2 ^ 32)
      = (x / 2 ^ 32 % 4294967296) * 2 ^ 32 := by
    simp only [toU]; norm_num; omega
  have e0 : toU 64 (x % 4294967296) = x % 4294967296 := by
    simp only [toU]; norm_num; omega
  rw [e1, e0]
  rw [lor_eq_add _ _ 32 (by omega) (by omega) (by norm_num; omega)]
  norm_num
  omega

/-- C1: splitting a 32-bit word into four byte lanes or two halfword lanes and
recombining them with `MIPSDSP_RETURN32_8` / `MIPSDSP_RETURN32_16` gives the word
back (as a 32-bit value), and splitting a 64-bit word into four halfword lanes or
two word lanes and recombining them with `MIPSDSP_RETURN64_16` /
`MIPSDSP_RETURN64_32` gives the word back. -/
theorem split_combine_roundtrip :
    (∀ x a b c d : Int, 0 ≤ x → x < 2 ^ 32 → MIPSDSP_SPLIT32_8 x = (a, b, c, d) →
        toU 32 (MIPSDSP_RETURN32_8 a b c d) = x) ∧
    (∀ x a b : Int, 0 ≤ x → x < 2 ^ 32 → MIPSDSP_SPLIT32_16 x = (a, b) →
        toU 32 (MIPSDSP_RETURN32_16 a b) = x) ∧
    (∀ x a b c d : Int, 0 ≤ x → x < 2 ^ 64 → MIPSDSP_SPLIT64_16 x = (a, b, c, d) →
        MIPSDSP_RETURN64_16 a b c d = x) ∧
    (∀ x a b : Int, 0 ≤ x → x < 2 ^ 64 → MIPSDSP_SPLIT64_32 x = (a, b) →
        MIPSDSP_RETURN64_32 a b = x) := by
  refine ⟨?_, ?_, ?_, ?_⟩
  · intro x a b c d h0 h1 hs
    have := split32_8_return x h0 h1
    rw [hs] at this; exact this
  · intro x a b h0 h1 hs
    have := split32_16_return x h0 h1
    rw [hs] at this; exact this
  · intro x a b c d h0 h1 hs
    have := split64_16_return x h0 h1
    rw [hs] at this; exact this
  · intro x a b h0 h1 hs
    have := split64_32_return x h0 h1
    rw [hs] at this; exact this

/-- C1 at the words `0x89ABCDEF` and `0x0123456789ABCDEF`. -/
theorem split_combine_roundtrip_witness :
    toU 32 (MIPSDSP_RETURN32_8 0x89 0xAB 0xCD 0xEF) = 0x89ABCDEF ∧
    toU 32 (MIPSDSP_RETURN32_16 0x89AB 0xCDEF) = 0x89ABCDEF ∧
    MIPSDSP_RETURN64_16 0x0123 0x4567 0x89AB 0xCDEF = 0x0123456789ABCDEF ∧
    MIPSDSP_RETURN64_32 0x01234567 0x89ABCDEF = 0x0123456789ABCDEF :=
  ⟨split_combine_roundtrip.1 0x89ABCDEF 0x89 0xAB 0xCD 0xEF (by decide) (by decide) (by decide),
   split_combine_roundtrip.2.1 0x89ABCDEF 0x89AB 0xCDEF (by decide) (by decide) (by decide),
   split_combine_roundtrip.2.2.1 0x0123456789ABCDEF 0x0123 0x4567 0x89AB 0xCDEF
     (by decide) (by decide) (by decide),
   split_combine_roundtrip.2.2.2 0x0123456789ABCDEF 0x01234567 0x89ABCDEF
     (by decide) (by decide) (by decide)⟩

/-! ## Signed addition -/

theorem toS_16 (x : Int) : toS 16 x = (x + 32768) % 65536 - 32768 := by
  simp only [toS]; norm_num

theorem toS_32 (x : Int) : toS 32 x = (x + 2147483648) % 4294967296 - 2147483648 := by
  simp only [toS]; norm_num

theorem toU_8 (x : Int) : toU 8 x = x % 256 := by
  simp only [toU]; norm_num

theorem toU_16 (x : Int) : toU 16 x = x % 65536 := by
  simp only [toU]; norm_num

theorem toU_32 (x : Int) : toU 32 x = x % 4294967296 := by
  simp only [toU]; norm_num

theorem toU_64 (x : Int) : toU 64 x = x % 18446744073709551616 := by
  simp only [toU]; norm_num

theorem toS_8 (x : Int) : toS 8 x = (x + 128) % 256 - 128 := by
  simp only [toS]; norm_num

theorem toS_64 (x : Int) :
    toS 64 x = (x + 9223372036854775808) % 18446744073709551616 - 9223372036854775808 := by
  simp only [toS]; norm_num

theorem setDSPControl_DSPControl (env : CPUMIPSState) (v : Int) :
    (env.setDSPControl v).active_tc.DSPControl = v := rfl

/-- C2: for signed 16-bit `a` and `b`, `mipsdsp_sat_add_i16` returns `a + b`
clamped to `[-32768, 32767]`, and the new `DSPControl` is the old one with bit 20
OR-ed in exactly when `a + b` lies outside that range (unchanged otherwise). -/
theorem mipsdsp_sat_add_i16_spec (m64 : Bool) (a b : Int) (env : CPUMIPSState)
    (ha : -32768 ≤ a ∧ a ≤ 32767) (hb : -32768 ≤ b ∧ b ≤ 32767) :
    (mipsdsp_sat_add_i16 m64 a b env).1 = max (-32768) (min (a + b) 32767) ∧
    (mipsdsp_sat_add_i16 m64 a b env).2.active_tc.DSPControl =
      (if a + b < -32768 ∨ 32767 < a + b then Int.lor env.active_tc.DSPControl (2 ^ 20)
       else env.active_tc.DSPControl) := by
  simp only [mipsdsp_sat_add_i16, toS_16]
  have hov := MIPSDSP_OVERFLOW_16 a b ((a + b + 32768) % 65536 - 32768)
  by_cases h : MIPSDSP_OVERFLOW a b ((a + b + 32768) % 65536 - 32768) 0x8000 = true
  · have h' := h
    rw [hov] at h'
    have hc : a + b < -32768 ∨ 32767 < a + b := by omega
    simp only [h, if_true, hc, set_flag_eq m64 20 (by norm_num), setDSPControl_DSPControl,
      and_true]
    by_cases hp : a > 0
    · simp only [hp, if_true]; omega
    · simp only [hp, if_false]; omega
  · have h' := h
    rw [hov] at h'
    have hc : ¬ (a + b < -32768 ∨ 32767 < a + b) := by omega
    simp only [h, Bool.false_eq_true, if_false, hc, and_true]
    omega

/-- C2 at `(0x7FFF, 1)`, which saturates and sets bit 20, and at `(0x7FFF, 0)`,
which leaves `DSPControl` as it was. -/
theorem mipsdsp_sat_add_i16_spec_witness :
    ((mipsdsp_sat_add_i16 false 0x7FFF 1 env0).1 = 0x7FFF ∧
      (mipsdsp_sat_add_i16 false 0x7FFF 1 env0).2.active_tc.DSPControl = 0x100000) ∧
    ((mipsdsp_sat_add_i16 false 0x7FFF 0 env0).1 = 0x7FFF ∧
      (mipsdsp_sat_add_i16 false 0x7FFF 0 env0).2.active_tc.DSPControl = 0) :=
  ⟨⟨(mipsdsp_sat_add_i16_spec false 0x7FFF 1 env0 (by decide) (by decide)).1.trans (by decide),
    (mipsdsp_sat_add_i16_spec false 0x7FFF 1 env0 (by decide) (by decide)).2.trans (by decide)⟩,
   ⟨(mipsdsp_sat_add_i16_spec false 0x7FFF 0 env0 (by decide) (by decide)).1.trans (by decide),
    (mipsdsp_sat_add_i16_spec false 0x7FFF 0 env0 (by decide) (by decide)).2.trans (by decide)⟩⟩

theorem mipsdsp_add_i16_correct (m64 : Bool) (a b : Int) (env : CPUMIPSState)
    (ha : -32768 ≤ a ∧ a ≤ 32767) (hb : -32768 ≤ b ∧ b ≤ 32767) :
    (-32768 ≤ (mipsdsp_add_i16 m64 a b env).1 ∧ (mipsdsp_add_i16 m64 a b env).1 ≤ 32767 ∧
      ((mipsdsp_add_i16 m64 a b env).1 - (a + b)) % 65536 = 0) ∧
    (mipsdsp_add_i16 m64 a b env).2.active_tc.DSPControl =
      (if a + b < -32768 ∨ 32767 < a + b then Int.lor env.active_tc.DSPControl (2 ^ 20)
       else env.active_tc.DSPControl) := by
  simp only [mipsdsp_add_i16, toS_16]
  have hov := MIPSDSP_OVERFLOW_16 a b ((a + b + 32768) % 65536 - 32768)
  by_cases h : MIPSDSP_OVERFLOW a b ((a + b + 32768) % 65536 - 32768) 0x8000 = true
  · have h' := h
    rw [hov] at h'
    have hc : a + b < -32768 ∨ 32767 < a + b := by omega
    simp only [h, if_true, hc, set_flag_eq m64 20 (by norm_num), setDSPControl_DSPControl,
      and_true]
    omega
  · have h' := h
    rw [hov] at h'
    have hc : ¬ (a + b < -32768 ∨ 32767 < a + b) := by omega
    simp only [h, Bool.false_eq_true, if_false, hc, and_true]
    omega

theorem mipsdsp_add_i32_correct (m64 : Bool) (a b : Int) (env : CPUMIPSState)
    (ha : -2147483648 ≤ a ∧ a ≤ 2147483647) (hb : -2147483648 ≤ b ∧ b ≤ 2147483647) :
    (-2147483648 ≤ (mipsdsp_add_i32 m64 a b env).1 ∧
      (mipsdsp_add_i32 m64 a b env).1 ≤ 2147483647 ∧
      ((mipsdsp_add_i32 m64 a b env).1 - (a + b)) % 4294967296 = 0) ∧
    (mipsdsp_add_i32 m64 a b env).2.active_tc.DSPControl =
      (if a + b < -2147483648 ∨ 2147483647 < a + b then
        Int.lor env.active_tc.DSPControl (2 ^ 20)
       else env.active_tc.DSPControl) := by
  simp only [mipsdsp_add_i32, toS_32]
  have hov := MIPSDSP_OVERFLOW_32 a b ((a + b + 2147483648) % 4294967296 - 2147483648)
  by_cases h : MIPSDSP_OVERFLOW a b ((a + b + 2147483648) % 4294967296 - 2147483648)
      0x80000000 = true
  · have h' := h
    rw [hov] at h'
    have hc : a + b < -2147483648 ∨ 2147483647 < a + b := by omega
    simp only [h, if_true, hc, set_flag_eq m64 20 (by norm_num), setDSPControl_DSPControl,
      and_true]
    omega
  · have h' := h
    rw [hov] at h'
    have hc : ¬ (a + b < -2147483648 ∨ 2147483647 < a + b) := by omega
    simp only [h, Bool.false_eq_true, if_false, hc, and_true]
    omega

/-- C3: for signed 16-bit `a` and `b`, the non-saturating `mipsdsp_add_i16` returns
the signed 16-bit value congruent to `a + b` modulo `2 ^ 16` and ORs bit 20 into
`DSPControl` exactly when `a + b` does not fit in a signed 16-bit integer; the
same holds for `mipsdsp_add_i32` with width 32. -/
theorem mipsdsp_add_wrap_spec (m64 : Bool) (env : CPUMIPSState) :
    (∀ a b : Int, -32768 ≤ a ∧ a ≤ 32767 → -32768 ≤ b ∧ b ≤ 32767 →
      (-32768 ≤ (mipsdsp_add_i16 m64 a b env).1 ∧ (mipsdsp_add_i16 m64 a b env).1 ≤ 32767 ∧
        ((mipsdsp_add_i16 m64 a b env).1 - (a + b)) % 65536 = 0) ∧
      (mipsdsp_add_i16 m64 a b env).2.active_tc.DSPControl =
        (if a + b < -32768 ∨ 32767 < a + b then Int.lor env.active_tc.DSPControl (2 ^ 20)
         else env.active_tc.DSPControl)) ∧
    (∀ a b : Int, -2147483648 ≤ a ∧ a ≤ 2147483647 → -2147483648 ≤ b ∧ b ≤ 2147483647 →
      (-2147483648 ≤ (mipsdsp_add_i32 m64 a b env).1 ∧
        (mipsdsp_add_i32 m64 a b env).1 ≤ 2147483647 ∧
        ((mipsdsp_add_i32 m64 a b env).1 - (a + b)) % 4294967296 = 0) ∧
      (mipsdsp_add_i32 m64 a b env).2.active_tc.DSPControl =
        (if a + b < -2147483648 ∨ 2147483647 < a + b then
          Int.lor env.active_tc.DSPControl (2 ^ 20)
         else env.active_tc.DSPControl)) :=
  ⟨fun a b ha hb => mipsdsp_add_i16_correct m64 a b env ha hb,
   fun a b ha hb => mipsdsp_add_i32_correct m64 a b env ha hb⟩

/-- C3 at `32767 + 1` (wraps to `-32768`, bit 20 set) and at
`2147483647 + 1` (wraps to `-2147483648`, bit 20 set). -/
theorem mipsdsp_add_wrap_spec_witness :
    ((mipsdsp_add_i16 false 32767 1 env0).1 = -32768 ∧
      (mipsdsp_add_i16 false 32767 1 env0).2.active_tc.DSPControl = 0x100000) ∧
    ((mipsdsp_add_i32 false 2147483647 1 env0).1 = -2147483648 ∧
      (mipsdsp_add_i32 false 2147483647 1 env0).2.active_tc.DSPControl = 0x100000) := by
  have h16 := (mipsdsp_add_wrap_spec false env0).1 32767 1 (by decide) (by decide)
  have h32 := (mipsdsp_add_wrap_spec false env0).2 2147483647 1 (by decide) (by decide)
  refine ⟨⟨?_, h16.2.trans (by decide)⟩, ⟨?_, h32.2.trans (by decide)⟩⟩
  · have := h16.1; omega
  · have := h32.1; omega

/-! ## Signed subtraction -/

/-- C4 at `b = -32768`: for `a = 0` the difference `32768` is out of range, yet
`mipsdsp_sat16_sub` returns the wrapped pattern `0x8000` and `mipsdsp_sub_i16`
sets no flag; for `a = -1` the difference `32767` is in range, yet both set bit 20
and the saturating kernel returns `0x8000` instead of `0x7FFF`. -/
theorem mipsdsp_sat16_sub_at_min (m64 : Bool) (env : CPUMIPSState) :
    mipsdsp_sat16_sub m64 0 (-32768) env = (0x8000, env) ∧
    mipsdsp_sub_i16 m64 0 (-32768) env = (0x8000, env) ∧
    mipsdsp_sat16_sub m64 (-1) (-32768) env =
      (0x8000, env.setDSPControl (Int.lor env.active_tc.DSPControl (2 ^ 20))) ∧
    mipsdsp_sub_i16 m64 (-1) (-32768) env =
      (0x7FFF, env.setDSPControl (Int.lor env.active_tc.DSPControl (2 ^ 20))) := by
  have h0 : MIPSDSP_OVERFLOW 0 (-(-32768)) (toS 16 (0 - -32768)) 0x8000 = false := by
    rw [Bool.eq_false_iff, Ne, MIPSDSP_OVERFLOW_16, toS_16]; omega
  have h1 : MIPSDSP_OVERFLOW (-1) (-(-32768)) (toS 16 (-1 - -32768)) 0x8000 = true := by
    rw [MIPSDSP_OVERFLOW_16, toS_16]; omega
  have e0 : toU 16 (toS 16 (0 - -32768)) = 0x8000 := by decide
  have e1 : toU 16 (toS 16 (-1 - -32768)) = 0x7FFF := by decide
  have e2 : toU 16 (toS 16 0x8000) = 0x8000 := by decide
  have hn : ¬ ((-1 : Int) > 0) := by decide
  simp only [mipsdsp_sat16_sub, mipsdsp_sub_i16, h0, h1, e0, e1, e2, hn, if_true, if_false,
    Bool.false_eq_true, set_flag_eq m64 20 (by norm_num), and_self]

/-- Away from `b = -32768` the 16-bit saturating subtraction clamps the difference
and flags exactly the out-of-range differences. -/
theorem mipsdsp_sat16_sub_of_ne_min (m64 : Bool) (a b : Int) (env : CPUMIPSState)
    (ha : -32768 ≤ a ∧ a ≤ 32767) (hb : -32768 < b ∧ b ≤ 32767) :
    (mipsdsp_sat16_sub m64 a b env).1 = toU 16 (max (-32768) (min (a - b) 32767)) ∧
    (mipsdsp_sat16_sub m64 a b env).2.active_tc.DSPControl =
      (if a - b < -32768 ∨ 32767 < a - b then Int.lor env.active_tc.DSPControl (2 ^ 20)
       else env.active_tc.DSPControl) := by
  simp only [mipsdsp_sat16_sub, toS_16, toU_16]
  have hov := MIPSDSP_OVERFLOW_16 a (-b) ((a - b + 32768) % 65536 - 32768)
  by_cases h : MIPSDSP_OVERFLOW a (-b) ((a - b + 32768) % 65536 - 32768) 0x8000 = true
  · have h' := h
    rw [hov] at h'
    have hc : a - b < -32768 ∨ 32767 < a - b := by omega
    simp only [h, if_true, hc, set_flag_eq m64 20 (by norm_num), setDSPControl_DSPControl,
      and_true]
    by_cases hp : a > 0
    · simp only [hp, if_true]; omega
    · simp only [hp, if_false]; omega
  · have h' := h
    rw [hov] at h'
    have hc : ¬ (a - b < -32768 ∨ 32767 < a - b) := by omega
    simp only [h, Bool.false_eq_true, if_false, hc, and_true]
    omega

/-- C5 at `b = INT32_MIN`: for `a = 0` the difference `2 ^ 31` does not fit, yet
`mipsdsp_sat32_sub` returns the wrapped pattern `0x80000000` and sets no flag (as
does `mipsdsp_sub32`); for `a = -1` the difference `2 ^ 31 - 1` fits, yet bit 20 is
set and the saturating kernel returns `0x80000000` instead of `0x7FFFFFFF`. -/
theorem mipsdsp_sat32_sub_at_min (m64 : Bool) (env : CPUMIPSState) :
    mipsdsp_sat32_sub m64 0 INT32_MIN env = (0x80000000, env) ∧
    mipsdsp_sub32 m64 0 INT32_MIN env = (0x80000000, env) ∧
    mipsdsp_sat32_sub m64 (-1) INT32_MIN env =
      (0x80000000, env.setDSPControl (Int.lor env.active_tc.DSPControl (2 ^ 20))) ∧
    mipsdsp_sub32 m64 (-1) INT32_MIN env =
      (0x7FFFFFFF, env.setDSPControl (Int.lor env.active_tc.DSPControl (2 ^ 20))) := by
  have h0 : MIPSDSP_OVERFLOW 0 (toS 32 (-(-2147483648))) (toS 32 (0 - -2147483648))
      0x80000000 = false := by
    rw [Bool.eq_false_iff, Ne, MIPSDSP_OVERFLOW_32, toS_32, toS_32]; omega
  have h1 : MIPSDSP_OVERFLOW (-1) (toS 32 (-(-2147483648))) (toS 32 (-1 - -2147483648))
      0x80000000 = true := by
    rw [MIPSDSP_OVERFLOW_32, toS_32, toS_32]; omega
  have e0 : toU 32 (toS 32 (0 - -2147483648)) = 0x80000000 := by decide
  have e1 : toU 32 (toS 32 (-1 - -2147483648)) = 0x7FFFFFFF := by decide
  have e2 : toU 32 (Int.land (toU 64 (toS 32 (0 - -2147483648))) 0xFFFFFFFF) = 0x80000000 := by
    rw [land_0xFFFFFFFF]; decide
  have e3 : toU 32 (Int.land (toU 64 (toS 32 0x80000000)) 0xFFFFFFFF) = 0x80000000 := by
    rw [land_0xFFFFFFFF]; decide
  have hn : ¬ ((-1 : Int) > 0) := by decide
  simp only [mipsdsp_sat32_sub, mipsdsp_sub32, INT32_MIN, h0, h1, e0, e1, e2, e3, hn, if_true,
    if_false, Bool.false_eq_true, set_flag_eq m64 20 (by norm_num), and_self]

/-- Away from `b = INT32_MIN` the 32-bit saturating subtraction clamps the
difference and flags exactly the differences that do not fit. -/
theorem mipsdsp_sat32_sub_of_ne_min (m64 : Bool) (a b : Int) (env : CPUMIPSState)
    (ha : -2147483648 ≤ a ∧ a ≤ 2147483647) (hb : -2147483648 < b ∧ b ≤ 2147483647) :
    (mipsdsp_sat32_sub m64 a b env).1 =
      toU 32 (max (-2147483648) (min (a - b) 2147483647)) ∧
    (mipsdsp_sat32_sub m64 a b env).2.active_tc.DSPControl =
      (if a - b < -2147483648 ∨ 2147483647 < a - b then
        Int.lor env.active_tc.DSPControl (2 ^ 20)
       else env.active_tc.DSPControl) := by
  by_cases h : MIPSDSP_OVERFLOW a (toS 32 (-b)) (toS 32 (a - b)) 0x80000000 = true
  · have h' := h
    simp only [MIPSDSP_OVERFLOW_32, toS_32] at h'
    have hc : a - b < -2147483648 ∨ 2147483647 < a - b := by omega
    simp only [mipsdsp_sat32_sub, h, if_true, hc, set_flag_eq m64 20 (by norm_num),
      setDSPControl_DSPControl, and_true]
    by_cases hp : a > 0
    · simp only [hp, if_true, land_0xFFFFFFFF, toS_32, toU_32, toU_64]; omega
    · simp only [hp, if_false, land_0xFFFFFFFF, toS_32, toU_32, toU_64]; omega
  · have h' := h
    simp only [MIPSDSP_OVERFLOW_32, toS_32] at h'
    have hc : ¬ (a - b < -2147483648 ∨ 2147483647 < a - b) := by omega
    simp only [mipsdsp_sat32_sub, h, Bool.false_eq_true, if_false, hc, and_true]
    simp only [land_0xFFFFFFFF, toS_32, toU_32, toU_64]
    omega

/-! ## Unsigned addition and subtraction -/

theorem mipsdsp_add_u8_correct (m64 : Bool) (a b : Int) (env : CPUMIPSState)
    (ha : 0 ≤ a ∧ a ≤ 255) (hb : 0 ≤ b ∧ b ≤ 255) :
    ((mipsdsp_add_u8 m64 a b env).1 = (a + b) % 256 ∧
      (mipsdsp_add_u8 m64 a b env).2.active_tc.DSPControl =
        (if 255 < a + b then Int.lor env.active_tc.DSPControl (2 ^ 20)
         else env.active_tc.DSPControl)) ∧
    ((mipsdsp_sat_add_u8 m64 a b env).1 = min (a + b) 255 ∧
      (mipsdsp_sat_add_u8 m64 a b env).2.active_tc.DSPControl =
        (if 255 < a + b then Int.lor env.active_tc.DSPControl (2 ^ 20)
         else env.active_tc.DSPControl)) := by
  simp only [mipsdsp_add_u8, mipsdsp_sat_add_u8, land_0x0100, land_0x0100_left, land_0xFF,
    toU_8, toU_16]
  by_cases hc : 255 < a + b
  · have h : (a % 65536 + b % 65536) % 65536 / 256 % 2 = 1 := by omega
    simp only [h, hc, decide_True, if_true, set_flag_eq m64 20 (by norm_num),
      setDSPControl_DSPControl, and_true]
    omega
  · have h : ¬ ((a % 65536 + b % 65536) % 65536 / 256 % 2 = 1) := by omega
    simp only [h, hc, decide_False, Bool.false_eq_true, if_false, and_true]
    omega

theorem mipsdsp_add_u16_correct (m64 : Bool) (a b : Int) (env : CPUMIPSState)
    (ha : 0 ≤ a ∧ a ≤ 65535) (hb : 0 ≤ b ∧ b ≤ 65535) :
    ((mipsdsp_add_u16 m64 a b env).1 = (a + b) % 65536 ∧
      (mipsdsp_add_u16 m64 a b env).2.active_tc.DSPControl =
        (if 65535 < a + b then Int.lor env.active_tc.DSPControl (2 ^ 20)
         else env.active_tc.DSPControl)) ∧
    ((mipsdsp_sat_add_u16 m64 a b env).1 = min (a + b) 65535 ∧
      (mipsdsp_sat_add_u16 m64 a b env).2.active_tc.DSPControl =
        (if 65535 < a + b then Int.lor env.active_tc.DSPControl (2 ^ 20)
         else env.active_tc.DSPControl)) := by
  simp only [mipsdsp_add_u16, mipsdsp_sat_add_u16, land_0x10000, land_0x10000_left,
    land_0xFFFF, toU_16, toU_32]
  by_cases hc : 65535 < a + b
  · have h : (a % 4294967296 + b % 4294967296) % 4294967296 / 65536 % 2 = 1 := by omega
    simp only [h, hc, decide_True, if_true, set_flag_eq m64 20 (by norm_num),
      setDSPControl_DSPControl, and_true]
    omega
  · have h : ¬ ((a % 4294967296 + b % 4294967296) % 4294967296 / 65536 % 2 = 1) := by omega
    simp only [h, hc, decide_False, Bool.false_eq_true, if_false, and_true]
    omega

/-- C6: for unsigned 8-bit `a` and `b`, `mipsdsp_add_u8` returns `(a + b) mod 256`
and `mipsdsp_sat_add_u8` returns `min (a + b) 255`; each ORs bit 20 into
`DSPControl` exactly when `a + b > 255` and otherwise leaves it unchanged.  The
16-bit kernels `mipsdsp_add_u16` / `mipsdsp_sat_add_u16` do the same with 65535. -/
theorem mipsdsp_add_unsigned_spec (m64 : Bool) (env : CPUMIPSState) :
    (∀ a b : Int, 0 ≤ a ∧ a ≤ 255 → 0 ≤ b ∧ b ≤ 255 →
      ((mipsdsp_add_u8 m64 a b env).1 = (a + b) % 256 ∧
        (mipsdsp_add_u8 m64 a b env).2.active_tc.DSPControl =
          (if 255 < a + b then Int.lor env.active_tc.DSPControl (2 ^ 20)
           else env.active_tc.DSPControl)) ∧
      ((mipsdsp_sat_add_u8 m64 a b env).1 = min (a + b) 255 ∧
        (mipsdsp_sat_add_u8 m64 a b env).2.active_tc.DSPControl =
          (if 255 < a + b then Int.lor env.active_tc.DSPControl (2 ^ 20)
           else env.active_tc.DSPControl))) ∧
    (∀ a b : Int, 0 ≤ a ∧ a ≤ 65535 → 0 ≤ b ∧ b ≤ 65535 →
      ((mipsdsp_add_u16 m64 a b env).1 = (a + b) % 65536 ∧
        (mipsdsp_add_u16 m64 a b env).2.active_tc.DSPControl =
          (if 65535 < a + b then Int.lor env.active_tc.DSPControl (2 ^ 20)
           else env.active_tc.DSPControl)) ∧
      ((mipsdsp_sat_add_u16 m64 a b env).1 = min (a + b) 65535 ∧
        (mipsdsp_sat_add_u16 m64 a b env).2.active_tc.DSPControl =
          (if 65535 < a + b then Int.lor env.active_tc.DSPControl (2 ^ 20)
           else env.active_tc.DSPControl))) :=
  ⟨fun a b ha hb => mipsdsp_add_u8_correct m64 a b env ha hb,
   fun a b ha hb => mipsdsp_add_u16_correct m64 a b env ha hb⟩

/-- C6 at `200 + 100` (8-bit) and `65535 + 1` (16-bit). -/
theorem mipsdsp_add_unsigned_spec_witness :
    (((mipsdsp_add_u8 false 200 100 env0).1 = 44 ∧
        (mipsdsp_add_u8 false 200 100 env0).2.active_tc.DSPControl = 0x100000) ∧
      ((mipsdsp_sat_add_u8 false 200 100 env0).1 = 255 ∧
        (mipsdsp_sat_add_u8 false 200 100 env0).2.active_tc.DSPControl = 0x100000)) ∧
    (((mipsdsp_add_u16 false 65535 1 env0).1 = 0 ∧
        (mipsdsp_add_u16 false 65535 1 env0).2.active_tc.DSPControl = 0x100000) ∧
      ((mipsdsp_sat_add_u16 false 65535 1 env0).1 = 65535 ∧
        (mipsdsp_sat_add_u16 false 65535 1 env0).2.active_tc.DSPControl = 0x100000)) := by
  have h8 := (mipsdsp_add_unsigned_spec false env0).1 200 100 (by decide) (by decide)
  have h16 := (mipsdsp_add_unsigned_spec false env0).2 65535 1 (by decide) (by decide)
  exact ⟨⟨⟨h8.1.1.trans (by decide), h8.1.2.trans (by decide)⟩,
      ⟨h8.2.1.trans (by decide), h8.2.2.trans (by decide)⟩⟩,
    ⟨⟨h16.1.1.trans (by decide), h16.1.2.trans (by decide)⟩,
      ⟨h16.2.1.trans (by decide), h16.2.2.trans (by decide)⟩⟩⟩

theorem mipsdsp_sub_u8_correct (m64 : Bool) (a b : Int) (env : CPUMIPSState)
    (ha : 0 ≤ a ∧ a ≤ 255) (hb : 0 ≤ b ∧ b ≤ 255) :
    ((mipsdsp_sub_u8 m64 a b env).1 = (a - b) % 256 ∧
      (mipsdsp_sub_u8 m64 a b env).2.active_tc.DSPControl =
        (if a < b then Int.lor env.active_tc.DSPControl (2 ^ 20)
         else env.active_tc.DSPControl)) ∧
    ((mipsdsp_satu8_sub m64 a b env).1 = max (a - b) 0 ∧
      (mipsdsp_satu8_sub m64 a b env).2.active_tc.DSPControl =
        (if a < b then Int.lor env.active_tc.DSPControl (2 ^ 20)
         else env.active_tc.DSPControl)) := by
  simp only [mipsdsp_sub_u8, mipsdsp_satu8_sub, shiftRight_div, land_0x01, land_0xFF,
    toU_8, toU_16]
  by_cases hc : a < b
  · have h : (a % 65536 - b % 65536) % 65536 / 2 ^ 8 % 2 % 256 = 1 := by norm_num; omega
    simp only [h, hc, if_true, set_flag_eq m64 20 (by norm_num),
      setDSPControl_DSPControl, and_true]
    omega
  · have h : ¬ ((a % 65536 - b % 65536) % 65536 / 2 ^ 8 % 2 % 256 = 1) := by norm_num; omega
    simp only [h, hc, if_false, and_true]
    omega

theorem mipsdsp_sub_u16_correct (m64 : Bool) (a b : Int) (env : CPUMIPSState)
    (ha : 0 ≤ a ∧ a ≤ 65535) (hb : 0 ≤ b ∧ b ≤ 65535) :
    ((mipsdsp_sub_u16_u16 m64 a b env).1 = (a - b) % 65536 ∧
      (mipsdsp_sub_u16_u16 m64 a b env).2.active_tc.DSPControl =
        (if a < b then Int.lor env.active_tc.DSPControl (2 ^ 20)
         else env.active_tc.DSPControl)) ∧
    ((mipsdsp_satu16_sub_u16_u16 m64 a b env).1 = max (a - b) 0 ∧
      (mipsdsp_satu16_sub_u16_u16 m64 a b env).2.active_tc.DSPControl =
        (if a < b then Int.lor env.active_tc.DSPControl (2 ^ 20)
         else env.active_tc.DSPControl)) := by
  simp only [mipsdsp_sub_u16_u16, mipsdsp_satu16_sub_u16_u16, shiftRight_div, land_0x01,
    land_0xFFFF, toU_8, toU_16, toU_32]
  by_cases hc : a < b
  · have h : (a % 4294967296 - b % 4294967296) % 4294967296 / 2 ^ 16 % 2 % 256 = 1 := by
      norm_num; omega
    simp only [h, hc, if_true, set_flag_eq m64 20 (by norm_num),
      setDSPControl_DSPControl, and_true]
    omega
  · have h : ¬ ((a % 4294967296 - b % 4294967296) % 4294967296 / 2 ^ 16 % 2 % 256 = 1) := by
      norm_num; omega
    simp only [h, hc, if_false, and_true]
    omega

/-- C7: for unsigned 8-bit `a` and `b`, `mipsdsp_sub_u8` returns `(a - b) mod 256`
and `mipsdsp_satu8_sub` returns `max (a - b) 0`; each ORs bit 20 into `DSPControl`
exactly when `a < b`.  The 16-bit kernels `mipsdsp_sub_u16_u16` /
`mipsdsp_satu16_sub_u16_u16` do the same modulo `2 ^ 16`. -/
theorem mipsdsp_sub_unsigned_spec (m64 : Bool) (env : CPUMIPSState) :
    (∀ a b : Int, 0 ≤ a ∧ a ≤ 255 → 0 ≤ b ∧ b ≤ 255 →
      ((mipsdsp_sub_u8 m64 a b env).1 = (a - b) % 256 ∧
        (mipsdsp_sub_u8 m64 a b env).2.active_tc.DSPControl =
          (if a < b then Int.lor env.active_tc.DSPControl (2 ^ 20)
           else env.active_tc.DSPControl)) ∧
      ((mipsdsp_satu8_sub m64 a b env).1 = max (a - b) 0 ∧
        (mipsdsp_satu8_sub m64 a b env).2.active_tc.DSPControl =
          (if a < b then Int.lor env.active_tc.DSPControl (2 ^ 20)
           else env.active_tc.DSPControl))) ∧
    (∀ a b : Int, 0 ≤ a ∧ a ≤ 65535 → 0 ≤ b ∧ b ≤ 65535 →
      ((mipsdsp_sub_u16_u16 m64 a b env).1 = (a - b) % 65536 ∧
        (mipsdsp_sub_u16_u16 m64 a b env).2.active_tc.DSPControl =
          (if a < b then Int.lor env.active_tc.DSPControl (2 ^ 20)
           else env.active_tc.DSPControl)) ∧
      ((mipsdsp_satu16_sub_u16_u16 m64 a b env).1 = max (a - b) 0 ∧
        (mipsdsp_satu16_sub_u16_u16 m64 a b env).2.active_tc.DSPControl =
          (if a < b then Int.lor env.active_tc.DSPControl (2 ^ 20)
           else env.active_tc.DSPControl))) :=
  ⟨fun a b ha hb => mipsdsp_sub_u8_correct m64 a b env ha hb,
   fun a b ha hb => mipsdsp_sub_u16_correct m64 a b env ha hb⟩

/-- C7 at `3 - 5` (8-bit, borrow) and `7 - 2` (16-bit, no borrow). -/
theorem mipsdsp_sub_unsigned_spec_witness :
    (((mipsdsp_sub_u8 false 3 5 env0).1 = 254 ∧
        (mipsdsp_sub_u8 false 3 5 env0).2.active_tc.DSPControl = 0x100000) ∧
      ((mipsdsp_satu8_sub false 3 5 env0).1 = 0 ∧
        (mipsdsp_satu8_sub false 3 5 env0).2.active_tc.DSPControl = 0x100000)) ∧
    (((mipsdsp_sub_u16_u16 false 7 2 env0).1 = 5 ∧
        (mipsdsp_sub_u16_u16 false 7 2 env0).2.active_tc.DSPControl = 0) ∧
      ((mipsdsp_satu16_sub_u16_u16 false 7 2 env0).1 = 5 ∧
        (mipsdsp_satu16_sub_u16_u16 false 7 2 env0).2.active_tc.DSPControl = 0)) := by
  have h8 := (mipsdsp_sub_unsigned_spec false env0).1 3 5 (by decide) (by decide)
  have h16 := (mipsdsp_sub_unsigned_spec false env0).2 7 2 (by decide) (by decide)
  exact ⟨⟨⟨h8.1.1.trans (by decide), h8.1.2.trans (by decide)⟩,
      ⟨h8.2.1.trans (by decide), h8.2.2.trans (by decide)⟩⟩,
    ⟨⟨h16.1.1.trans (by decide), h16.1.2.trans (by decide)⟩,
      ⟨h16.2.1.trans (by decide), h16.2.2.trans (by decide)⟩⟩⟩

/-! ## Averaging addition -/

theorem mipsdsp_rshift1_add_q16_correct (a b : Int)
    (ha : -32768 ≤ a ∧ a ≤ 32767) (hb : -32768 ≤ b ∧ b ≤ 32767) :
    mipsdsp_rshift1_add_q16 a b = (a + b) / 2 ∧
    mipsdsp_rrshift1_add_q16 a b = (a + b + 1) / 2 ∧
    (-32768 ≤ (a + b) / 2 ∧ (a + b) / 2 ≤ 32767) ∧
    (-32768 ≤ (a + b + 1) / 2 ∧ (a + b + 1) / 2 ≤ 32767) := by
  simp only [mipsdsp_rshift1_add_q16, mipsdsp_rrshift1_add_q16, shiftRight_div, land_0xFFFF,
    toS_16, toS_32]
  norm_num
  omega

theorem mipsdsp_rshift1_add_q32_correct (a b : Int)
    (ha : -2147483648 ≤ a ∧ a ≤ 2147483647) (hb : -2147483648 ≤ b ∧ b ≤ 2147483647) :
    mipsdsp_rshift1_add_q32 a b = (a + b) / 2 ∧
    mipsdsp_rrshift1_add_q32 a b = (a + b + 1) / 2 ∧
    (-2147483648 ≤ (a + b) / 2 ∧ (a + b) / 2 ≤ 2147483647) ∧
    (-2147483648 ≤ (a + b + 1) / 2 ∧ (a + b + 1) / 2 ≤ 2147483647) := by
  simp only [mipsdsp_rshift1_add_q32, mipsdsp_rrshift1_add_q32, shiftRight_div,
    land_0xFFFFFFFF, toS_32, toS_64]
  norm_num
  omega

/-- C8: for signed 16-bit `a` and `b`, `mipsdsp_rshift1_add_q16 a b` is
`floor ((a + b) / 2)` and `mipsdsp_rrshift1_add_q16 a b` is
`floor ((a + b + 1) / 2)`, the exact values (no intermediate overflow), and both
lie in the signed 16-bit range; the same holds for the 32-bit kernels
`mipsdsp_rshift1_add_q32` / `mipsdsp_rrshift1_add_q32`. -/
theorem mipsdsp_rshift1_add_spec :
    (∀ a b : Int, -32768 ≤ a ∧ a ≤ 32767 → -32768 ≤ b ∧ b ≤ 32767 →
      mipsdsp_rshift1_add_q16 a b = (a + b) / 2 ∧
      mipsdsp_rrshift1_add_q16 a b = (a + b + 1) / 2 ∧
      (-32768 ≤ (a + b) / 2 ∧ (a + b) / 2 ≤ 32767) ∧
      (-32768 ≤ (a + b + 1) / 2 ∧ (a + b + 1) / 2 ≤ 32767)) ∧
    (∀ a b : Int, -2147483648 ≤ a ∧ a ≤ 2147483647 → -2147483648 ≤ b ∧ b ≤ 2147483647 →
      mipsdsp_rshift1_add_q32 a b = (a + b) / 2 ∧
      mipsdsp_rrshift1_add_q32 a b = (a + b + 1) / 2 ∧
      (-2147483648 ≤ (a + b) / 2 ∧ (a + b) / 2 ≤ 2147483647) ∧
      (-2147483648 ≤ (a + b + 1) / 2 ∧ (a + b + 1) / 2 ≤ 2147483647)) :=
  ⟨fun a b ha hb => mipsdsp_rshift1_add_q16_correct a b ha hb,
   fun a b ha hb => mipsdsp_rshift1_add_q32_correct a b ha hb⟩

/-- C8 at `(3, 4)`: the plain average is `3` and the rounded average is `4`, in
both widths. -/
theorem mipsdsp_rshift1_add_spec_witness :
    (mipsdsp_rshift1_add_q16 3 4 = 3 ∧ mipsdsp_rrshift1_add_q16 3 4 = 4) ∧
    (mipsdsp_rshift1_add_q32 3 4 = 3 ∧ mipsdsp_rrshift1_add_q32 3 4 = 4) := by
  have h16 := mipsdsp_rshift1_add_spec.1 3 4 (by decide) (by decide)
  have h32 := mipsdsp_rshift1_add_spec.2 3 4 (by decide) (by decide)
  exact ⟨⟨h16.1.trans (by decide), h16.2.1.trans (by decide)⟩,
    ⟨h32.1.trans (by decide), h32.2.1.trans (by decide)⟩⟩

/-! ## Saturating absolute value -/

/-- C9: for every width `w` in `8, 16, 32` and every signed `w`-bit `a`,
`mipsdsp_sat_abs<w>` returns `|a|` and leaves the context unchanged when `a` is not
the most negative value, and returns the maximum (127 / 32767 / 2147483647) and ORs
bit 20 into `DSPControl` when it is. -/
theorem mipsdsp_sat_abs_spec (m64 : Bool) (env : CPUMIPSState) :
    (∀ a : Int, -128 ≤ a ∧ a ≤ 127 →
      (a ≠ -128 → mipsdsp_sat_abs8 m64 a env = (|a|, env)) ∧
      (a = -128 → (mipsdsp_sat_abs8 m64 a env).1 = 127 ∧
        (mipsdsp_sat_abs8 m64 a env).2.active_tc.DSPControl =
          Int.lor env.active_tc.DSPControl (2 ^ 20))) ∧
    (∀ a : Int, -32768 ≤ a ∧ a ≤ 32767 →
      (a ≠ -32768 → mipsdsp_sat_abs16 m64 a env = (|a|, env)) ∧
      (a = -32768 → (mipsdsp_sat_abs16 m64 a env).1 = 32767 ∧
        (mipsdsp_sat_abs16 m64 a env).2.active_tc.DSPControl =
          Int.lor env.active_tc.DSPControl (2 ^ 20))) ∧
    (∀ a : Int, -2147483648 ≤ a ∧ a ≤ 2147483647 →
      (a ≠ -2147483648 → mipsdsp_sat_abs32 m64 a env = (|a|, env)) ∧
      (a = -2147483648 → (mipsdsp_sat_abs32 m64 a env).1 = 2147483647 ∧
        (mipsdsp_sat_abs32 m64 a env).2.active_tc.DSPControl =
          Int.lor env.active_tc.DSPControl (2 ^ 20))) := by
  refine ⟨?_, ?_, ?_⟩
  · intro a ha
    refine ⟨fun hne => ?_, fun he => ?_⟩
    · simp only [mipsdsp_sat_abs8, INT8_MIN, hne, if_false, MIPSDSP_ABS, toS_8]
      by_cases h0 : a ≥ 0
      · rw [if_pos h0, abs_of_nonneg h0]; congr 1; omega
      · rw [if_neg h0, abs_of_neg (by omega)]; congr 1; omega
    · simp only [mipsdsp_sat_abs8, INT8_MIN, INT8_MAX, he, if_true,
        set_flag_eq m64 20 (by norm_num), setDSPControl_DSPControl, and_self]
  · intro a ha
    refine ⟨fun hne => ?_, fun he => ?_⟩
    · simp only [mipsdsp_sat_abs16, INT16_MIN, hne, if_false, MIPSDSP_ABS, toS_16]
      by_cases h0 : a ≥ 0
      · rw [if_pos h0, abs_of_nonneg h0]; congr 1; omega
      · rw [if_neg h0, abs_of_neg (by omega)]; congr 1; omega
    · simp only [mipsdsp_sat_abs16, INT16_MIN, INT16_MAX, he, if_true,
        set_flag_eq m64 20 (by norm_num), setDSPControl_DSPControl, and_self]
  · intro a ha
    refine ⟨fun hne => ?_, fun he => ?_⟩
    · simp only [mipsdsp_sat_abs32, INT32_MIN, hne, if_false, MIPSDSP_ABS, toS_32]
      by_cases h0 : a ≥ 0
      · rw [if_pos h0, abs_of_nonneg h0]; congr 1; omega
      · rw [if_neg h0, abs_of_neg (by omega)]; congr 1; omega
    · simp only [mipsdsp_sat_abs32, INT32_MIN, INT32_MAX, he, if_true,
        set_flag_eq m64 20 (by norm_num), setDSPControl_DSPControl, and_self]

/-- C9 at `-128` (saturates to `127`, bit 20 set) and at `-5` (gives `5`, context
unchanged). -/
theorem mipsdsp_sat_abs_spec_witness :
    ((mipsdsp_sat_abs8 false (-128) env0).1 = 127 ∧
      (mipsdsp_sat_abs8 false (-128) env0).2.active_tc.DSPControl = 0x100000) ∧
    mipsdsp_sat_abs8 false (-5) env0 = (5, env0) := by
  have h1 := ((mipsdsp_sat_abs_spec false env0).1 (-128) (by decide)).2 rfl
  have h2 := ((mipsdsp_sat_abs_spec false env0).1 (-5) (by decide)).1 (by decide)
  exact ⟨⟨h1.1, h1.2.trans (by decide)⟩, h2.trans (by rw [abs_of_neg (by decide)]; rfl)⟩

/-! ## Q15 multiplication with the per-accumulator flag -/

theorem testBit_two_pow_int (k p : Nat) : Int.testBit ((2 : Int) ^ k) p = decide (k = p) := by
  have hc : ((2 : Int) ^ k) = ((2 ^ k : Nat) : Int) := by push_cast; rfl
  rw [hc]
  show Nat.testBit (2 ^ k) p = _
  exact Nat.testBit_two_pow

/-- C10: for every accumulator index `ac` in `0..3`, `mipsdsp_mul_q15_q15` on
`(0x8000, 0x8000)` returns `0x7FFFFFFF`, and the new `DSPControl` is the old one
with bit `16 + ac` OR-ed in: that bit is set and every other bit (in particular
bit `16 + j` for `j ≠ ac`) is as before. -/
theorem mipsdsp_mul_q15_q15_min_min (m64 : Bool) (ac : Nat) (env : CPUMIPSState)
    (hac : ac ≤ 3) :
    (mipsdsp_mul_q15_q15 m64 ac 0x8000 0x8000 env).1 = 0x7FFFFFFF ∧
    (mipsdsp_mul_q15_q15 m64 ac 0x8000 0x8000 env).2.active_tc.DSPControl =
      Int.lor env.active_tc.DSPControl (2 ^ (16 + ac)) ∧
    Int.testBit (mipsdsp_mul_q15_q15 m64 ac 0x8000 0x8000 env).2.active_tc.DSPControl
      (16 + ac) = true ∧
    (∀ p : Nat, p ≠ 16 + ac →
      Int.testBit (mipsdsp_mul_q15_q15 m64 ac 0x8000 0x8000 env).2.active_tc.DSPControl p =
        Int.testBit env.active_tc.DSPControl p) := by
  have hd : (mipsdsp_mul_q15_q15 m64 ac 0x8000 0x8000 env).2.active_tc.DSPControl =
      Int.lor env.active_tc.DSPControl (2 ^ (16 + ac)) := by
    simp only [mipsdsp_mul_q15_q15, and_self, if_true, set_flag_eq m64 (16 + ac) (by omega),
      setDSPControl_DSPControl]
  refine ⟨?_, hd, ?_, ?_⟩
  · simp only [mipsdsp_mul_q15_q15, and_self, if_true]
    decide
  · rw [hd, Int.testBit_lor, testBit_two_pow_int]
    simp
  · intro p hp
    rw [hd, Int.testBit_lor, testBit_two_pow_int]
    have : ¬ (16 + ac = p) := fun h => hp h.symm
    simp [this]

/-- C10 at accumulator 1 on a context whose `DSPControl` already has bit 16
(accumulator 0) set: bit 17 is added and nothing else changes. -/
theorem mipsdsp_mul_q15_q15_min_min_witness :
    (mipsdsp_mul_q15_q15 false 1 0x8000 0x8000 (env0.setDSPControl 0x10000)).1 = 0x7FFFFFFF ∧
    (mipsdsp_mul_q15_q15 false 1 0x8000 0x8000
      (env0.setDSPControl 0x10000)).2.active_tc.DSPControl = 0x30000 := by
  have h := mipsdsp_mul_q15_q15_min_min false 1 (env0.setDSPControl 0x10000) (by decide)
  exact ⟨h.1, h.2.1.trans (by decide)⟩

/-! ## Q15 multiplication: the general branch -/

/-- C11 at `a = 0xFFFF` (`-1` in Q15's raw integer), `b = 0x0001`: twice the signed
product is `-2`, which `mipsdsp_mul_q15_q15_overflowflag21` returns, but
`mipsdsp_mul_q15_q15` multiplies the unsigned patterns and returns `0x1FFFE`. -/
theorem mipsdsp_mul_q15_q15_unsigned_product (m64 : Bool) (ac : Nat) (env : CPUMIPSState) :
    mipsdsp_mul_q15_q15 m64 ac 0xFFFF 0x0001 env = (0x1FFFE, env) ∧
    mipsdsp_mul_q15_q15_overflowflag21 m64 0xFFFF 0x0001 env = (-2, env) ∧
    2 * (toS 16 0xFFFF * toS 16 0x0001) = -2 := by
  have h1 : ¬ ((0xFFFF : Int) = 0x8000 ∧ (0x0001 : Int) = 0x8000) := by decide
  have e1 : toS 32 (toU 32 (toU 32 (toU 32 0xFFFF * toU 32 0x0001) * 2 ^ 1)) = 0x1FFFE := by
    decide
  have e2 : shlInt (toS 32 (toS 32 (toS 16 0xFFFF) * toS 32 (toS 16 0x0001))) 1 = -2 := by
    decide
  refine ⟨?_, ?_, by decide⟩
  · simp only [mipsdsp_mul_q15_q15, h1, if_false, e1]
  · simp only [mipsdsp_mul_q15_q15_overflowflag21, h1, if_false, e2]

/-- When both operands have the sign bit clear, `mipsdsp_mul_q15_q15` returns twice
the product and leaves the context unchanged. -/
theorem mipsdsp_mul_q15_q15_of_nonneg (m64 : Bool) (ac : Nat) (a b : Int)
    (env : CPUMIPSState) (ha : 0 ≤ a ∧ a < 0x8000) (hb : 0 ≤ b ∧ b < 0x8000) :
    mipsdsp_mul_q15_q15 m64 ac a b env = (2 * (toS 16 a * toS 16 b), env) := by
  have h1 : ¬ (a = 0x8000 ∧ b = 0x8000) := by omega
  have hp0 : 0 ≤ a * b := mul_nonneg ha.1 hb.1
  have hp1 : a * b ≤ 32767 * 32767 := by
    have := mul_le_mul (show a ≤ 32767 by omega) (show b ≤ 32767 by omega) hb.1 (by norm_num)
    linarith
  simp only [mipsdsp_mul_q15_q15, h1, if_false, toS_16, toS_32, toU_32]
  have ea : (a + 32768) % 65536 - 32768 = a := by omega
  have eb : (b + 32768) % 65536 - 32768 = b := by omega
  have ea' : a % 4294967296 = a := by omega
  have eb' : b % 4294967296 = b := by omega
  rw [ea, eb, ea', eb']
  generalize a * b = p at *
  congr 1
  omega

/-! ## Flag isolation and monotonicity -/

/-- Two integers with the same bits are equal. -/
theorem int_eq_of_testBit_eq (x y : Int) (h : ∀ k, x.testBit k = y.testBit k) : x = y := by
  have hbig : ∀ m n : Nat, ¬ (∀ k, Nat.testBit m k = !(Nat.testBit n k)) := by
    intro m n hk
    have hm : m < 2 ^ (m + n) :=
      lt_of_lt_of_le (Nat.lt_two_pow m) (Nat.pow_le_pow_right (by norm_num) (by omega))
    have hn : n < 2 ^ (m + n) :=
      lt_of_lt_of_le (Nat.lt_two_pow n) (Nat.pow_le_pow_right (by norm_num) (by omega))
    have := hk (m + n)
    rw [Nat.testBit_lt_two_pow hm, Nat.testBit_lt_two_pow hn] at this
    exact absurd this (by decide)
  cases x with
  | ofNat m =>
    cases y with
    | ofNat n =>
      have : m = n := Nat.eq_of_testBit_eq (fun k => h k)
      rw [this]
    | negSucc n => exact absurd (fun k => h k) (hbig m n)
  | negSucc m =>
    cases y with
    | ofNat n =>
      exact absurd (fun k => (h k).symm) (hbig n m)
    | negSucc n =>
      have : m = n := Nat.eq_of_testBit_eq (fun k => by
        have hk : (!(Nat.testBit m k)) = !(Nat.testBit n k) := h k
        cases hm : Nat.testBit m k <;> cases hn : Nat.testBit n k <;> simp_all)
      rw [this]

theorem flagsKept_refl (d : Int) : FlagsKept d d := by
  refine ⟨?_, fun p hp => hp⟩
  apply int_eq_of_testBit_eq
  intro k
  rw [Int.testBit_land]
  cases d.testBit k <;> rfl

theorem flagsKept_lor (d x : Int) : FlagsKept d (Int.lor d x) := by
  refine ⟨?_, fun p hp => ?_⟩
  · apply int_eq_of_testBit_eq
    intro k
    rw [Int.testBit_land, Int.testBit_lor]
    cases d.testBit k <;> cases x.testBit k <;> rfl
  · rw [Int.testBit_lor, hp]; rfl

theorem flagsKept_trans {a b c : Int} (h1 : FlagsKept a b) (h2 : FlagsKept b c) :
    FlagsKept a c := by
  refine ⟨?_, fun p hp => h2.2 p (h1.2 p hp)⟩
  apply int_eq_of_testBit_eq
  intro k
  rw [Int.testBit_land]
  cases ha : a.testBit k
  · rfl
  · rw [h2.2 k (h1.2 k ha)]; rfl

theorem flagsKept_set_overflow (m64 : Bool) (flag : Int) (position : Nat)
    (env : CPUMIPSState) :
    FlagsKept env.active_tc.DSPControl
      (set_DSPControl_overflow_flag m64 flag position env).active_tc.DSPControl :=
  flagsKept_lor _ _

theorem flagsKept_set_carry (m64 : Bool) (flag : Int) (env : CPUMIPSState) :
    FlagsKept env.active_tc.DSPControl
      (set_DSPControl_carryflag m64 flag env).active_tc.DSPControl :=
  flagsKept_lor _ _

/-- Bits other than `position` are untouched by setting the flag at `position`. -/
theorem set_flag_testBit_ne (m64 : Bool) (position p : Nat) (hpos : position < 32)
    (hp : p ≠ position) (env : CPUMIPSState) :
    (set_DSPControl_overflow_flag m64 1 position env).active_tc.DSPControl.testBit p =
      env.active_tc.DSPControl.testBit p := by
  rw [set_flag_eq m64 position hpos, setDSPControl_DSPControl, Int.testBit_lor,
    testBit_two_pow_int]
  have : ¬ (position = p) := fun h => hp h.symm
  simp [this]

theorem mipsdsp_sat32_acc_q31_env (m64 : Bool) (ac : Nat) (a : Int) (env : CPUMIPSState) :
    (mipsdsp_sat32_acc_q31 m64 ac a env).2 = env ∨
    (mipsdsp_sat32_acc_q31 m64 ac a env).2 =
      set_DSPControl_overflow_flag m64 1 (16 + ac) env := by
  simp only [mipsdsp_sat32_acc_q31]
  split_ifs <;> simp

theorem mipsdsp_sat64_acc_add_q63_env (m64 : Bool) (ac : Nat) (a : Int × Int)
    (env : CPUMIPSState) :
    (mipsdsp_sat64_acc_add_q63 m64 ac a env).2 = env ∨
    (mipsdsp_sat64_acc_add_q63 m64 ac a env).2 =
      set_DSPControl_overflow_flag m64 1 (16 + ac) env := by
  simp only [mipsdsp_sat64_acc_add_q63]
  split_ifs <;> simp

theorem mipsdsp_sat64_acc_sub_q63_env (m64 : Bool) (ac : Nat) (a : Int × Int)
    (env : CPUMIPSState) :
    (mipsdsp_sat64_acc_sub_q63 m64 ac a env).2 = env ∨
    (mipsdsp_sat64_acc_sub_q63 m64 ac a env).2 =
      set_DSPControl_overflow_flag m64 1 (16 + ac) env := by
  simp only [mipsdsp_sat64_acc_sub_q63]
  split_ifs <;> simp

theorem mipsdsp_mul_q15_q15_env (m64 : Bool) (ac : Nat) (a b : Int) (env : CPUMIPSState) :
    (mipsdsp_mul_q15_q15 m64 ac a b env).2 = env ∨
    (mipsdsp_mul_q15_q15 m64 ac a b env).2 =
      set_DSPControl_overflow_flag m64 1 (16 + ac) env := by
  simp only [mipsdsp_mul_q15_q15]
  split_ifs <;> simp

theorem mipsdsp_mul_q31_q31_env (m64 : Bool) (ac : Nat) (a b : Int) (env : CPUMIPSState) :
    (mipsdsp_mul_q31_q31 m64 ac a b env).2 = env ∨
    (mipsdsp_mul_q31_q31 m64 ac a b env).2 =
      set_DSPControl_overflow_flag m64 1 (16 + ac) env := by
  simp only [mipsdsp_mul_q31_q31]
  split_ifs <;> simp

/-- C12: for every accumulator index `ac` in `0..3`, every context and every operand,
each accumulator-addressed kernel (`mipsdsp_sat32_acc_q31`,
`mipsdsp_sat64_acc_add_q63`, `mipsdsp_sat64_acc_sub_q63`, `mipsdsp_mul_q15_q15`,
`mipsdsp_mul_q31_q31`) leaves every `DSPControl` bit other than bit `16 + ac` as it
was. -/
theorem accumulator_flag_isolation (m64 : Bool) (ac : Nat) (hac : ac ≤ 3) (env : CPUMIPSState)
    (p : Nat) (hp : p ≠ 16 + ac) :
    (∀ a : Int, (mipsdsp_sat32_acc_q31 m64 ac a env).2.active_tc.DSPControl.testBit p =
      env.active_tc.DSPControl.testBit p) ∧
    (∀ a : Int × Int,
      (mipsdsp_sat64_acc_add_q63 m64 ac a env).2.active_tc.DSPControl.testBit p =
        env.active_tc.DSPControl.testBit p) ∧
    (∀ a : Int × Int,
      (mipsdsp_sat64_acc_sub_q63 m64 ac a env).2.active_tc.DSPControl.testBit p =
        env.active_tc.DSPControl.testBit p) ∧
    (∀ a b : Int, (mipsdsp_mul_q15_q15 m64 ac a b env).2.active_tc.DSPControl.testBit p =
      env.active_tc.DSPControl.testBit p) ∧
    (∀ a b : Int, (mipsdsp_mul_q31_q31 m64 ac a b env).2.active_tc.DSPControl.testBit p =
      env.active_tc.DSPControl.testBit p) := by
  have hs := set_flag_testBit_ne m64 (16 + ac) p (by omega) hp env
  refine ⟨fun a => ?_, fun a => ?_, fun a => ?_, fun a b => ?_, fun a b => ?_⟩
  · rcases mipsdsp_sat32_acc_q31_env m64 ac a env with h | h <;> rw [h]
    exact hs
  · rcases mipsdsp_sat64_acc_add_q63_env m64 ac a env with h | h <;> rw [h]
    exact hs
  · rcases mipsdsp_sat64_acc_sub_q63_env m64 ac a env with h | h <;> rw [h]
    exact hs
  · rcases mipsdsp_mul_q15_q15_env m64 ac a b env with h | h <;> rw [h]
    exact hs
  · rcases mipsdsp_mul_q31_q31_env m64 ac a b env with h | h <;> rw [h]
    exact hs

theorem kernels1_keep_flags (m64 : Bool) :
    ∀ k ∈ ([
      mipsdsp_sat_abs8 m64, mipsdsp_sat_abs16 m64, mipsdsp_sat_abs32 m64,
      mipsdsp_trunc16_sat16_round m64, mipsdsp_sat8_reduce_precision m64] :
        List (Int → CPUMIPSState → Int × CPUMIPSState)),
      KeepsFlags1 k := by
  intro k hk a env
  simp only [List.mem_cons, List.mem_singleton, List.not_mem_nil, or_false] at hk
  rcases hk with rfl | rfl | rfl | rfl | rfl
  all_goals
    simp only [mipsdsp_sat_abs8, mipsdsp_sat_abs16, mipsdsp_sat_abs32,
      mipsdsp_trunc16_sat16_round, mipsdsp_sat8_reduce_precision]
    split_ifs <;>
      first
        | exact flagsKept_refl _
        | exact flagsKept_set_overflow _ _ _ _

theorem kernels2_keep_flags (m64 : Bool) :
    ∀ k ∈ ([
      mipsdsp_add_i16 m64, mipsdsp_sat_add_i16 m64, mipsdsp_sat_add_i32 m64,
      mipsdsp_add_u8 m64, mipsdsp_add_u16 m64, mipsdsp_sat_add_u8 m64, mipsdsp_sat_add_u16 m64,
      mipsdsp_add_i32 m64, mipsdsp_mul_i16_i16 m64, mipsdsp_sat16_mul_i16_i16 m64,
      mipsdsp_mul_q15_q15_overflowflag21 m64, mipsdsp_mul_u8_u16 m64,
      mipsdsp_rndq15_mul_q15_q15 m64, mipsdsp_sat16_mul_q15_q15 m64, mipsdsp_lshift8 m64,
      mipsdsp_lshift16 m64, mipsdsp_lshift32 m64, mipsdsp_sat16_lshift m64,
      mipsdsp_sat32_lshift m64, mipsdsp_sub_i16 m64, mipsdsp_sat16_sub m64,
      mipsdsp_sat32_sub m64, mipsdsp_sub_u16_u16 m64, mipsdsp_satu16_sub_u16_u16 m64,
      mipsdsp_sub_u8 m64, mipsdsp_satu8_sub m64, mipsdsp_sub32 m64] :
        List EnvKernel),
      KeepsFlags2 k := by
  intro k hk a b env
  simp only [List.mem_cons, List.mem_singleton, List.not_mem_nil, or_false] at hk
  rcases hk with rfl | rfl | rfl | rfl | rfl | rfl | rfl | rfl | rfl | rfl | rfl | rfl | rfl |
    rfl | rfl | rfl | rfl | rfl | rfl | rfl | rfl | rfl | rfl | rfl | rfl | rfl | rfl
  all_goals
    simp only [mipsdsp_add_i16, mipsdsp_sat_add_i16, mipsdsp_sat_add_i32, mipsdsp_add_u8,
      mipsdsp_add_u16, mipsdsp_sat_add_u8, mipsdsp_sat_add_u16, mipsdsp_add_i32,
      mipsdsp_mul_i16_i16, mipsdsp_sat16_mul_i16_i16, mipsdsp_mul_q15_q15_overflowflag21,
      mipsdsp_mul_u8_u16, mipsdsp_rndq15_mul_q15_q15, mipsdsp_sat16_mul_q15_q15, mipsdsp_lshift8,
      mipsdsp_lshift16, mipsdsp_lshift32, mipsdsp_sat16_lshift, mipsdsp_sat32_lshift,
      mipsdsp_sub_i16, mipsdsp_sat16_sub, mipsdsp_sat32_sub, mipsdsp_sub_u16_u16,
      mipsdsp_satu16_sub_u16_u16, mipsdsp_sub_u8, mipsdsp_satu8_sub, mipsdsp_sub32]
    split_ifs <;>
      first
        | exact flagsKept_refl _
        | exact flagsKept_set_overflow _ _ _ _

theorem acc_kernels_keep_flags (m64 : Bool) (ac : Nat) :
    KeepsFlags1 (mipsdsp_sat32_acc_q31 m64 ac) ∧
    (∀ a, KeepsFlags (mipsdsp_sat64_acc_add_q63 m64 ac a)) ∧
    (∀ a, KeepsFlags (mipsdsp_sat64_acc_sub_q63 m64 ac a)) ∧
    KeepsFlags2 (mipsdsp_mul_q15_q15 m64 ac) ∧
    KeepsFlags2 (mipsdsp_mul_q31_q31 m64 ac) ∧
    KeepsFlags1 (mipsdsp_rashift_short_acc m64 ac) := by
  refine ⟨fun a env => ?_, fun a env => ?_, fun a env => ?_, fun a b env => ?_,
    fun a b env => ?_, fun a env => ?_⟩
  · rcases mipsdsp_sat32_acc_q31_env m64 ac a env with h | h <;> rw [h]
    · exact flagsKept_refl _
    · exact flagsKept_set_overflow _ _ _ _
  · rcases mipsdsp_sat64_acc_add_q63_env m64 ac a env with h | h <;> rw [h]
    · exact flagsKept_refl _
    · exact flagsKept_set_overflow _ _ _ _
  · rcases mipsdsp_sat64_acc_sub_q63_env m64 ac a env with h | h <;> rw [h]
    · exact flagsKept_refl _
    · exact flagsKept_set_overflow _ _ _ _
  · rcases mipsdsp_mul_q15_q15_env m64 ac a b env with h | h <;> rw [h]
    · exact flagsKept_refl _
    · exact flagsKept_set_overflow _ _ _ _
  · rcases mipsdsp_mul_q31_q31_env m64 ac a b env with h | h <;> rw [h]
    · exact flagsKept_refl _
    · exact flagsKept_set_overflow _ _ _ _
  · simp only [mipsdsp_rashift_short_acc]
    split_ifs <;>
      first
        | exact flagsKept_refl _
        | exact flagsKept_set_overflow _ _ _ _

theorem helper_addsc_keeps_flags (m64 : Bool) : KeepsFlags2 (helper_addsc m64) := by
  intro rs rt env
  simp only [helper_addsc]
  exact flagsKept_set_carry _ _ _

theorem helper_addwc_keeps_flags (m64 : Bool) : KeepsFlags2 (helper_addwc m64) := by
  intro rs rt env
  simp only [helper_addwc]
  split_ifs <;>
    first
      | exact flagsKept_refl _
      | exact flagsKept_set_overflow _ _ _ _

theorem keeps2 {func : EnvKernel} (hf : KeepsFlags2 func) (a b a' b' : Int)
    (env : CPUMIPSState) :
    FlagsKept env.active_tc.DSPControl
      (func a' b' (func a b env).2).2.active_tc.DSPControl :=
  flagsKept_trans (hf a b env) (hf a' b' _)

theorem keeps4 {func : EnvKernel} (hf : KeepsFlags2 func) (a1 b1 a2 b2 a3 b3 a4 b4 : Int)
    (env : CPUMIPSState) :
    FlagsKept env.active_tc.DSPControl
      (func a4 b4 (func a3 b3 (func a2 b2 (func a1 b1 env).2).2).2).2.active_tc.DSPControl :=
  flagsKept_trans (keeps2 hf a1 b1 a2 b2 env) (keeps2 hf a3 b3 a4 b4 _)

theorem foldl_keeps_flags (step : Int × CPUMIPSState → Nat → Int × CPUMIPSState)
    (hstep : ∀ st i, FlagsKept st.2.active_tc.DSPControl (step st i).2.active_tc.DSPControl)
    (l : List Nat) (st : Int × CPUMIPSState) :
    FlagsKept st.2.active_tc.DSPControl (l.foldl step st).2.active_tc.DSPControl := by
  induction l generalizing st with
  | nil => exact flagsKept_refl _
  | cons i l ih =>
    rw [List.foldl_cons]
    exact flagsKept_trans (hstep st i) (ih (step st i))

theorem helper_macros_keep_flags (m64 : Bool) (func : EnvKernel) (hf : KeepsFlags2 func) :
    ∀ h ∈ ([ARITH_PH_ENV m64 func, ARITH_QH_ENV func, ARITH_W_ENV m64 func,
        ARITH_PW_ENV func, ARITH_QB_ENV m64 func, ARITH_OB_ENV func, SUBU_QB m64 func,
        SHIFT_QB_ENV m64 func, SHIFT_OB_ENV func, SHIFT_PH m64 func, SHIFT_QH_ENV func,
        SHIFT_W_ENV m64 func, SHIFT_PW_ENV func] : List EnvKernel),
      KeepsFlags2 h := by
  intro h hh x y env
  simp only [List.mem_cons, List.mem_singleton, List.not_mem_nil, or_false] at hh
  rcases hh with rfl | rfl | rfl | rfl | rfl | rfl | rfl | rfl | rfl | rfl | rfl | rfl | rfl
  · exact keeps2 hf _ _ _ _ env
  · exact keeps4 hf _ _ _ _ _ _ _ _ env
  · exact hf _ _ env
  · exact keeps2 hf _ _ _ _ env
  · exact keeps4 hf _ _ _ _ _ _ _ _ env
  · exact foldl_keeps_flags (ARITH_OB_ENV_step func x y) (fun st i => hf _ _ st.2)
      (List.range 8) (0, env)
  · exact keeps4 hf _ _ _ _ _ _ _ _ env
  · exact keeps4 hf _ _ _ _ _ _ _ _ env
  · exact foldl_keeps_flags (SHIFT_OB_ENV_step func x (Int.land y 0x07))
      (fun st i => hf _ _ st.2) (List.range 8) (0, env)
  · exact keeps2 hf _ _ _ _ env
  · exact keeps4 hf _ _ _ _ _ _ _ _ env
  · exact hf _ _ env
  · exact keeps2 hf _ _ _ _ env

/-- C12 at accumulators 0 and 1: the special-case multiply addressing accumulator 0
leaves bit 17 as it was, and the one addressing accumulator 1 leaves bit 16 as it
was. -/
theorem accumulator_flag_isolation_witness :
    (mipsdsp_mul_q15_q15 false 0 0x8000 0x8000 env0).2.active_tc.DSPControl.testBit 17 =
      env0.active_tc.DSPControl.testBit 17 ∧
    (mipsdsp_mul_q15_q15 false 1 0x8000 0x8000 env0).2.active_tc.DSPControl.testBit 16 =
      env0.active_tc.DSPControl.testBit 16 :=
  ⟨(accumulator_flag_isolation false 0 (by decide) env0 17 (by decide)).2.2.2.1 0x8000 0x8000,
   (accumulator_flag_isolation false 1 (by decide) env0 16 (by decide)).2.2.2.1 0x8000 0x8000⟩

/-- C13: no arithmetic operation clears a `DSPControl` bit.  The two flag setters,
every internal kernel that takes the context (absolute value, add, subtract,
multiply, shift, precision reduction, accumulate), `helper_addsc`, `helper_addwc`,
and every helper generated by the `ARITH_*_ENV`, `SUBU_QB` and `SHIFT_*_ENV` macros
from a kernel with this property, return a context whose `DSPControl` has every bit
set that was set before (`old AND new = old`). -/
theorem dspcontrol_flags_monotone (m64 : Bool) :
    (∀ (flag : Int) (position : Nat) (env : CPUMIPSState),
      FlagsKept env.active_tc.DSPControl
        (set_DSPControl_overflow_flag m64 flag position env).active_tc.DSPControl) ∧
    (∀ (flag : Int) (env : CPUMIPSState),
      FlagsKept env.active_tc.DSPControl
        (set_DSPControl_carryflag m64 flag env).active_tc.DSPControl) ∧
    (∀ k ∈ ([
      mipsdsp_sat_abs8 m64, mipsdsp_sat_abs16 m64, mipsdsp_sat_abs32 m64,
      mipsdsp_trunc16_sat16_round m64, mipsdsp_sat8_reduce_precision m64] :
        List (Int → CPUMIPSState → Int × CPUMIPSState)),
      KeepsFlags1 k) ∧
    (∀ k ∈ ([
      mipsdsp_add_i16 m64, mipsdsp_sat_add_i16 m64, mipsdsp_sat_add_i32 m64,
      mipsdsp_add_u8 m64, mipsdsp_add_u16 m64, mipsdsp_sat_add_u8 m64, mipsdsp_sat_add_u16 m64,
      mipsdsp_add_i32 m64, mipsdsp_mul_i16_i16 m64, mipsdsp_sat16_mul_i16_i16 m64,
      mipsdsp_mul_q15_q15_overflowflag21 m64, mipsdsp_mul_u8_u16 m64,
      mipsdsp_rndq15_mul_q15_q15 m64, mipsdsp_sat16_mul_q15_q15 m64, mipsdsp_lshift8 m64,
      mipsdsp_lshift16 m64, mipsdsp_lshift32 m64, mipsdsp_sat16_lshift m64,
      mipsdsp_sat32_lshift m64, mipsdsp_sub_i16 m64, mipsdsp_sat16_sub m64,
      mipsdsp_sat32_sub m64, mipsdsp_sub_u16_u16 m64, mipsdsp_satu16_sub_u16_u16 m64,
      mipsdsp_sub_u8 m64, mipsdsp_satu8_sub m64, mipsdsp_sub32 m64] :
        List EnvKernel),
      KeepsFlags2 k) ∧
    (∀ ac : Nat,
      KeepsFlags1 (mipsdsp_sat32_acc_q31 m64 ac) ∧
      (∀ a, KeepsFlags (mipsdsp_sat64_acc_add_q63 m64 ac a)) ∧
      (∀ a, KeepsFlags (mipsdsp_sat64_acc_sub_q63 m64 ac a)) ∧
      KeepsFlags2 (mipsdsp_mul_q15_q15 m64 ac) ∧
      KeepsFlags2 (mipsdsp_mul_q31_q31 m64 ac) ∧
      KeepsFlags1 (mipsdsp_rashift_short_acc m64 ac)) ∧
    KeepsFlags2 (helper_addsc m64) ∧
    KeepsFlags2 (helper_addwc m64) ∧
    (∀ func : EnvKernel, KeepsFlags2 func →
      ∀ h ∈ ([ARITH_PH_ENV m64 func, ARITH_QH_ENV func, ARITH_W_ENV m64 func,
          ARITH_PW_ENV func, ARITH_QB_ENV m64 func, ARITH_OB_ENV func, SUBU_QB m64 func,
          SHIFT_QB_ENV m64 func, SHIFT_OB_ENV func, SHIFT_PH m64 func, SHIFT_QH_ENV func,
          SHIFT_W_ENV m64 func, SHIFT_PW_ENV func] : List EnvKernel),
        KeepsFlags2 h) :=
  ⟨fun flag position env => flagsKept_set_overflow m64 flag position env,
   fun flag env => flagsKept_set_carry m64 flag env,
   kernels1_keep_flags m64, kernels2_keep_flags m64, acc_kernels_keep_flags m64,
   helper_addsc_keeps_flags m64, helper_addwc_keeps_flags m64,
   helper_macros_keep_flags m64⟩

/-- C13 at the packed saturating unsigned halfword addition
(`ARITH_PH_ENV(addu_s, sat_add_u16)`) on a context whose `DSPControl` has bit 21 set:
both lanes overflow, bit 20 is added and bit 21 stays. -/
theorem dspcontrol_flags_monotone_witness :
    FlagsKept (env0.setDSPControl 0x200000).active_tc.DSPControl
      (ARITH_PH_ENV false (mipsdsp_sat_add_u16 false) 0xFFFFFFFF 0x00010001
        (env0.setDSPControl 0x200000)).2.active_tc.DSPControl :=
  (dspcontrol_flags_monotone false).2.2.2.2.2.2.2 (mipsdsp_sat_add_u16 false)
    ((dspcontrol_flags_monotone false).2.2.2.1 _ (by simp))
    (ARITH_PH_ENV false (mipsdsp_sat_add_u16 false)) (by simp)
    0xFFFFFFFF 0x00010001 (env0.setDSPControl 0x200000)

/-! ## Left shifts -/

theorem shr_natCast (x : Int) (n : Nat) : shr x (n : Int) = x / 2 ^ n := by
  simp only [shr, Int.toNat_ofNat, shiftRight_div]

theorem shlInt_natCast (x : Int) (n : Nat) : shlInt x (n : Int) = toS 32 (x * 2 ^ n) := by
  simp only [shlInt, Int.toNat_ofNat]

theorem shlU32_natCast (x : Int) (n : Nat) : shlU32 x (n : Int) = toU 32 (x * 2 ^ n) := by
  simp only [shlU32, Int.toNat_ofNat]

theorem mipsdsp_lshift8_zero (m64 : Bool) (a : Int) (env : CPUMIPSState) :
    mipsdsp_lshift8 m64 a 0 env = (a, env) := by
  simp only [mipsdsp_lshift8, if_true]

theorem mipsdsp_lshift8_pos (m64 : Bool) (a : Int) (s : Nat) (env : CPUMIPSState)
    (ha : 0 ≤ a ∧ a ≤ 127) (hs : 1 ≤ s ∧ s ≤ 7) :
    (mipsdsp_lshift8 m64 a s env).1 = (a * 2 ^ s) % 256 ∧
    (mipsdsp_lshift8 m64 a s env).2.active_tc.DSPControl =
      (if a / 2 ^ (7 - s) ≠ 0 then Int.lor env.active_tc.DSPControl (2 ^ 22)
       else env.active_tc.DSPControl) ∧
    (a / 2 ^ (7 - s) ≠ 0 ↔ 127 < a * 2 ^ s) := by
  have hs0 : ¬ ((s : Int) = 0) := by omega
  have e1 : (6 - ((s : Int) - 1)) = ((7 - s : Nat) : Int) := by omega
  have e7 : shr a 7 = 0 := by
    rw [show (7 : Int) = ((7 : Nat) : Int) from rfl, shr_natCast]; norm_num; omega
  have hz : toU 8 (Int.land 0 0x01) = 0 := by decide
  simp only [mipsdsp_lshift8, hs0, if_false, e7, hz, ne_eq, not_true_eq_false]
  simp only [e1, shr_natCast, shlInt_natCast, toU_8, toS_32]
  obtain ⟨h1, h7⟩ := hs
  interval_cases s <;> norm_num <;>
    (refine ⟨by omega, ?_, by omega⟩
     split_ifs <;> first
       | rfl
       | omega
       | (rw [set_flag_eq m64 22 (by norm_num), setDSPControl_DSPControl]; norm_num))

/-- C14: for an 8-bit lane `a` with bit 7 clear and a shift `s` in `1..7`,
`mipsdsp_lshift8` returns `(a << s) mod 256` and ORs bit 22 into `DSPControl`
exactly when `a >> (7 - s)` is non-zero, which is when `a * 2 ^ s > 127`; for
`s = 0` it returns `a` and the context unchanged. -/
theorem mipsdsp_lshift8_spec (m64 : Bool) (env : CPUMIPSState) :
    (∀ (a : Int) (s : Nat), 0 ≤ a ∧ a ≤ 127 → 1 ≤ s ∧ s ≤ 7 →
      (mipsdsp_lshift8 m64 a s env).1 = (a * 2 ^ s) % 256 ∧
      (mipsdsp_lshift8 m64 a s env).2.active_tc.DSPControl =
        (if a / 2 ^ (7 - s) ≠ 0 then Int.lor env.active_tc.DSPControl (2 ^ 22)
         else env.active_tc.DSPControl) ∧
      (a / 2 ^ (7 - s) ≠ 0 ↔ 127 < a * 2 ^ s)) ∧
    (∀ a : Int, mipsdsp_lshift8 m64 a 0 env = (a, env)) :=
  ⟨fun a s ha hs => mipsdsp_lshift8_pos m64 a s env ha hs,
   fun a => mipsdsp_lshift8_zero m64 a env⟩

/-- C14 at `0x40 << 1` (bit 22 set) and `0x01 << 1` (`DSPControl` unchanged). -/
theorem mipsdsp_lshift8_spec_witness :
    ((mipsdsp_lshift8 false 0x40 1 env0).1 = 0x80 ∧
      (mipsdsp_lshift8 false 0x40 1 env0).2.active_tc.DSPControl = 0x400000) ∧
    ((mipsdsp_lshift8 false 0x01 1 env0).1 = 0x02 ∧
      (mipsdsp_lshift8 false 0x01 1 env0).2.active_tc.DSPControl = 0) := by
  have h1 := (mipsdsp_lshift8_spec false env0).1 0x40 1 (by decide) (by decide)
  have h2 := (mipsdsp_lshift8_spec false env0).1 0x01 1 (by decide) (by decide)
  exact ⟨⟨h1.1.trans (by decide), h1.2.1.trans (by decide)⟩,
    ⟨h2.1.trans (by decide), h2.2.1.trans (by decide)⟩⟩

/-- The `int` expression `(0x01 << n) - 1` is the mask of the low `n` bits, up to
`n = 31`. -/
theorem mask_int (n : Nat) (hn : n ≤ 31) : toS 32 (shlInt 0x01 (n : Int) - 1) = 2 ^ n - 1 := by
  rw [shlInt_natCast]
  interval_cases n <;> decide

/-- The discarded-bits word of the 16-bit left shifts for a lane with bit 15 set. -/
theorem discard16_neg (a : Int) (s : Nat) (hs : 1 ≤ s ∧ s ≤ 15) :
    Int.lor (shlInt (toS 32 (shlInt 0x01 (16 - (s : Int)) - 1)) s)
        (Int.land (shr a (14 - ((s : Int) - 1))) (toS 32 (shlInt 0x01 s - 1))) =
      (2 ^ (16 - s) - 1) * 2 ^ s + a / 2 ^ (15 - s) % 2 ^ s := by
  have e1 : (16 - (s : Int)) = ((16 - s : Nat) : Int) := by omega
  have e2 : (14 - ((s : Int) - 1)) = ((15 - s : Nat) : Int) := by omega
  rw [e1, e2, mask_int _ (by omega), mask_int _ (by omega), shr_natCast, land_mask]
  have e3 : shlInt (2 ^ (16 - s) - 1) (s : Int) = (2 ^ (16 - s) - 1) * 2 ^ s := by
    rw [shlInt_natCast]
    obtain ⟨h1, h2⟩ := hs
    interval_cases s <;> decide
  rw [e3]
  have hp : (0 : Int) < 2 ^ s := by positivity
  have hq : (1 : Int) ≤ 2 ^ (16 - s) := one_le_pow₀ (by norm_num)
  exact lor_eq_add _ _ s (by linarith) (Int.emod_nonneg _ (ne_of_gt hp))
    (Int.emod_lt_of_pos _ hp)

theorem mipsdsp_sat16_lshift_zero (m64 : Bool) (a : Int) (env : CPUMIPSState)
    (ha : 0 ≤ a ∧ a ≤ 65535) :
    (mipsdsp_sat16_lshift m64 a 0 env).1 =
      toU 16 (max (-32768) (min (toS 16 a * 2 ^ 0) 32767)) ∧
    (mipsdsp_sat16_lshift m64 a 0 env).2.active_tc.DSPControl =
      (if toS 16 a * 2 ^ 0 < -32768 ∨ 32767 < toS 16 a * 2 ^ 0 then
        Int.lor env.active_tc.DSPControl (2 ^ 22)
       else env.active_tc.DSPControl) := by
  simp only [mipsdsp_sat16_lshift, if_true, toS_16, toU_16, pow_zero, mul_one]
  have hc : ¬ ((a + 32768) % 65536 - 32768 < -32768 ∨ 32767 < (a + 32768) % 65536 - 32768) := by
    omega
  simp only [hc, if_false, and_true]
  omega

theorem discard16_nonneg_iff (a : Int) (s : Nat) (ha : 0 ≤ a ∧ a < 32768)
    (hs : 1 ≤ s ∧ s ≤ 15) :
    (¬ a / 2 ^ (15 - s) % 65536 = 0 ∧ ¬ a / 2 ^ (15 - s) % 65536 = 65535) ↔
      32767 < a * 2 ^ s := by
  obtain ⟨h1, h2⟩ := hs
  interval_cases s <;> simp only [Nat.reduceSub, Int.reducePow] <;> omega

theorem discard16_neg_iff (a : Int) (s : Nat) (ha : 32768 ≤ a ∧ a ≤ 65535)
    (hs : 1 ≤ s ∧ s ≤ 15) :
    (¬ ((2 ^ (16 - s) - 1) * 2 ^ s + a / 2 ^ (15 - s) % 2 ^ s) % 65536 = 0 ∧
      ¬ ((2 ^ (16 - s) - 1) * 2 ^ s + a / 2 ^ (15 - s) % 2 ^ s) % 65536 = 65535) ↔
      a * 2 ^ s - 65536 * 2 ^ s < -32768 := by
  obtain ⟨h1, h2⟩ := hs
  interval_cases s <;> simp only [Nat.reduceSub, Int.reducePow] <;> omega

theorem mipsdsp_sat16_lshift_nonneg (m64 : Bool) (a : Int) (s : Nat) (env : CPUMIPSState)
    (ha : 0 ≤ a ∧ a < 32768) (hs : 1 ≤ s ∧ s ≤ 15) :
    (mipsdsp_sat16_lshift m64 a s env).1 =
      toU 16 (max (-32768) (min (toS 16 a * 2 ^ s) 32767)) ∧
    (mipsdsp_sat16_lshift m64 a s env).2.active_tc.DSPControl =
      (if toS 16 a * 2 ^ s < -32768 ∨ 32767 < toS 16 a * 2 ^ s then
        Int.lor env.active_tc.DSPControl (2 ^ 22)
       else env.active_tc.DSPControl) := by
  have hs0 : ¬ ((s : Int) = 0) := by omega
  have e2 : (14 - ((s : Int) - 1)) = ((15 - s : Nat) : Int) := by omega
  have e15 : shr a 15 = a / 32768 := by
    rw [show (15 : Int) = ((15 : Nat) : Int) from rfl, shr_natCast]; norm_num
  have hneg : a / 32768 % 2 % 256 = 0 := by omega
  have hsa : toS 16 a = a := by rw [toS_16]; omega
  have hX : 0 ≤ a * 2 ^ s := mul_nonneg ha.1 (by positivity)
  simp only [mipsdsp_sat16_lshift, hs0, if_false, e15, land_0x01, toU_8]
  simp only [hneg, ne_eq, not_true_eq_false, if_false, if_true, e2, shr_natCast,
    shlInt_natCast, hsa, toU_16, toS_32, discard16_nonneg_iff a s ha hs,
    set_flag_eq m64 22 (by norm_num)]
  generalize a * 2 ^ s = X at *
  split_ifs <;> simp only [setDSPControl_DSPControl, and_true] <;> omega

theorem mipsdsp_sat16_lshift_neg (m64 : Bool) (a : Int) (s : Nat) (env : CPUMIPSState)
    (ha : 32768 ≤ a ∧ a ≤ 65535) (hs : 1 ≤ s ∧ s ≤ 15) :
    (mipsdsp_sat16_lshift m64 a s env).1 =
      toU 16 (max (-32768) (min (toS 16 a * 2 ^ s) 32767)) ∧
    (mipsdsp_sat16_lshift m64 a s env).2.active_tc.DSPControl =
      (if toS 16 a * 2 ^ s < -32768 ∨ 32767 < toS 16 a * 2 ^ s then
        Int.lor env.active_tc.DSPControl (2 ^ 22)
       else env.active_tc.DSPControl) := by
  have hs0 : ¬ ((s : Int) = 0) := by omega
  have e15 : shr a 15 = a / 32768 := by
    rw [show (15 : Int) = ((15 : Nat) : Int) from rfl, shr_natCast]; norm_num
  have hneg : ¬ (a / 32768 % 2 % 256 = 0) := by omega
  have hsa : toS 16 a * 2 ^ s = a * 2 ^ s - 65536 * 2 ^ s := by
    have : toS 16 a = a - 65536 := by rw [toS_16]; omega
    rw [this]; ring
  have hP : (2 : Int) ≤ 2 ^ s := by
    have := pow_le_pow_right₀ (show (1 : Int) ≤ 2 by norm_num) hs.1
    simpa using this
  have hX : a * 2 ^ s - 65536 * 2 ^ s < 0 := by
    have : (a - 65536) * 2 ^ s < 0 := mul_neg_of_neg_of_pos (by omega) (by positivity)
    linarith [this]
  simp only [mipsdsp_sat16_lshift, hs0, if_false, e15, land_0x01, toU_8]
  simp only [hneg, ne_eq, not_false_eq_true, if_true, if_false, discard16_neg a s hs]
  simp only [shlInt_natCast, hsa, toU_16, toS_32, discard16_neg_iff a s ha hs,
    set_flag_eq m64 22 (by norm_num)]
  generalize a * 2 ^ s = X at *
  generalize (2 : Int) ^ s = P at *
  split_ifs <;> simp only [setDSPControl_DSPControl, and_true] <;> omega

theorem mipsdsp_sat16_lshift_correct (m64 : Bool) (a : Int) (s : Nat) (env : CPUMIPSState)
    (ha : 0 ≤ a ∧ a ≤ 65535) (hs : s ≤ 15) :
    (mipsdsp_sat16_lshift m64 a s env).1 =
      toU 16 (max (-32768) (min (toS 16 a * 2 ^ s) 32767)) ∧
    (mipsdsp_sat16_lshift m64 a s env).2.active_tc.DSPControl =
      (if toS 16 a * 2 ^ s < -32768 ∨ 32767 < toS 16 a * 2 ^ s then
        Int.lor env.active_tc.DSPControl (2 ^ 22)
       else env.active_tc.DSPControl) := by
  rcases Nat.eq_zero_or_pos s with h0 | hpos
  · subst h0
    exact mipsdsp_sat16_lshift_zero m64 a env ha
  · by_cases h : a < 32768
    · exact mipsdsp_sat16_lshift_nonneg m64 a s env ⟨ha.1, h⟩ ⟨hpos, hs⟩
    · exact mipsdsp_sat16_lshift_neg m64 a s env ⟨by omega, ha.2⟩ ⟨hpos, hs⟩

/-- The discarded-bits word of the saturating 32-bit left shift for a lane with
bit 31 set. -/
theorem discard32_neg (a : Int) (s : Nat) (hs : 1 ≤ s ∧ s ≤ 31) :
    Int.lor (toU 32 (shlInt (toS 32 (shlInt 0x01 (32 - (s : Int)) - 1)) s))
        (Int.land (shr a (30 - ((s : Int) - 1))) (toU 32 (toS 32 (shlInt 0x01 s - 1)))) =
      (2 ^ (32 - s) - 1) * 2 ^ s + a / 2 ^ (31 - s) % 2 ^ s := by
  have e1 : (32 - (s : Int)) = ((32 - s : Nat) : Int) := by omega
  have e2 : (30 - ((s : Int) - 1)) = ((31 - s : Nat) : Int) := by omega
  rw [e1, e2, mask_int _ (by omega), mask_int _ (by omega), shr_natCast]
  have e3 : toU 32 (shlInt (2 ^ (32 - s) - 1) (s : Int)) = (2 ^ (32 - s) - 1) * 2 ^ s := by
    rw [shlInt_natCast]
    obtain ⟨h1, h2⟩ := hs
    interval_cases s <;> decide
  have e4 : toU 32 ((2 : Int) ^ s - 1) = 2 ^ s - 1 := by
    obtain ⟨h1, h2⟩ := hs
    interval_cases s <;> decide
  rw [e3, e4, land_mask]
  have hp : (0 : Int) < 2 ^ s := by positivity
  have hq : (1 : Int) ≤ 2 ^ (32 - s) := one_le_pow₀ (by norm_num)
  exact lor_eq_add _ _ s (by linarith) (Int.emod_nonneg _ (ne_of_gt hp))
    (Int.emod_lt_of_pos _ hp)

theorem mipsdsp_sat32_lshift_zero (m64 : Bool) (a : Int) (env : CPUMIPSState)
    (ha : 0 ≤ a ∧ a ≤ 4294967295) :
    (mipsdsp_sat32_lshift m64 a 0 env).1 =
      toU 32 (max (-2147483648) (min (toS 32 a * 2 ^ 0) 2147483647)) ∧
    (mipsdsp_sat32_lshift m64 a 0 env).2.active_tc.DSPControl =
      (if toS 32 a * 2 ^ 0 < -2147483648 ∨ 2147483647 < toS 32 a * 2 ^ 0 then
        Int.lor env.active_tc.DSPControl (2 ^ 22)
       else env.active_tc.DSPControl) := by
  simp only [mipsdsp_sat32_lshift, if_true, toS_32, toU_32, pow_zero, mul_one]
  have hc : ¬ ((a + 2147483648) % 4294967296 - 2147483648 < -2147483648 ∨
      2147483647 < (a + 2147483648) % 4294967296 - 2147483648) := by
    omega
  simp only [hc, if_false, and_true]
  omega

theorem discard32_nonneg_iff (a : Int) (s : Nat) (ha : 0 ≤ a ∧ a < 2147483648)
    (hs : 1 ≤ s ∧ s ≤ 31) :
    (¬ a / 2 ^ (31 - s) % 4294967296 = 0 ∧ ¬ a / 2 ^ (31 - s) % 4294967296 = 4294967295) ↔
      2147483647 < a * 2 ^ s := by
  obtain ⟨h1, h2⟩ := hs
  interval_cases s <;> simp only [Nat.reduceSub, Int.reducePow] <;> omega

theorem discard32_neg_iff (a : Int) (s : Nat) (ha : 2147483648 ≤ a ∧ a ≤ 4294967295)
    (hs : 1 ≤ s ∧ s ≤ 31) :
    (¬ ((2 ^ (32 - s) - 1) * 2 ^ s + a / 2 ^ (31 - s) % 2 ^ s) % 4294967296 = 0 ∧
      ¬ ((2 ^ (32 - s) - 1) * 2 ^ s + a / 2 ^ (31 - s) % 2 ^ s) % 4294967296 = 4294967295) ↔
      a * 2 ^ s - 4294967296 * 2 ^ s < -2147483648 := by
  obtain ⟨h1, h2⟩ := hs
  interval_cases s <;> simp only [Nat.reduceSub, Int.reducePow] <;> omega

theorem mipsdsp_sat32_lshift_nonneg (m64 : Bool) (a : Int) (s : Nat) (env : CPUMIPSState)
    (ha : 0 ≤ a ∧ a < 2147483648) (hs : 1 ≤ s ∧ s ≤ 31) :
    (mipsdsp_sat32_lshift m64 a s env).1 =
      toU 32 (max (-2147483648) (min (toS 32 a * 2 ^ s) 2147483647)) ∧
    (mipsdsp_sat32_lshift m64 a s env).2.active_tc.DSPControl =
      (if toS 32 a * 2 ^ s < -2147483648 ∨ 2147483647 < toS 32 a * 2 ^ s then
        Int.lor env.active_tc.DSPControl (2 ^ 22)
       else env.active_tc.DSPControl) := by
  have hs0 : ¬ ((s : Int) = 0) := by omega
  have e2 : (30 - ((s : Int) - 1)) = ((31 - s : Nat) : Int) := by omega
  have e31 : shr a 31 = a / 2147483648 := by
    rw [show (31 : Int) = ((31 : Nat) : Int) from rfl, shr_natCast]; norm_num
  have hneg : a / 2147483648 % 2 % 256 = 0 := by omega
  have hsa : toS 32 a = a := by rw [toS_32]; omega
  have hX : 0 ≤ a * 2 ^ s := mul_nonneg ha.1 (by positivity)
  simp only [mipsdsp_sat32_lshift, hs0, if_false, e31, land_0x01, toU_8]
  simp only [hneg, ne_eq, not_true_eq_false, if_false, if_true, e2, shr_natCast,
    shlU32_natCast, hsa, toU_32, discard32_nonneg_iff a s ha hs,
    set_flag_eq m64 22 (by norm_num)]
  generalize a * 2 ^ s = X at *
  split_ifs <;> simp only [setDSPControl_DSPControl, and_true] <;> omega

theorem mipsdsp_sat32_lshift_neg (m64 : Bool) (a : Int) (s : Nat) (env : CPUMIPSState)
    (ha : 2147483648 ≤ a ∧ a ≤ 4294967295) (hs : 1 ≤ s ∧ s ≤ 31) :
    (mipsdsp_sat32_lshift m64 a s env).1 =
      toU 32 (max (-2147483648) (min (toS 32 a * 2 ^ s) 2147483647)) ∧
    (mipsdsp_sat32_lshift m64 a s env).2.active_tc.DSPControl =
      (if toS 32 a * 2 ^ s < -2147483648 ∨ 2147483647 < toS 32 a * 2 ^ s then
        Int.lor env.active_tc.DSPControl (2 ^ 22)
       else env.active_tc.DSPControl) := by
  have hs0 : ¬ ((s : Int) = 0) := by omega
  have e31 : shr a 31 = a / 2147483648 := by
    rw [show (31 : Int) = ((31 : Nat) : Int) from rfl, shr_natCast]; norm_num
  have hneg : ¬ (a / 2147483648 % 2 % 256 = 0) := by omega
  have hsa : toS 32 a * 2 ^ s = a * 2 ^ s - 4294967296 * 2 ^ s := by
    have : toS 32 a = a - 4294967296 := by rw [toS_32]; omega
    rw [this]; ring
  have hX : a * 2 ^ s - 4294967296 * 2 ^ s < 0 := by
    have : (a - 4294967296) * 2 ^ s < 0 := mul_neg_of_neg_of_pos (by omega) (by positivity)
    linarith [this]
  simp only [mipsdsp_sat32_lshift, hs0, if_false, e31, land_0x01, toU_8]
  simp only [hneg, ne_eq, not_false_eq_true, if_true, if_false, discard32_neg a s hs]
  simp only [shlU32_natCast, hsa, toU_32, discard32_neg_iff a s ha hs,
    set_flag_eq m64 22 (by norm_num)]
  generalize a * 2 ^ s = X at *
  generalize (2 : Int) ^ s = P at *
  split_ifs <;> simp only [setDSPControl_DSPControl, and_true] <;> omega

theorem mipsdsp_sat32_lshift_correct (m64 : Bool) (a : Int) (s : Nat) (env : CPUMIPSState)
    (ha : 0 ≤ a ∧ a ≤ 4294967295) (hs : s ≤ 31) :
    (mipsdsp_sat32_lshift m64 a s env).1 =
      toU 32 (max (-2147483648) (min (toS 32 a * 2 ^ s) 2147483647)) ∧
    (mipsdsp_sat32_lshift m64 a s env).2.active_tc.DSPControl =
      (if toS 32 a * 2 ^ s < -2147483648 ∨ 2147483647 < toS 32 a * 2 ^ s then
        Int.lor env.active_tc.DSPControl (2 ^ 22)
       else env.active_tc.DSPControl) := by
  rcases Nat.eq_zero_or_pos s with h0 | hpos
  · subst h0
    exact mipsdsp_sat32_lshift_zero m64 a env ha
  · by_cases h : a < 2147483648
    · exact mipsdsp_sat32_lshift_nonneg m64 a s env ⟨ha.1, h⟩ ⟨hpos, hs⟩
    · exact mipsdsp_sat32_lshift_neg m64 a s env ⟨by omega, ha.2⟩ ⟨hpos, hs⟩

/-- C15: for a 16-bit lane `a` and a shift `s` in `0..15`, `mipsdsp_sat16_lshift`
returns the 16-bit pattern of `signed(a) * 2 ^ s` clamped to `[-32768, 32767]` and
ORs bit 22 into `DSPControl` exactly when `signed(a) * 2 ^ s` lies outside that
range; for a 32-bit `a` and `s` in `0..31`, `mipsdsp_sat32_lshift` does the same
with the signed 32-bit range. -/
theorem mipsdsp_sat_lshift_spec (m64 : Bool) (env : CPUMIPSState) :
    (∀ (a : Int) (s : Nat), 0 ≤ a ∧ a ≤ 65535 → s ≤ 15 →
      (mipsdsp_sat16_lshift m64 a s env).1 =
        toU 16 (max (-32768) (min (toS 16 a * 2 ^ s) 32767)) ∧
      (mipsdsp_sat16_lshift m64 a s env).2.active_tc.DSPControl =
        (if toS 16 a * 2 ^ s < -32768 ∨ 32767 < toS 16 a * 2 ^ s then
          Int.lor env.active_tc.DSPControl (2 ^ 22)
         else env.active_tc.DSPControl)) ∧
    (∀ (a : Int) (s : Nat), 0 ≤ a ∧ a ≤ 4294967295 → s ≤ 31 →
      (mipsdsp_sat32_lshift m64 a s env).1 =
        toU 32 (max (-2147483648) (min (toS 32 a * 2 ^ s) 2147483647)) ∧
      (mipsdsp_sat32_lshift m64 a s env).2.active_tc.DSPControl =
        (if toS 32 a * 2 ^ s < -2147483648 ∨ 2147483647 < toS 32 a * 2 ^ s then
          Int.lor env.active_tc.DSPControl (2 ^ 22)
         else env.active_tc.DSPControl)) :=
  ⟨fun a s ha hs => mipsdsp_sat16_lshift_correct m64 a s env ha hs,
   fun a s ha hs => mipsdsp_sat32_lshift_correct m64 a s env ha hs⟩

/-- C15 at `0x4000 << 1` (16-bit: clamps to `0x7FFF`, bit 22 set) and at
`0xC0000000 << 1` (32-bit: `-2 ^ 30 * 2` fits, the result is `0x80000000` and
`DSPControl` is unchanged). -/
theorem mipsdsp_sat_lshift_spec_witness :
    ((mipsdsp_sat16_lshift false 0x4000 1 env0).1 = 0x7FFF ∧
      (mipsdsp_sat16_lshift false 0x4000 1 env0).2.active_tc.DSPControl = 0x400000) ∧
    ((mipsdsp_sat32_lshift false 0xC0000000 1 env0).1 = 0x80000000 ∧
      (mipsdsp_sat32_lshift false 0xC0000000 1 env0).2.active_tc.DSPControl = 0) := by
  have h1 := (mipsdsp_sat_lshift_spec false env0).1 0x4000 1 (by decide) (by decide)
  have h2 := (mipsdsp_sat_lshift_spec false env0).2 0xC0000000 1 (by decide) (by decide)
  exact ⟨⟨h1.1.trans (by decide), h1.2.trans (by decide)⟩,
    ⟨h2.1.trans (by decide), h2.2.trans (by decide)⟩⟩

/-! ## Shift amounts are masked -/

theorem land_0x07 (x : Int) : Int.land x 0x07 = x % 8 := by
  have h := land_mask x 3; norm_num at h; exact h

theorem land_0x0F (x : Int) : Int.land x 0x0F = x % 16 := by
  have h := land_mask x 4; norm_num at h; exact h

theorem land_0x1F (x : Int) : Int.land x 0x1F = x % 32 := by
  have h := land_mask x 5; norm_num at h; exact h

theorem SHIFT_QB_ENV_in_range (m64 : Bool) (func func' : EnvKernel)
    (h : ∀ a s e, 0 ≤ s ∧ s ≤ 7 → func a s e = func' a s e) (sa rt : Int)
    (env : CPUMIPSState) :
    SHIFT_QB_ENV m64 func sa rt env = SHIFT_QB_ENV m64 func' sa rt env := by
  have hr : 0 ≤ Int.land sa 0x07 ∧ Int.land sa 0x07 ≤ 7 := by rw [land_0x07]; omega
  simp only [SHIFT_QB_ENV, h _ _ _ hr]

theorem SHIFT_PH_in_range (m64 : Bool) (func func' : EnvKernel)
    (h : ∀ a s e, 0 ≤ s ∧ s ≤ 15 → func a s e = func' a s e) (sa rt : Int)
    (env : CPUMIPSState) :
    SHIFT_PH m64 func sa rt env = SHIFT_PH m64 func' sa rt env := by
  have hr : 0 ≤ Int.land sa 0x0F ∧ Int.land sa 0x0F ≤ 15 := by rw [land_0x0F]; omega
  simp only [SHIFT_PH, h _ _ _ hr]

theorem SHIFT_W_ENV_in_range (m64 : Bool) (func func' : EnvKernel)
    (h : ∀ a s e, 0 ≤ s ∧ s ≤ 31 → func a s e = func' a s e) (sa rt : Int)
    (env : CPUMIPSState) :
    SHIFT_W_ENV m64 func sa rt env = SHIFT_W_ENV m64 func' sa rt env := by
  have hr : 0 ≤ Int.land sa 0x1F ∧ Int.land sa 0x1F ≤ 31 := by rw [land_0x1F]; omega
  simp only [SHIFT_W_ENV, h _ _ _ hr]

theorem SHIFT_W_in_range (m64 : Bool) (func func' : Int → Int → Int)
    (h : ∀ a s, 0 ≤ s ∧ s ≤ 31 → func a s = func' a s) (sa rt : Int) :
    SHIFT_W m64 func sa rt = SHIFT_W m64 func' sa rt := by
  have hr : 0 ≤ Int.land sa 0x1F ∧ Int.land sa 0x1F ≤ 31 := by rw [land_0x1F]; omega
  simp only [SHIFT_W, h _ _ hr]

/-- C16: shift amounts are masked, not rejected.  `helper_shll_qb` gives the same
result and context for `sa` and `sa & 0x07`; `helper_shll_ph` and `helper_shll_s_ph`
depend on `sa` only through `sa & 0x0F`; `helper_shll_s_w` and `helper_shra_r_w`
depend on `sa` only through `sa & 0x1F`; and the generating macros pass their kernel
only shift amounts of the lane's range (two kernels that agree on `0..7`, `0..15`,
`0..31` give the same helper). -/
theorem shift_amount_masked (m64 : Bool) :
    (∀ (sa rt : Int) (env : CPUMIPSState),
      helper_shll_qb m64 sa rt env = helper_shll_qb m64 (Int.land sa 0x07) rt env) ∧
    (∀ (sa sa' rt : Int) (env : CPUMIPSState), Int.land sa 0x0F = Int.land sa' 0x0F →
      helper_shll_ph m64 sa rt env = helper_shll_ph m64 sa' rt env ∧
      helper_shll_s_ph m64 sa rt env = helper_shll_s_ph m64 sa' rt env) ∧
    (∀ (sa sa' rt : Int) (env : CPUMIPSState), Int.land sa 0x1F = Int.land sa' 0x1F →
      helper_shll_s_w m64 sa rt env = helper_shll_s_w m64 sa' rt env ∧
      helper_shra_r_w m64 sa rt = helper_shra_r_w m64 sa' rt) ∧
    (∀ func func' : EnvKernel, (∀ a s e, 0 ≤ s ∧ s ≤ 7 → func a s e = func' a s e) →
      ∀ sa rt env, SHIFT_QB_ENV m64 func sa rt env = SHIFT_QB_ENV m64 func' sa rt env) ∧
    (∀ func func' : EnvKernel, (∀ a s e, 0 ≤ s ∧ s ≤ 15 → func a s e = func' a s e) →
      ∀ sa rt env, SHIFT_PH m64 func sa rt env = SHIFT_PH m64 func' sa rt env) ∧
    (∀ func func' : EnvKernel, (∀ a s e, 0 ≤ s ∧ s ≤ 31 → func a s e = func' a s e) →
      ∀ sa rt env, SHIFT_W_ENV m64 func sa rt env = SHIFT_W_ENV m64 func' sa rt env) ∧
    (∀ func func' : Int → Int → Int, (∀ a s, 0 ≤ s ∧ s ≤ 31 → func a s = func' a s) →
      ∀ sa rt, SHIFT_W m64 func sa rt = SHIFT_W m64 func' sa rt) := by
  refine ⟨fun sa rt env => ?_, fun sa sa' rt env h => ?_, fun sa sa' rt env h => ?_,
    fun func func' h sa rt env => SHIFT_QB_ENV_in_range m64 func func' h sa rt env,
    fun func func' h sa rt env => SHIFT_PH_in_range m64 func func' h sa rt env,
    fun func func' h sa rt env => SHIFT_W_ENV_in_range m64 func func' h sa rt env,
    fun func func' h sa rt => SHIFT_W_in_range m64 func func' h sa rt⟩
  · have e : Int.land (Int.land sa 0x07) 0x07 = Int.land sa 0x07 := by
      rw [land_0x07, land_0x07]; omega
    simp only [helper_shll_qb, SHIFT_QB_ENV, e]
  · simp only [helper_shll_ph, helper_shll_s_ph, SHIFT_PH, h, and_self]
  · simp only [helper_shll_s_w, helper_shra_r_w, SHIFT_W_ENV, SHIFT_W, h, and_self]

/-- C16 at the shift amounts `0x11` and `0x01` (equal under `& 0x0F`) and `0x21` and
`0x01` (equal under `& 0x1F`). -/
theorem shift_amount_masked_witness :
    (helper_shll_ph false 0x11 0x00010001 env0 = helper_shll_ph false 0x01 0x00010001 env0 ∧
      helper_shll_s_ph false 0x11 0x00010001 env0 =
        helper_shll_s_ph false 0x01 0x00010001 env0) ∧
    (helper_shll_s_w false 0x21 0x00000001 env0 = helper_shll_s_w false 0x01 0x00000001 env0 ∧
      helper_shra_r_w false 0x21 0x00000001 = helper_shra_r_w false 0x01 0x00000001) :=
  ⟨(shift_amount_masked false).2.1 0x11 0x01 0x00010001 env0 (by decide),
   (shift_amount_masked false).2.2.1 0x21 0x01 0x00000001 env0 (by decide)⟩

/-! ## Rounding right shifts -/

theorem shr_one (x : Int) : shr x 1 = x / 2 := by
  rw [show (1 : Int) = ((1 : Nat) : Int) from rfl, shr_natCast]; norm_num

theorem mipsdsp_rnd8_rashift_correct (a : Int) (s : Nat) (_ha : 0 ≤ a ∧ a ≤ 255)
    (hs : 1 ≤ s ∧ s ≤ 7) :
    mipsdsp_rnd8_rashift a s = (toS 8 a + 2 ^ (s - 1)) / 2 ^ s % 256 := by
  have hs0 : ¬ ((s : Int) = 0) := by omega
  have e1 : ((s : Int) - 1) = ((s - 1 : Nat) : Int) := by omega
  simp only [mipsdsp_rnd8_rashift, hs0, if_false, e1, shr_natCast, shr_one, toU_8, toU_32, toS_8,
    toS_32]
  obtain ⟨h1, h2⟩ := hs
  interval_cases s <;> simp only [Nat.reduceSub, Int.reducePow] <;> omega

theorem mipsdsp_rnd16_rashift_correct (a : Int) (s : Nat) (_ha : 0 ≤ a ∧ a ≤ 65535)
    (hs : 1 ≤ s ∧ s ≤ 15) :
    mipsdsp_rnd16_rashift a s = (toS 16 a + 2 ^ (s - 1)) / 2 ^ s % 65536 := by
  have hs0 : ¬ ((s : Int) = 0) := by omega
  have e1 : ((s : Int) - 1) = ((s - 1 : Nat) : Int) := by omega
  simp only [mipsdsp_rnd16_rashift, hs0, if_false, e1, shr_natCast, shr_one, toU_16, toU_32,
    toS_16, toS_32]
  obtain ⟨h1, h2⟩ := hs
  interval_cases s <;> simp only [Nat.reduceSub, Int.reducePow] <;> omega

theorem mipsdsp_rnd32_rashift_correct (a : Int) (s : Nat) (_ha : 0 ≤ a ∧ a ≤ 4294967295)
    (hs : 1 ≤ s ∧ s ≤ 31) :
    mipsdsp_rnd32_rashift a s = (toS 32 a + 2 ^ (s - 1)) / 2 ^ s % 4294967296 := by
  have hs0 : ¬ ((s : Int) = 0) := by omega
  have e1 : ((s : Int) - 1) = ((s - 1 : Nat) : Int) := by omega
  simp only [mipsdsp_rnd32_rashift, hs0, if_false, e1, shr_natCast, shr_one, land_0xFFFFFFFF,
    toU_32, toU_64, toS_32, toS_64]
  obtain ⟨h1, h2⟩ := hs
  interval_cases s <;> simp only [Nat.reduceSub, Int.reducePow] <;> omega

theorem mipsdsp_rnd_rashift_zero (a : Int) :
    (0 ≤ a ∧ a ≤ 255 → mipsdsp_rnd8_rashift a 0 = a) ∧
    (0 ≤ a ∧ a ≤ 65535 → mipsdsp_rnd16_rashift a 0 = a) ∧
    (0 ≤ a ∧ a ≤ 4294967295 → mipsdsp_rnd32_rashift a 0 = a) := by
  have e1 : ∀ x : Int, shr x 1 = x / 2 := shr_one
  have e2 : ∀ x : Int, shlU32 x 1 = toU 32 (x * 2) := fun x => by
    rw [show (1 : Int) = ((1 : Nat) : Int) from rfl, shlU32_natCast]; norm_num
  have e3 : ∀ x : Int, shlU64 x 1 = toU 64 (x * 2) := fun x => by
    simp only [shlU64]; norm_num
  refine ⟨fun ha => ?_, fun ha => ?_, fun ha => ?_⟩
  · simp only [mipsdsp_rnd8_rashift, if_true, e1, e2, toU_8, toU_32]; omega
  · simp only [mipsdsp_rnd16_rashift, if_true, e1, e2, toU_16, toU_32]; omega
  · simp only [mipsdsp_rnd32_rashift, if_true, e1, e3, land_0xFFFFFFFF, toU_32, toU_64,
      toS_64]
    omega

/-- C17: for `w` in `8, 16, 32`, a `w`-bit lane `a` and a shift `s` with
`1 ≤ s ≤ w - 1`, `mipsdsp_rnd<w>_rashift a s` is
`floor ((signed(a) + 2 ^ (s - 1)) / 2 ^ s)` reduced modulo `2 ^ w`; for `s = 0` it
returns `a`. -/
theorem mipsdsp_rnd_rashift_spec :
    (∀ (a : Int) (s : Nat), 0 ≤ a ∧ a ≤ 255 →
      (1 ≤ s ∧ s ≤ 7 → mipsdsp_rnd8_rashift a s = (toS 8 a + 2 ^ (s - 1)) / 2 ^ s % 256) ∧
      mipsdsp_rnd8_rashift a 0 = a) ∧
    (∀ (a : Int) (s : Nat), 0 ≤ a ∧ a ≤ 65535 →
      (1 ≤ s ∧ s ≤ 15 →
        mipsdsp_rnd16_rashift a s = (toS 16 a + 2 ^ (s - 1)) / 2 ^ s % 65536) ∧
      mipsdsp_rnd16_rashift a 0 = a) ∧
    (∀ (a : Int) (s : Nat), 0 ≤ a ∧ a ≤ 4294967295 →
      (1 ≤ s ∧ s ≤ 31 →
        mipsdsp_rnd32_rashift a s = (toS 32 a + 2 ^ (s - 1)) / 2 ^ s % 4294967296) ∧
      mipsdsp_rnd32_rashift a 0 = a) :=
  ⟨fun a s ha => ⟨fun hs => mipsdsp_rnd8_rashift_correct a s ha hs,
      (mipsdsp_rnd_rashift_zero a).1 ha⟩,
   fun a s ha => ⟨fun hs => mipsdsp_rnd16_rashift_correct a s ha hs,
      (mipsdsp_rnd_rashift_zero a).2.1 ha⟩,
   fun a s ha => ⟨fun hs => mipsdsp_rnd32_rashift_correct a s ha hs,
      (mipsdsp_rnd_rashift_zero a).2.2 ha⟩⟩

/-- C17 at `0xFB` (`-5`) shifted by 1 (`floor (-4 / 2) = -2`, pattern `0xFE`), at
`7` shifted by 2 in 16 bits (`floor (9 / 4) = 2`) and at `0xFFFFFFFF` (`-1`) shifted
by 1 in 32 bits (`floor (0 / 2) = 0`). -/
theorem mipsdsp_rnd_rashift_spec_witness :
    mipsdsp_rnd8_rashift 0xFB 1 = 0xFE ∧
    mipsdsp_rnd16_rashift 7 2 = 2 ∧
    mipsdsp_rnd32_rashift 0xFFFFFFFF 1 = 0 :=
  ⟨((mipsdsp_rnd_rashift_spec.1 0xFB 1 (by decide)).1 (by decide)).trans (by decide),
   ((mipsdsp_rnd_rashift_spec.2.1 7 2 (by decide)).1 (by decide)).trans (by decide),
   ((mipsdsp_rnd_rashift_spec.2.2 0xFFFFFFFF 1 (by decide)).1 (by decide)).trans (by decide)⟩

/-! ## 16-bit integer multiplication -/

theorem mul_i16_bounds (a b : Int) (ha : -32768 ≤ a ∧ a ≤ 32767)
    (hb : -32768 ≤ b ∧ b ≤ 32767) : -1073741824 ≤ a * b ∧ a * b ≤ 1073741824 := by
  have h1 : 0 ≤ (a + 32768) * (b + 32768) := mul_nonneg (by omega) (by omega)
  have h2 : 0 ≤ (32767 - a) * (32767 - b) := mul_nonneg (by omega) (by omega)
  have h3 : 0 ≤ (a + 32768) * (32767 - b) := mul_nonneg (by omega) (by omega)
  have h4 : 0 ≤ (32767 - a) * (b + 32768) := mul_nonneg (by omega) (by omega)
  constructor <;> nlinarith [h1, h2, h3, h4]

theorem mipsdsp_mul_i16_i16_correct (m64 : Bool) (a b : Int) (env : CPUMIPSState)
    (ha : -32768 ≤ a ∧ a ≤ 32767) (hb : -32768 ≤ b ∧ b ≤ 32767) :
    ((mipsdsp_mul_i16_i16 m64 a b env).1 = (a * b) % 65536 ∧
      (mipsdsp_mul_i16_i16 m64 a b env).2.active_tc.DSPControl =
        (if a * b < -32768 ∨ 32767 < a * b then Int.lor env.active_tc.DSPControl (2 ^ 21)
         else env.active_tc.DSPControl)) ∧
    ((mipsdsp_sat16_mul_i16_i16 m64 a b env).1 =
        toU 16 (max (-32768) (min (a * b) 32767)) ∧
      (mipsdsp_sat16_mul_i16_i16 m64 a b env).2.active_tc.DSPControl =
        (if a * b < -32768 ∨ 32767 < a * b then Int.lor env.active_tc.DSPControl (2 ^ 21)
         else env.active_tc.DSPControl)) := by
  have hp := mul_i16_bounds a b ha hb
  have ea : toS 32 a = a := by rw [toS_32]; omega
  have eb : toS 32 b = b := by rw [toS_32]; omega
  have e1 : toS 32 0x7FFF = 32767 := by decide
  have e2 : toS 32 0xFFFF8000 = -32768 := by decide
  have e3 : toS 32 0xffff8000 = -32768 := by decide
  simp only [mipsdsp_mul_i16_i16, mipsdsp_sat16_mul_i16_i16, ea, eb, e1, e2, e3, land_0xFFFF,
    set_flag_eq m64 21 (by norm_num)]
  simp only [toS_32, toU_16]
  generalize a * b = p at *
  refine ⟨⟨?_, ?_⟩, ⟨?_, ?_⟩⟩ <;>
    first
      | omega
      | (split_ifs <;> (try simp only [setDSPControl_DSPControl]) <;> omega)

/-- C18: for signed 16-bit `a` and `b`, `mipsdsp_mul_i16_i16` returns the low 16 bits
of `a * b` and ORs bit 21 into `DSPControl` exactly when `a * b` lies outside
`[-32768, 32767]`; `mipsdsp_sat16_mul_i16_i16` returns the 16-bit pattern of `a * b`
clamped to `[-32768, 32767]` and sets bit 21 under the same condition. -/
theorem mipsdsp_mul_i16_spec (m64 : Bool) (a b : Int) (env : CPUMIPSState)
    (ha : -32768 ≤ a ∧ a ≤ 32767) (hb : -32768 ≤ b ∧ b ≤ 32767) :
    ((mipsdsp_mul_i16_i16 m64 a b env).1 = (a * b) % 65536 ∧
      (mipsdsp_mul_i16_i16 m64 a b env).2.active_tc.DSPControl =
        (if a * b < -32768 ∨ 32767 < a * b then Int.lor env.active_tc.DSPControl (2 ^ 21)
         else env.active_tc.DSPControl)) ∧
    ((mipsdsp_sat16_mul_i16_i16 m64 a b env).1 =
        toU 16 (max (-32768) (min (a * b) 32767)) ∧
      (mipsdsp_sat16_mul_i16_i16 m64 a b env).2.active_tc.DSPControl =
        (if a * b < -32768 ∨ 32767 < a * b then Int.lor env.active_tc.DSPControl (2 ^ 21)
         else env.active_tc.DSPControl)) :=
  mipsdsp_mul_i16_i16_correct m64 a b env ha hb

/-- C18 at `-300 * 200 = -60000`: the low 16 bits are `0x15A0`, the clamped pattern
is `0x8000`, and bit 21 is set by both kernels. -/
theorem mipsdsp_mul_i16_spec_witness :
    ((mipsdsp_mul_i16_i16 false (-300) 200 env0).1 = 0x15A0 ∧
      (mipsdsp_mul_i16_i16 false (-300) 200 env0).2.active_tc.DSPControl = 0x200000) ∧
    ((mipsdsp_sat16_mul_i16_i16 false (-300) 200 env0).1 = 0x8000 ∧
      (mipsdsp_sat16_mul_i16_i16 false (-300) 200 env0).2.active_tc.DSPControl = 0x200000) := by
  have h := mipsdsp_mul_i16_spec false (-300) 200 env0 (by decide) (by decide)
  exact ⟨⟨h.1.1.trans (by decide), h.1.2.trans (by decide)⟩,
    ⟨h.2.1.trans (by decide), h.2.2.trans (by decide)⟩⟩

/-! ## Saturating accumulation -/

/-- The 64-bit `temp` of `mipsdsp_sat32_acc_q31` without `TARGET_MIPS64` is
`HI:LO`. -/
theorem acc64_value (hi lo : Int) (hhi : 0 ≤ hi ∧ hi < 4294967296)
    (hlo : 0 ≤ lo ∧ lo < 4294967296) :
    Int.lor (toU 64 (toU 64 hi * 2 ^ 32)) (toU 64 lo) = hi * 2 ^ 32 + lo := by
  have e1 : toU 64 (toU 64 hi * 2 ^ 32) = hi * 2 ^ 32 := by
    simp only [toU_64]; norm_num; omega
  have e2 : toU 64 lo = lo := by simp only [toU_64]; omega
  rw [e1, e2]
  exact lor_eq_add _ _ 32 hhi.1 hlo.1 (by norm_num; omega)

/-- C19, as stated, fails: with `HI[0]:LO[0] = 2 ^ 33` and `a = 0` the sum `2 ^ 33`
does not fit in 32 bits, yet `mipsdsp_sat32_acc_q31` returns `0` (not `0x7FFFFFFF`)
and leaves `DSPControl` at zero (bit 16 is not set). -/
theorem mipsdsp_sat32_acc_q31_counterexample :
    toS 64 (envAcc2Pow33.active_tc.HI 0 * 2 ^ 32 + envAcc2Pow33.active_tc.LO 0) + 0
      = 8589934592 ∧
    (mipsdsp_sat32_acc_q31 false 0 0 envAcc2Pow33).1 = 0 ∧
    (mipsdsp_sat32_acc_q31 false 0 0 envAcc2Pow33).1 ≠
      max (-2147483648) (min 8589934592 2147483647) ∧
    (mipsdsp_sat32_acc_q31 false 0 0 envAcc2Pow33).2.active_tc.DSPControl = 0 ∧
    (mipsdsp_sat32_acc_q31 false 0 0 envAcc2Pow33).2.active_tc.DSPControl ≠
      Int.lor envAcc2Pow33.active_tc.DSPControl (2 ^ 16) := by
  have hv := acc64_value 2 0 (by decide) (by decide)
  have h1 : (mipsdsp_sat32_acc_q31 false 0 0 envAcc2Pow33).1 = 0 := by
    simp only [mipsdsp_sat32_acc_q31, envAcc2Pow33, Bool.false_eq_true, if_false, hv,
      shiftRight_div, land_0x01, land_0xFFFFFFFF, toS_32, toS_64]
    norm_num
  have h2 : (mipsdsp_sat32_acc_q31 false 0 0 envAcc2Pow33).2.active_tc.DSPControl = 0 := by
    simp only [mipsdsp_sat32_acc_q31, envAcc2Pow33, Bool.false_eq_true, if_false, hv,
      shiftRight_div, land_0x01, land_0xFFFFFFFF, toS_32, toS_64]
    norm_num
  refine ⟨by decide, h1, ?_, h2, ?_⟩
  · rw [h1]; decide
  · rw [h2]; decide

/-- C19 amended: in 32-bit mode, when the accumulator `A = HI[acc]:LO[acc]` and the
signed 32-bit `a` have a sum in `[-2 ^ 32, 2 ^ 32)` (in particular whenever `A` is
itself a signed 32-bit value), `mipsdsp_sat32_acc_q31` returns `A + a` clamped to
`[INT32_MIN, INT32_MAX]` and ORs bit `16 + acc` into `DSPControl` exactly when
`A + a` does not fit in a signed 32-bit integer. -/
theorem mipsdsp_sat32_acc_q31_spec (acc : Nat) (a : Int) (env : CPUMIPSState)
    (hacc : acc ≤ 3) (ha : -2147483648 ≤ a ∧ a ≤ 2147483647)
    (hhi : 0 ≤ env.active_tc.HI acc ∧ env.active_tc.HI acc < 4294967296)
    (hlo : 0 ≤ env.active_tc.LO acc ∧ env.active_tc.LO acc < 4294967296)
    (hsum : -4294967296 ≤ toS 64 (env.active_tc.HI acc * 2 ^ 32 + env.active_tc.LO acc) + a ∧
      toS 64 (env.active_tc.HI acc * 2 ^ 32 + env.active_tc.LO acc) + a < 4294967296) :
    (mipsdsp_sat32_acc_q31 false acc a env).1 =
      max (-2147483648)
        (min (toS 64 (env.active_tc.HI acc * 2 ^ 32 + env.active_tc.LO acc) + a)
          2147483647) ∧
    (mipsdsp_sat32_acc_q31 false acc a env).2.active_tc.DSPControl =
      (if toS 64 (env.active_tc.HI acc * 2 ^ 32 + env.active_tc.LO acc) + a < -2147483648 ∨
          2147483647 < toS 64 (env.active_tc.HI acc * 2 ^ 32 + env.active_tc.LO acc) + a then
        Int.lor env.active_tc.DSPControl (2 ^ (16 + acc))
       else env.active_tc.DSPControl) := by
  have hv := acc64_value _ _ hhi hlo
  simp only [mipsdsp_sat32_acc_q31, Bool.false_eq_true, if_false, hv, shiftRight_div,
    land_0x01, land_0xFFFFFFFF, set_flag_eq false (16 + acc) (by omega)]
  simp only [toS_32, toS_64] at hsum ⊢
  generalize env.active_tc.HI acc * 2 ^ 32 + env.active_tc.LO acc = A at *
  norm_num
  split_ifs <;> simp only [setDSPControl_DSPControl, and_true] <;> omega

/-- C19 amended, at `HI[0]:LO[0] = 0x7FFFFFFF` and `a = 1`: the sum `2 ^ 31` clamps to
`0x7FFFFFFF` and bit 16 is set. -/
theorem mipsdsp_sat32_acc_q31_spec_witness :
    (mipsdsp_sat32_acc_q31 false 0 1 envAccInt32Max).1 = 0x7FFFFFFF ∧
    (mipsdsp_sat32_acc_q31 false 0 1 envAccInt32Max).2.active_tc.DSPControl = 0x10000 := by
  have h := mipsdsp_sat32_acc_q31_spec 0 1 envAccInt32Max (by decide) (by decide) (by decide)
    (by decide) (by decide)
  exact ⟨h.1.trans (by decide), h.2.trans (by decide)⟩

theorem shlU64_natCast (x : Int) (n : Nat) : shlU64 x (n : Int) = toU 64 (x * 2 ^ n) := by
  simp only [shlU64, Int.toNat_ofNat]

theorem sat64_consts :
    toS 64 (shlU64 0x01 63) = -9223372036854775808 ∧
    toS 64 (toU 64 (Int.lnot 0)) = -1 ∧
    toS 64 (toU 64 (shlU64 0x01 63 - 1)) = 9223372036854775807 := by
  have e0 : shlU64 0x01 63 = 9223372036854775808 := by
    rw [show (63 : Int) = ((63 : Nat) : Int) from rfl, shlU64_natCast, toU_64]; norm_num
  refine ⟨?_, ?_, ?_⟩
  · rw [e0, toS_64]; norm_num
  · rw [show Int.lnot 0 = -1 from rfl, toU_64, toS_64]; norm_num
  · rw [e0, toU_64, toS_64]; norm_num

theorem bne_zero_ite (x : Int) : (if (x != 0) = true then (1 : Int) else 0) =
    if x = 0 then 0 else 1 := by
  by_cases h : x = 0 <;> simp [h]

/-- Normal form of `mipsdsp_sat64_acc_add_q63` with `TARGET_MIPS64`, in terms of the
unsigned 64-bit halves of the sum. -/
theorem sat64_acc_add_norm (ac : Nat) (a : Int × Int) (env : CPUMIPSState) (hac : ac ≤ 3)
    (R0 R1 c : Int)
    (hlo : 0 ≤ env.active_tc.LO ac ∧ env.active_tc.LO ac < 18446744073709551616)
    (hR0 : R0 = (env.active_tc.LO ac + a.1 % 18446744073709551616) % 18446744073709551616)
    (hc : c = (env.active_tc.LO ac + a.1 % 18446744073709551616) / 18446744073709551616)
    (hR1 : R1 = (env.active_tc.HI ac + a.2 % 18446744073709551616 + c)
      % 18446744073709551616) :
    mipsdsp_sat64_acc_add_q63 true ac a env =
      if R1 % 2 = R0 / 9223372036854775808 then ((toS 64 R0, toS 64 R1), env)
      else if R1 % 2 = 1 then
        ((-9223372036854775808, -1),
          env.setDSPControl (Int.lor env.active_tc.DSPControl (2 ^ (16 + ac))))
      else
        ((9223372036854775807, 0),
          env.setDSPControl (Int.lor env.active_tc.DSPControl (2 ^ (16 + ac)))) := by
  obtain ⟨e1, e2, e3⟩ := sat64_consts
  obtain ⟨a0, a1⟩ := a
  simp only [mipsdsp_sat64_acc_add_q63, addTargetUlongInt64, if_true, e1, e2, e3, bne_zero_ite,
    shiftRight_div, land_0x01, set_flag_eq true (16 + ac) (by omega), bne_iff_ne, ne_eq]
    at hR0 hc hR1 ⊢
  generalize env.active_tc.HI ac = H at *
  generalize env.active_tc.LO ac = L at *
  have h0 : toS 64 (toU 64 (L + toU 64 a0)) = toS 64 R0 := by
    simp only [toU_64, toS_64]; omega
  have h0u : toU 64 (toS 64 R0) = R0 := by
    simp only [toU_64, toS_64]; omega
  have hL : toU 64 L = L := by simp only [toU_64]; omega
  have hcar : (R0 < L ∧ R0 < toU 64 a0) ↔ c = 1 := by
    simp only [toU_64]; omega
  have hc01 : c = 0 ∨ c = 1 := by omega
  have h1 : toS 64 (toS 64 (toU 64 (H + toU 64 a1)) + c) = toS 64 R1 := by
    simp only [toU_64, toS_64]; omega
  have h1' : c = 0 → toS 64 (toU 64 (H + toU 64 a1)) = toS 64 R1 := by
    intro h; rw [← h1, h]; simp only [toU_64, toS_64]; omega
  have hbit : toS 64 R1 % 2 = R1 % 2 := by simp only [toS_64]; omega
  have hsign : toS 64 R0 / 9223372036854775808 % 2 = R0 / 9223372036854775808 := by
    simp only [toS_64]; omega
  have hR1' : R1 % 2 = 0 ∨ R1 % 2 = 1 := by omega
  have hR0' : R0 / 9223372036854775808 = 0 ∨ R0 / 9223372036854775808 = 1 := by omega
  simp only [h0, h0u, hL, hcar]
  norm_num only
  rcases hc01 with hc0 | hc1
  · have hn : ¬ (c = 1) := by omega
    simp only [hn, if_false, h1' hc0, hbit, hsign]
    rcases hR1' with h | h <;> rcases hR0' with h' | h' <;> simp [h, h']
  · rw [hc1] at h1
    simp only [hc1, if_true, h1, hbit, hsign]
    rcases hR1' with h | h <;> rcases hR0' with h' | h' <;> simp [h, h']

/-- C20: in 64-bit mode, let `S` be the 128-bit sum of `HI[ac]:LO[ac]` and
`a[1]:a[0]` modulo `2 ^ 128`.  If bits 64 and 63 of `S` agree,
`mipsdsp_sat64_acc_add_q63` returns `ret[1]:ret[0] = S` and the context unchanged;
otherwise it returns `(ret[0], ret[1]) = (0x7FFFFFFFFFFFFFFF, 0)` when bit 64 is 0 and
`(0x8000000000000000, all ones)` when bit 64 is 1, and ORs bit `16 + ac` into
`DSPControl`. -/
theorem mipsdsp_sat64_acc_add_q63_spec (ac : Nat) (a : Int × Int) (env : CPUMIPSState)
    (S : Int) (hac : ac ≤ 3)
    (hhi : 0 ≤ env.active_tc.HI ac ∧ env.active_tc.HI ac < 2 ^ 64)
    (hlo : 0 ≤ env.active_tc.LO ac ∧ env.active_tc.LO ac < 2 ^ 64)
    (hS : S = (word128 (env.active_tc.HI ac) (env.active_tc.LO ac) + word128 a.2 a.1)
      % 2 ^ 128) :
    (S / 2 ^ 64 % 2 = S / 2 ^ 63 % 2 →
      word128 (mipsdsp_sat64_acc_add_q63 true ac a env).1.2
        (mipsdsp_sat64_acc_add_q63 true ac a env).1.1 = S ∧
      (mipsdsp_sat64_acc_add_q63 true ac a env).2 = env) ∧
    (S / 2 ^ 64 % 2 ≠ S / 2 ^ 63 % 2 →
      (S / 2 ^ 64 % 2 = 0 →
        toU 64 (mipsdsp_sat64_acc_add_q63 true ac a env).1.1 = 0x7FFFFFFFFFFFFFFF ∧
        toU 64 (mipsdsp_sat64_acc_add_q63 true ac a env).1.2 = 0) ∧
      (S / 2 ^ 64 % 2 = 1 →
        toU 64 (mipsdsp_sat64_acc_add_q63 true ac a env).1.1 = 0x8000000000000000 ∧
        toU 64 (mipsdsp_sat64_acc_add_q63 true ac a env).1.2 = 0xFFFFFFFFFFFFFFFF) ∧
      (mipsdsp_sat64_acc_add_q63 true ac a env).2.active_tc.DSPControl =
        Int.lor env.active_tc.DSPControl (2 ^ (16 + ac))) := by
  norm_num at hhi hlo
  have hn := sat64_acc_add_norm ac a env hac _ _ _ hlo rfl rfl rfl
  simp only [word128, toU_64] at hS
  norm_num at hS
  generalize hR0 : (env.active_tc.LO ac + a.1 % 18446744073709551616) % 18446744073709551616
    = R0 at hn
  generalize hc : (env.active_tc.LO ac + a.1 % 18446744073709551616) / 18446744073709551616
    = c at hn
  generalize hR1 : (env.active_tc.HI ac + a.2 % 18446744073709551616 + c)
    % 18446744073709551616 = R1 at hn
  have hSv : S = R1 * 18446744073709551616 + R0 := by omega
  have hb64 : S / 18446744073709551616 % 2 = R1 % 2 := by omega
  have hb63 : S / 9223372036854775808 % 2 = R0 / 9223372036854775808 := by omega
  have hw : word128 (toS 64 R1) (toS 64 R0) = S := by
    simp only [word128, toU_64, toS_64]; omega
  norm_num
  rw [hb64, hb63, hn]
  refine ⟨fun h => ?_, fun h => ⟨fun h0 => ?_, fun h1 => ?_, ?_⟩⟩
  · rw [if_pos h]
    exact ⟨hw, rfl⟩
  · have h1 : ¬ (R1 % 2 = 1) := by omega
    rw [if_neg h, if_neg h1]
    simp only [toU_64]; norm_num
  · rw [if_neg h, if_pos h1]
    simp only [toU_64]; norm_num
  · rw [if_neg h]
    split_ifs <;> rfl

/-- C20 at `HI[0]:LO[0] = 0:0xFFFFFFFFFFFFFFFF` plus `0:1`: the carry out of the low
word makes the sum `1:0`; bit 64 is 1 and bit 63 is 0, so the result saturates to
`(0x8000000000000000, all ones)` and bit 16 is set. -/
theorem mipsdsp_sat64_acc_add_q63_spec_witness :
    toU 64 (mipsdsp_sat64_acc_add_q63 true 0 (1, 0) envAccLoOnes).1.1 = 0x8000000000000000 ∧
    toU 64 (mipsdsp_sat64_acc_add_q63 true 0 (1, 0) envAccLoOnes).1.2 = 0xFFFFFFFFFFFFFFFF ∧
    (mipsdsp_sat64_acc_add_q63 true 0 (1, 0) envAccLoOnes).2.active_tc.DSPControl = 0x10000 := by
  have h := (mipsdsp_sat64_acc_add_q63_spec 0 (1, 0) envAccLoOnes 18446744073709551616
    (by decide) (by decide) (by decide) (by decide)).2 (by decide)
  exact ⟨(h.2.1 (by decide)).1, (h.2.1 (by decide)).2, h.2.2.trans (by decide)⟩

/-! ## Flag positions -/

theorem lor_zero_int (d : Int) : Int.lor d 0 = d := by
  apply int_eq_of_testBit_eq
  intro k
  rw [Int.testBit_lor]
  have : (0 : Int).testBit k = false := by
    show Nat.testBit 0 k = false
    simp
  rw [this, Bool.or_false]

theorem set_flag_zero (m64 : Bool) (p : Nat) (env : CPUMIPSState) :
    set_DSPControl_overflow_flag m64 0 p env = env := by
  unfold set_DSPControl_overflow_flag toU CPUMIPSState.setDSPControl
  simp only [Int.zero_emod, zero_mul, lor_zero_int]

theorem set_carry_eq (m64 : Bool) (env : CPUMIPSState) :
    set_DSPControl_carryflag m64 1 env =
      env.setDSPControl (Int.lor env.active_tc.DSPControl (2 ^ 13)) :=
  set_flag_eq m64 13 (by norm_num) env

theorem get_carry_eq (env : CPUMIPSState) :
    get_DSPControl_carryflag env =
      if env.active_tc.DSPControl.testBit 13 then 1 else 0 := by
  unfold get_DSPControl_carryflag
  rw [land_0x01, shiftRight_div, toU_32, testBit_eq_div_mod]
  by_cases h : env.active_tc.DSPControl / 2 ^ 13 % 2 = 1
  · simp only [h, decide_True, if_true]; norm_num
  · simp only [h, decide_False, Bool.false_eq_true, if_false]; omega

theorem kernels1_flag20 (m64 : Bool) :
    ∀ k ∈ ([mipsdsp_sat_abs8 m64, mipsdsp_sat_abs16 m64, mipsdsp_sat_abs32 m64] :
        List (Int → CPUMIPSState → Int × CPUMIPSState)),
      ∀ a, SetsOnlyFlag m64 20 (k a) := by
  intro k hk a env
  simp only [List.mem_cons, List.mem_singleton, List.not_mem_nil, or_false] at hk
  rcases hk with rfl | rfl | rfl
  all_goals
    simp only [mipsdsp_sat_abs8, mipsdsp_sat_abs16, mipsdsp_sat_abs32]
    split_ifs <;> simp

theorem kernels2_flag20 (m64 : Bool) :
    ∀ k ∈ ([
      mipsdsp_add_i16 m64, mipsdsp_sat_add_i16 m64, mipsdsp_sat_add_i32 m64,
      mipsdsp_add_u8 m64, mipsdsp_add_u16 m64, mipsdsp_sat_add_u8 m64, mipsdsp_sat_add_u16 m64,
      mipsdsp_add_i32 m64, mipsdsp_sub_i16 m64, mipsdsp_sat16_sub m64,
      mipsdsp_sat32_sub m64, mipsdsp_sub_u16_u16 m64, mipsdsp_satu16_sub_u16_u16 m64,
      mipsdsp_sub_u8 m64, mipsdsp_satu8_sub m64, mipsdsp_sub32 m64] : List EnvKernel),
      ∀ a b, SetsOnlyFlag m64 20 (k a b) := by
  intro k hk a b env
  simp only [List.mem_cons, List.mem_singleton, List.not_mem_nil, or_false] at hk
  rcases hk with rfl | rfl | rfl | rfl | rfl | rfl | rfl | rfl | rfl | rfl | rfl | rfl | rfl |
    rfl | rfl | rfl
  all_goals
    simp only [mipsdsp_add_i16, mipsdsp_sat_add_i16, mipsdsp_sat_add_i32, mipsdsp_add_u8,
      mipsdsp_add_u16, mipsdsp_sat_add_u8, mipsdsp_sat_add_u16, mipsdsp_add_i32,
      mipsdsp_sub_i16, mipsdsp_sat16_sub, mipsdsp_sat32_sub, mipsdsp_sub_u16_u16,
      mipsdsp_satu16_sub_u16_u16, mipsdsp_sub_u8, mipsdsp_satu8_sub, mipsdsp_sub32]
    split_ifs <;> simp

theorem kernels2_flag21 (m64 : Bool) :
    ∀ k ∈ ([mipsdsp_mul_i16_i16 m64, mipsdsp_sat16_mul_i16_i16 m64,
      mipsdsp_mul_q15_q15_overflowflag21 m64, mipsdsp_mul_u8_u16 m64,
      mipsdsp_rndq15_mul_q15_q15 m64, mipsdsp_sat16_mul_q15_q15 m64] : List EnvKernel),
      ∀ a b, SetsOnlyFlag m64 21 (k a b) := by
  intro k hk a b env
  simp only [List.mem_cons, List.mem_singleton, List.not_mem_nil, or_false] at hk
  rcases hk with rfl | rfl | rfl | rfl | rfl | rfl
  all_goals
    simp only [mipsdsp_mul_i16_i16, mipsdsp_sat16_mul_i16_i16,
      mipsdsp_mul_q15_q15_overflowflag21, mipsdsp_mul_u8_u16, mipsdsp_rndq15_mul_q15_q15,
      mipsdsp_sat16_mul_q15_q15]
    split_ifs <;> simp

theorem kernels2_flag22 (m64 : Bool) :
    ∀ k ∈ ([mipsdsp_lshift8 m64, mipsdsp_lshift16 m64, mipsdsp_lshift32 m64,
      mipsdsp_sat16_lshift m64, mipsdsp_sat32_lshift m64] : List EnvKernel),
      ∀ a s, SetsOnlyFlag m64 22 (k a s) := by
  intro k hk a b env
  simp only [List.mem_cons, List.mem_singleton, List.not_mem_nil, or_false] at hk
  rcases hk with rfl | rfl | rfl | rfl | rfl
  all_goals
    simp only [mipsdsp_lshift8, mipsdsp_lshift16, mipsdsp_lshift32, mipsdsp_sat16_lshift,
      mipsdsp_sat32_lshift]
    split_ifs <;> simp

theorem kernels1_flag22 (m64 : Bool) :
    ∀ k ∈ ([mipsdsp_trunc16_sat16_round m64, mipsdsp_sat8_reduce_precision m64] :
        List (Int → CPUMIPSState → Int × CPUMIPSState)),
      ∀ a, SetsOnlyFlag m64 22 (k a) := by
  intro k hk a env
  simp only [List.mem_cons, List.mem_singleton, List.not_mem_nil, or_false] at hk
  rcases hk with rfl | rfl
  all_goals
    simp only [mipsdsp_trunc16_sat16_round, mipsdsp_sat8_reduce_precision]
    split_ifs <;> simp

theorem rashift_short_acc_flag23 (m64 : Bool) (ac : Nat) (shift : Int) :
    SetsOnlyFlag m64 23 (mipsdsp_rashift_short_acc m64 ac shift) := by
  intro env
  simp only [mipsdsp_rashift_short_acc]
  split_ifs <;> simp

theorem flag_positions_used (m64 : Bool) (env : CPUMIPSState) (ac : Nat) :
    (mipsdsp_sat_abs8 m64 (-128) env).2 = set_DSPControl_overflow_flag m64 1 20 env ∧
    (mipsdsp_add_i16 m64 0x7FFF 1 env).2 = set_DSPControl_overflow_flag m64 1 20 env ∧
    (mipsdsp_sub_u8 m64 0 1 env).2 = set_DSPControl_overflow_flag m64 1 20 env ∧
    (mipsdsp_mul_i16_i16 m64 0x7FFF 0x7FFF env).2 =
      set_DSPControl_overflow_flag m64 1 21 env ∧
    (mipsdsp_mul_u8_u16 m64 0xFF 0xFFFF env).2 =
      set_DSPControl_overflow_flag m64 1 21 env ∧
    (mipsdsp_lshift8 m64 0x40 1 env).2 = set_DSPControl_overflow_flag m64 1 22 env ∧
    (mipsdsp_lshift16 m64 0x4000 1 env).2 = set_DSPControl_overflow_flag m64 1 22 env ∧
    (mipsdsp_lshift32 m64 0x40000000 2 env).2 =
      set_DSPControl_overflow_flag m64 1 22 env ∧
    (mipsdsp_rashift_short_acc m64 ac 0 (envAcc 0 0x80000000)).2 =
      set_DSPControl_overflow_flag m64 1 23 (envAcc 0 0x80000000) ∧
    (mipsdsp_mul_q15_q15 m64 ac 0x8000 0x8000 env).2 =
      set_DSPControl_overflow_flag m64 1 (16 + ac) env := by
  refine ⟨?_, ?_, ?_, ?_, ?_, ?_, ?_, ?_, ?_, ?_⟩
  · simp [mipsdsp_sat_abs8, INT8_MIN]
  · rw [mipsdsp_add_i16, if_pos]
    rw [MIPSDSP_OVERFLOW_16]; norm_num [toS_16]
  · rw [mipsdsp_sub_u8, if_pos]
    norm_num [toU_8, toU_16, shiftRight_div, land_0x01]
  · rw [mipsdsp_mul_i16_i16, if_pos]
    norm_num [toS_32]
  · rw [mipsdsp_mul_u8_u16, if_pos]
    norm_num [toU_32]
  · rw [mipsdsp_lshift8, if_neg (by norm_num)]
    have h : shr 0x40 (6 - (1 - 1)) = 1 := by
      rw [show (6 - (1 - 1) : Int) = ((6 : Nat) : Int) from rfl, shr_natCast]; norm_num
    have h7 : shr 0x40 7 = 0 := by
      rw [show (7 : Int) = ((7 : Nat) : Int) from rfl, shr_natCast]; norm_num
    simp only [h, h7]
    norm_num [toU_8, land_0x01]
  · rw [mipsdsp_lshift16, if_neg (by norm_num)]
    have h : shr 0x4000 (14 - (1 - 1)) = 1 := by
      rw [show (14 - (1 - 1) : Int) = ((14 : Nat) : Int) from rfl, shr_natCast]; norm_num
    have h7 : shr 0x4000 15 = 0 := by
      rw [show (15 : Int) = ((15 : Nat) : Int) from rfl, shr_natCast]; norm_num
    simp only [h, h7]
    norm_num [toU_8, toU_16, land_0x01]
  · rw [mipsdsp_lshift32, if_neg (by norm_num)]
    have h : shr (toS 32 0x40000000) (31 - (2 - 1)) = 1 := by
      rw [show (31 - (2 - 1) : Int) = ((30 : Nat) : Int) from rfl, shr_natCast, toS_32]
      norm_num
    simp only [h]
    norm_num [toU_32]
  · simp only [mipsdsp_rashift_short_acc, envAcc, if_true]
    rw [if_pos]
    have h : Int.lor (shlInt64 (toS 64 0) 32) (Int.land (toS 64 0x80000000) 0xFFFFFFFF) =
        0x80000000 := by
      rw [land_0xFFFFFFFF]
      norm_num [toS_64, shlInt64]
      rfl
    rw [h]
    norm_num [toS_32, land_0x01, shiftRight_div]
  · simp [mipsdsp_mul_q15_q15]

/-- C21: `set_DSPControl_overflow_flag(1, p)` (`p` in 0..31) ORs exactly bit `p` into
`DSPControl` and changes nothing else, with flag 0 it leaves the context unchanged;
`set_DSPControl_carryflag(1)` ORs in exactly bit 13 and `get_DSPControl_carryflag`
returns bit 13; the kernels touch the context only by setting their fixed position
(20 for add, subtract and absolute value, 21 for multiply, 22 for shifts and
precision reduction, 23 for `mipsdsp_rashift_short_acc`, `16 + ac` for the
accumulator kernels), and each position is set on some input. -/
theorem dspcontrol_flag_positions (m64 : Bool) :
    (∀ (env : CPUMIPSState) (p : Nat), p ≤ 31 →
      set_DSPControl_overflow_flag m64 1 p env =
        env.setDSPControl (Int.lor env.active_tc.DSPControl (2 ^ p)) ∧
      (set_DSPControl_overflow_flag m64 1 p env).active_tc.DSPControl.testBit p = true ∧
      (∀ q : Nat, q ≠ p →
        (set_DSPControl_overflow_flag m64 1 p env).active_tc.DSPControl.testBit q =
          env.active_tc.DSPControl.testBit q) ∧
      set_DSPControl_overflow_flag m64 0 p env = env) ∧
    (∀ env : CPUMIPSState,
      set_DSPControl_carryflag m64 1 env =
        env.setDSPControl (Int.lor env.active_tc.DSPControl (2 ^ 13)) ∧
      (set_DSPControl_carryflag m64 1 env).active_tc.DSPControl.testBit 13 = true ∧
      (∀ q : Nat, q ≠ 13 →
        (set_DSPControl_carryflag m64 1 env).active_tc.DSPControl.testBit q =
          env.active_tc.DSPControl.testBit q) ∧
      get_DSPControl_carryflag env =
        (if env.active_tc.DSPControl.testBit 13 then 1 else 0)) ∧
    (∀ k ∈ ([mipsdsp_sat_abs8 m64, mipsdsp_sat_abs16 m64, mipsdsp_sat_abs32 m64] :
        List (Int → CPUMIPSState → Int × CPUMIPSState)),
      ∀ a, SetsOnlyFlag m64 20 (k a)) ∧
    (∀ k ∈ ([
      mipsdsp_add_i16 m64, mipsdsp_sat_add_i16 m64, mipsdsp_sat_add_i32 m64,
      mipsdsp_add_u8 m64, mipsdsp_add_u16 m64, mipsdsp_sat_add_u8 m64, mipsdsp_sat_add_u16 m64,
      mipsdsp_add_i32 m64, mipsdsp_sub_i16 m64, mipsdsp_sat16_sub m64,
      mipsdsp_sat32_sub m64, mipsdsp_sub_u16_u16 m64, mipsdsp_satu16_sub_u16_u16 m64,
      mipsdsp_sub_u8 m64, mipsdsp_satu8_sub m64, mipsdsp_sub32 m64] : List EnvKernel),
      ∀ a b, SetsOnlyFlag m64 20 (k a b)) ∧
    (∀ k ∈ ([mipsdsp_mul_i16_i16 m64, mipsdsp_sat16_mul_i16_i16 m64,
      mipsdsp_mul_q15_q15_overflowflag21 m64, mipsdsp_mul_u8_u16 m64,
      mipsdsp_rndq15_mul_q15_q15 m64, mipsdsp_sat16_mul_q15_q15 m64] : List EnvKernel),
      ∀ a b, SetsOnlyFlag m64 21 (k a b)) ∧
    (∀ k ∈ ([mipsdsp_lshift8 m64, mipsdsp_lshift16 m64, mipsdsp_lshift32 m64,
      mipsdsp_sat16_lshift m64, mipsdsp_sat32_lshift m64] : List EnvKernel),
      ∀ a s, SetsOnlyFlag m64 22 (k a s)) ∧
    (∀ k ∈ ([mipsdsp_trunc16_sat16_round m64, mipsdsp_sat8_reduce_precision m64] :
        List (Int → CPUMIPSState → Int × CPUMIPSState)),
      ∀ a, SetsOnlyFlag m64 22 (k a)) ∧
    (∀ (ac : Nat) (shift : Int),
      SetsOnlyFlag m64 23 (mipsdsp_rashift_short_acc m64 ac shift)) ∧
    (∀ ac : Nat,
      (∀ a, SetsOnlyFlag m64 (16 + ac) (mipsdsp_sat32_acc_q31 m64 ac a)) ∧
      (∀ a, SetsOnlyFlag m64 (16 + ac) (mipsdsp_sat64_acc_add_q63 m64 ac a)) ∧
      (∀ a, SetsOnlyFlag m64 (16 + ac) (mipsdsp_sat64_acc_sub_q63 m64 ac a)) ∧
      (∀ a b, SetsOnlyFlag m64 (16 + ac) (mipsdsp_mul_q15_q15 m64 ac a b)) ∧
      (∀ a b, SetsOnlyFlag m64 (16 + ac) (mipsdsp_mul_q31_q31 m64 ac a b))) ∧
    (∀ (env : CPUMIPSState) (ac : Nat),
      (mipsdsp_sat_abs8 m64 (-128) env).2 = set_DSPControl_overflow_flag m64 1 20 env ∧
      (mipsdsp_add_i16 m64 0x7FFF 1 env).2 = set_DSPControl_overflow_flag m64 1 20 env ∧
      (mipsdsp_sub_u8 m64 0 1 env).2 = set_DSPControl_overflow_flag m64 1 20 env ∧
      (mipsdsp_mul_i16_i16 m64 0x7FFF 0x7FFF env).2 =
        set_DSPControl_overflow_flag m64 1 21 env ∧
      (mipsdsp_mul_u8_u16 m64 0xFF 0xFFFF env).2 =
        set_DSPControl_overflow_flag m64 1 21 env ∧
      (mipsdsp_lshift8 m64 0x40 1 env).2 = set_DSPControl_overflow_flag m64 1 22 env ∧
      (mipsdsp_lshift16 m64 0x4000 1 env).2 = set_DSPControl_overflow_flag m64 1 22 env ∧
      (mipsdsp_lshift32 m64 0x40000000 2 env).2 =
        set_DSPControl_overflow_flag m64 1 22 env ∧
      (mipsdsp_rashift_short_acc m64 ac 0 (envAcc 0 0x80000000)).2 =
        set_DSPControl_overflow_flag m64 1 23 (envAcc 0 0x80000000) ∧
      (mipsdsp_mul_q15_q15 m64 ac 0x8000 0x8000 env).2 =
        set_DSPControl_overflow_flag m64 1 (16 + ac) env) := by
  refine ⟨fun env p hp => ⟨set_flag_eq m64 p (by omega) env, ?_,
      fun q hq => set_flag_testBit_ne m64 p q (by omega) hq env, set_flag_zero m64 p env⟩,
    fun env => ⟨set_carry_eq m64 env, ?_, fun q hq => ?_, get_carry_eq env⟩,
    kernels1_flag20 m64, kernels2_flag20 m64, kernels2_flag21 m64, kernels2_flag22 m64,
    kernels1_flag22 m64, rashift_short_acc_flag23 m64,
    fun ac => ⟨fun a => mipsdsp_sat32_acc_q31_env m64 ac a,
      fun a => mipsdsp_sat64_acc_add_q63_env m64 ac a,
      fun a => mipsdsp_sat64_acc_sub_q63_env m64 ac a,
      fun a b => mipsdsp_mul_q15_q15_env m64 ac a b,
      fun a b => mipsdsp_mul_q31_q31_env m64 ac a b⟩,
    fun env ac => flag_positions_used m64 env ac⟩
  · rw [set_flag_eq m64 p (by omega), setDSPControl_DSPControl, Int.testBit_lor,
      testBit_two_pow_int]
    simp
  · rw [set_carry_eq, setDSPControl_DSPControl, Int.testBit_lor, testBit_two_pow_int]
    simp
  · rw [set_carry_eq, setDSPControl_DSPControl, Int.testBit_lor, testBit_two_pow_int]
    have : ¬ (13 = q) := fun h => hq h.symm
    simp [this]

/-- C21 at position 20 on a `DSPControl` of `0x2000`: flag 1 gives `0x102000`, flag 0
leaves the context as it was. -/
theorem dspcontrol_flag_positions_witness :
    (set_DSPControl_overflow_flag false 1 20 (env0.setDSPControl 0x2000)).active_tc.DSPControl
        = 0x102000 ∧
    set_DSPControl_overflow_flag false 0 20 (env0.setDSPControl 0x2000) =
      env0.setDSPControl 0x2000 := by
  have h := (dspcontrol_flag_positions false).1 (env0.setDSPControl 0x2000) 20 (by decide)
  refine ⟨?_, h.2.2.2⟩
  rw [h.1]
  decide

/-! ## Packed lane-wise helpers -/

theorem lor_lor_self (d x : Int) : Int.lor (Int.lor d x) x = Int.lor d x := by
  apply int_eq_of_testBit_eq
  intro k
  simp only [Int.testBit_lor]
  cases d.testBit k <;> cases x.testBit k <;> rfl

theorem return32_8_eq (a b c d : Int) (ha : 0 ≤ a ∧ a ≤ 255) (hb : 0 ≤ b ∧ b ≤ 255)
    (hc : 0 ≤ c ∧ c ≤ 255) (hd : 0 ≤ d ∧ d ≤ 255) :
    MIPSDSP_RETURN32_8 a b c d = toS 32 (a * 2 ^ 24 + b * 2 ^ 16 + c * 2 ^ 8 + d) := by
  simp only [MIPSDSP_RETURN32_8, land_0xFF]
  have e3 : toU 32 (toU 32 a * 2 ^ 24) = a * 2 ^ 24 := by
    simp only [toU]; norm_num; omega
  have e2 : toU 32 (toU 32 b * 2 ^ 16) = b * 2 ^ 16 := by
    simp only [toU]; norm_num; omega
  have e1 : toU 32 (toU 32 c * 2 ^ 8) = c * 2 ^ 8 := by
    simp only [toU]; norm_num; omega
  have e0 : toU 32 d % 256 = d := by
    simp only [toU]; norm_num; omega
  rw [e3, e2, e1, e0]
  rw [lor_eq_add _ _ 8 (by omega) (by omega) (by norm_num; omega)]
  rw [lor_eq_add _ _ 16 (by omega) (by omega) (by norm_num; omega)]
  rw [lor_eq_add _ _ 24 (by omega) (by omega) (by norm_num; omega)]
  congr 1
  ring

theorem return32_16_eq (a b : Int) (ha : 0 ≤ a ∧ a ≤ 65535) (hb : 0 ≤ b ∧ b ≤ 65535) :
    MIPSDSP_RETURN32_16 a b = toS 32 (a * 2 ^ 16 + b) := by
  simp only [MIPSDSP_RETURN32_16, land_0xFFFF]
  have e1 : toU 32 (toU 32 a * 2 ^ 16) = a * 2 ^ 16 := by
    simp only [toU]; norm_num; omega
  have e0 : toU 32 b % 65536 = b := by
    simp only [toU]; norm_num; omega
  rw [e1, e0]
  rw [lor_eq_add _ _ 16 (by omega) (by omega) (by norm_num; omega)]

theorem return32_8_lanes (m64 : Bool) (a b c d : Int) (ha : 0 ≤ a ∧ a ≤ 255)
    (hb : 0 ≤ b ∧ b ≤ 255) (hc : 0 ≤ c ∧ c ≤ 255) (hd : 0 ≤ d ∧ d ≤ 255) :
    toU (TARGET_LONG_BITS m64) (MIPSDSP_RETURN32_8 a b c d) % 256 = d ∧
    toU (TARGET_LONG_BITS m64) (MIPSDSP_RETURN32_8 a b c d) / 2 ^ 8 % 256 = c ∧
    toU (TARGET_LONG_BITS m64) (MIPSDSP_RETURN32_8 a b c d) / 2 ^ 16 % 256 = b ∧
    toU (TARGET_LONG_BITS m64) (MIPSDSP_RETURN32_8 a b c d) / 2 ^ 24 % 256 = a := by
  rw [return32_8_eq a b c d ha hb hc hd, toS_32]
  cases m64 <;> simp only [TARGET_LONG_BITS, Bool.false_eq_true, if_false, if_true, toU_32,
    toU_64] <;> norm_num <;> omega

theorem return32_16_lanes (m64 : Bool) (a b : Int) (ha : 0 ≤ a ∧ a ≤ 65535)
    (hb : 0 ≤ b ∧ b ≤ 65535) :
    toU (TARGET_LONG_BITS m64) (MIPSDSP_RETURN32_16 a b) % 65536 = b ∧
    toU (TARGET_LONG_BITS m64) (MIPSDSP_RETURN32_16 a b) / 2 ^ 16 % 65536 = a := by
  rw [return32_16_eq a b ha hb, toS_32]
  cases m64 <;> simp only [TARGET_LONG_BITS, Bool.false_eq_true, if_false, if_true, toU_32,
    toU_64] <;> norm_num <;> omega

theorem sat_add_u8_val (m64 : Bool) (a b : Int) (env : CPUMIPSState)
    (h : (0 ≤ a ∧ a ≤ 255) ∧ (0 ≤ b ∧ b ≤ 255)) :
    toU 8 (mipsdsp_sat_add_u8 m64 a b env).1 = min (a + b) 255 := by
  rw [(mipsdsp_add_u8_correct m64 a b env h.1 h.2).2.1, toU_8]
  omega

theorem sat_add_u8_chain (m64 : Bool) (a0 b0 a1 b1 a2 b2 a3 b3 : Int) (env : CPUMIPSState)
    (h0 : (0 ≤ a0 ∧ a0 ≤ 255) ∧ (0 ≤ b0 ∧ b0 ≤ 255))
    (h1 : (0 ≤ a1 ∧ a1 ≤ 255) ∧ (0 ≤ b1 ∧ b1 ≤ 255))
    (h2 : (0 ≤ a2 ∧ a2 ≤ 255) ∧ (0 ≤ b2 ∧ b2 ≤ 255))
    (h3 : (0 ≤ a3 ∧ a3 ≤ 255) ∧ (0 ≤ b3 ∧ b3 ≤ 255)) :
    (mipsdsp_sat_add_u8 m64 a3 b3 (mipsdsp_sat_add_u8 m64 a2 b2
      (mipsdsp_sat_add_u8 m64 a1 b1
        (mipsdsp_sat_add_u8 m64 a0 b0 env).2).2).2).2.active_tc.DSPControl =
      (if 255 < a0 + b0 ∨ 255 < a1 + b1 ∨ 255 < a2 + b2 ∨ 255 < a3 + b3 then
        Int.lor env.active_tc.DSPControl (2 ^ 20)
       else env.active_tc.DSPControl) := by
  rw [(mipsdsp_add_u8_correct m64 a3 b3 _ h3.1 h3.2).2.2,
    (mipsdsp_add_u8_correct m64 a2 b2 _ h2.1 h2.2).2.2,
    (mipsdsp_add_u8_correct m64 a1 b1 _ h1.1 h1.2).2.2,
    (mipsdsp_add_u8_correct m64 a0 b0 _ h0.1 h0.2).2.2]
  by_cases c0 : 255 < a0 + b0 <;> by_cases c1 : 255 < a1 + b1 <;>
    by_cases c2 : 255 < a2 + b2 <;> by_cases c3 : 255 < a3 + b3 <;>
    simp only [c0, c1, c2, c3, if_true, if_false, or_true, true_or, or_self, lor_lor_self]

theorem helper_addu_s_qb_correct (m64 : Bool) (rs rt : Int) (env : CPUMIPSState) :
    (helper_addu_s_qb m64 rs rt env).1 % 256 = min (rs % 256 + rt % 256) 255 ∧
    (helper_addu_s_qb m64 rs rt env).1 / 2 ^ 8 % 256 =
      min (rs / 2 ^ 8 % 256 + rt / 2 ^ 8 % 256) 255 ∧
    (helper_addu_s_qb m64 rs rt env).1 / 2 ^ 16 % 256 =
      min (rs / 2 ^ 16 % 256 + rt / 2 ^ 16 % 256) 255 ∧
    (helper_addu_s_qb m64 rs rt env).1 / 2 ^ 24 % 256 =
      min (rs / 2 ^ 24 % 256 + rt / 2 ^ 24 % 256) 255 ∧
    (helper_addu_s_qb m64 rs rt env).2.active_tc.DSPControl =
      (if 255 < rs % 256 + rt % 256 ∨ 255 < rs / 2 ^ 8 % 256 + rt / 2 ^ 8 % 256 ∨
          255 < rs / 2 ^ 16 % 256 + rt / 2 ^ 16 % 256 ∨
          255 < rs / 2 ^ 24 % 256 + rt / 2 ^ 24 % 256 then
        Int.lor env.active_tc.DSPControl (2 ^ 20)
       else env.active_tc.DSPControl) := by
  have L : ∀ (x : Int) (k : Nat),
      toU 8 (toU 8 (Int.land (Int.shiftRight x k) MIPSDSP_Q0)) = x / 2 ^ k % 256 := by
    intro x k
    rw [MIPSDSP_Q0, land_0xFF, shiftRight_div, toU_8, toU_8]
    generalize x / 2 ^ k = y
    omega
  have L0 : ∀ x : Int, toU 8 (toU 8 (Int.land x MIPSDSP_Q0)) = x % 256 := by
    intro x
    rw [MIPSDSP_Q0, land_0xFF, toU_8, toU_8]
    omega
  have B : ∀ x y : Int, (0 ≤ x % 256 ∧ x % 256 ≤ 255) ∧ (0 ≤ y % 256 ∧ y % 256 ≤ 255) :=
    fun x y => by omega
  simp only [helper_addu_s_qb, ARITH_QB_ENV, MIPSDSP_SPLIT32_8, L, L0]
  rw [sat_add_u8_chain m64 _ _ _ _ _ _ _ _ env (B _ _) (B _ _) (B _ _) (B _ _)]
  simp only [sat_add_u8_val m64 _ _ _ (B _ _)]
  have R := return32_8_lanes m64
    (min (rs / 2 ^ 24 % 256 + rt / 2 ^ 24 % 256) 255)
    (min (rs / 2 ^ 16 % 256 + rt / 2 ^ 16 % 256) 255)
    (min (rs / 2 ^ 8 % 256 + rt / 2 ^ 8 % 256) 255)
    (min (rs % 256 + rt % 256) 255)
    (by omega) (by omega) (by omega) (by omega)
  exact ⟨R.1, R.2.1, R.2.2.1, R.2.2.2, trivial⟩

theorem mipsdsp_sat_add_i16_correct (m64 : Bool) (a b : Int) (env : CPUMIPSState)
    (ha : -32768 ≤ a ∧ a ≤ 32767) (hb : -32768 ≤ b ∧ b ≤ 32767) :
    (mipsdsp_sat_add_i16 m64 a b env).1 = max (-32768) (min (a + b) 32767) ∧
    (mipsdsp_sat_add_i16 m64 a b env).2.active_tc.DSPControl =
      (if a + b < -32768 ∨ 32767 < a + b then Int.lor env.active_tc.DSPControl (2 ^ 20)
       else env.active_tc.DSPControl) := by
  simp only [mipsdsp_sat_add_i16, toS_16]
  have hov := MIPSDSP_OVERFLOW_16 a b ((a + b + 32768) % 65536 - 32768)
  by_cases h : MIPSDSP_OVERFLOW a b ((a + b + 32768) % 65536 - 32768) 0x8000 = true
  · have h' := h
    rw [hov] at h'
    have hc : a + b < -32768 ∨ 32767 < a + b := by omega
    simp only [h, if_true, hc, set_flag_eq m64 20 (by norm_num), setDSPControl_DSPControl,
      and_true]
    by_cases hp : a > 0
    · simp only [hp, if_true]; omega
    · simp only [hp, if_false]; omega
  · have h' := h
    rw [hov] at h'
    have hc : ¬ (a + b < -32768 ∨ 32767 < a + b) := by omega
    simp only [h, Bool.false_eq_true, if_false, hc, and_true]
    omega

theorem helper_addq_s_ph_correct (m64 : Bool) (rs rt : Int) (env : CPUMIPSState) :
    (helper_addq_s_ph m64 rs rt env).1 % 65536 =
      toU 16 (max (-32768) (min (toS 16 (rs % 65536) + toS 16 (rt % 65536)) 32767)) ∧
    (helper_addq_s_ph m64 rs rt env).1 / 2 ^ 16 % 65536 =
      toU 16 (max (-32768)
        (min (toS 16 (rs / 2 ^ 16 % 65536) + toS 16 (rt / 2 ^ 16 % 65536)) 32767)) ∧
    (helper_addq_s_ph m64 rs rt env).2.active_tc.DSPControl =
      (if (toS 16 (rs % 65536) + toS 16 (rt % 65536) < -32768 ∨
            32767 < toS 16 (rs % 65536) + toS 16 (rt % 65536)) ∨
          (toS 16 (rs / 2 ^ 16 % 65536) + toS 16 (rt / 2 ^ 16 % 65536) < -32768 ∨
            32767 < toS 16 (rs / 2 ^ 16 % 65536) + toS 16 (rt / 2 ^ 16 % 65536)) then
        Int.lor env.active_tc.DSPControl (2 ^ 20)
       else env.active_tc.DSPControl) := by
  have L : ∀ (x : Int) (k : Nat),
      toS 16 (toU 16 (Int.land (Int.shiftRight x k) MIPSDSP_LO)) =
        toS 16 (x / 2 ^ k % 65536) := by
    intro x k
    rw [MIPSDSP_LO, land_0xFFFF, shiftRight_div, toU_16]
    generalize x / 2 ^ k = y
    simp only [toS_16]
    omega
  have L0 : ∀ x : Int, toS 16 (toU 16 (Int.land x MIPSDSP_LO)) = toS 16 (x % 65536) := by
    intro x
    rw [MIPSDSP_LO, land_0xFFFF, toU_16]
    simp only [toS_16]
    omega
  have B : ∀ x : Int, -32768 ≤ toS 16 x ∧ toS 16 x ≤ 32767 := fun x => by
    rw [toS_16]; omega
  simp only [helper_addq_s_ph, ARITH_PH_ENV, MIPSDSP_SPLIT32_16, L, L0]
  have ha0 := B (rs % 65536)
  have hb0 := B (rt % 65536)
  have ha1 := B (rs / 2 ^ 16 % 65536)
  have hb1 := B (rt / 2 ^ 16 % 65536)
  generalize toS 16 (rs % 65536) = a0 at ha0 ⊢
  generalize toS 16 (rt % 65536) = b0 at hb0 ⊢
  generalize toS 16 (rs / 2 ^ 16 % 65536) = a1 at ha1 ⊢
  generalize toS 16 (rt / 2 ^ 16 % 65536) = b1 at hb1 ⊢
  rw [(mipsdsp_sat_add_i16_correct m64 a0 b0 _ ha0 hb0).2,
    (mipsdsp_sat_add_i16_correct m64 a1 b1 _ ha1 hb1).2,
    (mipsdsp_sat_add_i16_correct m64 a0 b0 _ ha0 hb0).1,
    (mipsdsp_sat_add_i16_correct m64 a1 b1 _ ha1 hb1).1]
  have R := return32_16_lanes m64 (toU 16 (max (-32768) (min (a1 + b1) 32767)))
    (toU 16 (max (-32768) (min (a0 + b0) 32767)))
    (by rw [toU_16]; omega) (by rw [toU_16]; omega)
  refine ⟨R.1, R.2, ?_⟩
  by_cases c0 : a0 + b0 < -32768 ∨ 32767 < a0 + b0 <;>
    by_cases c1 : a1 + b1 < -32768 ∨ 32767 < a1 + b1 <;>
    simp only [c0, c1, if_true, if_false, or_true, true_or, or_self, lor_lor_self]

/-- C22: for every `rs`, `rt` and context, byte lane `i` (`i` = 0..3, lane 0 least
significant) of `helper_addu_s_qb(rs, rt)` is `min(rs_i + rt_i, 255)` and the final
`DSPControl` is the initial one with bit 20 OR-ed in exactly when some lane sum
exceeds 255; 16-bit lane `i` (`i` = 0, 1) of `helper_addq_s_ph(rs, rt)` is the sum of
the signed lanes clamped to `[-32768, 32767]`, as a 16-bit pattern, and bit 20 is
OR-ed in exactly when some lane sum leaves that range. -/
theorem helper_lanewise_composition (m64 : Bool) (rs rt : Int) (env : CPUMIPSState) :
    ((helper_addu_s_qb m64 rs rt env).1 % 256 = min (rs % 256 + rt % 256) 255 ∧
      (helper_addu_s_qb m64 rs rt env).1 / 2 ^ 8 % 256 =
        min (rs / 2 ^ 8 % 256 + rt / 2 ^ 8 % 256) 255 ∧
      (helper_addu_s_qb m64 rs rt env).1 / 2 ^ 16 % 256 =
        min (rs / 2 ^ 16 % 256 + rt / 2 ^ 16 % 256) 255 ∧
      (helper_addu_s_qb m64 rs rt env).1 / 2 ^ 24 % 256 =
        min (rs / 2 ^ 24 % 256 + rt / 2 ^ 24 % 256) 255 ∧
      (helper_addu_s_qb m64 rs rt env).2.active_tc.DSPControl =
        (if 255 < rs % 256 + rt % 256 ∨ 255 < rs / 2 ^ 8 % 256 + rt / 2 ^ 8 % 256 ∨
            255 < rs / 2 ^ 16 % 256 + rt / 2 ^ 16 % 256 ∨
            255 < rs / 2 ^ 24 % 256 + rt / 2 ^ 24 % 256 then
          Int.lor env.active_tc.DSPControl (2 ^ 20)
         else env.active_tc.DSPControl)) ∧
    ((helper_addq_s_ph m64 rs rt env).1 % 65536 =
        toU 16 (max (-32768) (min (toS 16 (rs % 65536) + toS 16 (rt % 65536)) 32767)) ∧
      (helper_addq_s_ph m64 rs rt env).1 / 2 ^ 16 % 65536 =
        toU 16 (max (-32768)
          (min (toS 16 (rs / 2 ^ 16 % 65536) + toS 16 (rt / 2 ^ 16 % 65536)) 32767)) ∧
      (helper_addq_s_ph m64 rs rt env).2.active_tc.DSPControl =
        (if (toS 16 (rs % 65536) + toS 16 (rt % 65536) < -32768 ∨
              32767 < toS 16 (rs % 65536) + toS 16 (rt % 65536)) ∨
            (toS 16 (rs / 2 ^ 16 % 65536) + toS 16 (rt / 2 ^ 16 % 65536) < -32768 ∨
              32767 < toS 16 (rs / 2 ^ 16 % 65536) + toS 16 (rt / 2 ^ 16 % 65536)) then
          Int.lor env.active_tc.DSPControl (2 ^ 20)
         else env.active_tc.DSPControl)) :=
  ⟨helper_addu_s_qb_correct m64 rs rt env, helper_addq_s_ph_correct m64 rs rt env⟩

/-! ## Absolute value of eight bytes -/

theorem range8 : List.range 8 = [0, 1, 2, 3, 4, 5, 6, 7] := by decide

theorem sat_abs8_val_env (m64 : Bool) (a : Int) (env env' : CPUMIPSState) :
    (mipsdsp_sat_abs8 m64 a env).1 = (mipsdsp_sat_abs8 m64 a env').1 := by
  simp only [mipsdsp_sat_abs8]
  split_ifs <;> rfl

theorem helper_absq_s_ob_lane7 (rt : Int) (env : CPUMIPSState) :
    (helper_absq_s_ob rt env).1 =
      toU 64 (toU 64 (toU 8 (toS 8 (mipsdsp_sat_abs8 true
        (toS 8 (Int.land (Int.shiftRight rt 56) MIPSDSP_Q0)) env).1)) * 2 ^ 56) := by
  simp only [helper_absq_s_ob, range8, List.foldl, helper_absq_s_ob_step1,
    helper_absq_s_ob_step2, List.nil_append, List.cons_append, List.getD_cons_succ,
    List.getD_cons_zero, Nat.mul_zero, Nat.reduceMul]
  rw [sat_abs8_val_env true _ _ env]

theorem helper_absq_s_ob_low_lanes (rt : Int) (env : CPUMIPSState) :
    (helper_absq_s_ob rt env).1 % 2 ^ 56 = 0 := by
  rw [helper_absq_s_ob_lane7, toU_64, toU_64, toU_8]
  omega

theorem sat_abs8_small (m64 : Bool) (a : Int) (env : CPUMIPSState)
    (ha : 0 ≤ a ∧ a ≤ 127) : mipsdsp_sat_abs8 m64 a env = (a, env) := by
  have h : a ≠ INT8_MIN := by simp only [INT8_MIN]; omega
  simp only [mipsdsp_sat_abs8, h, if_false, MIPSDSP_ABS, ge_iff_le, ha.1, if_true, toS_8]
  congr 1
  omega

theorem helper_absq_s_ob_one (env : CPUMIPSState) :
    helper_absq_s_ob 0x01 env = (0, env) := by
  have l0 : toS 8 (Int.land (Int.shiftRight 0x01 0) MIPSDSP_Q0) = 1 := by decide
  have l1 : toS 8 (Int.land (Int.shiftRight 0x01 8) MIPSDSP_Q0) = 0 := by decide
  have l2 : toS 8 (Int.land (Int.shiftRight 0x01 16) MIPSDSP_Q0) = 0 := by decide
  have l3 : toS 8 (Int.land (Int.shiftRight 0x01 24) MIPSDSP_Q0) = 0 := by decide
  have l4 : toS 8 (Int.land (Int.shiftRight 0x01 32) MIPSDSP_Q0) = 0 := by decide
  have l5 : toS 8 (Int.land (Int.shiftRight 0x01 40) MIPSDSP_Q0) = 0 := by decide
  have l6 : toS 8 (Int.land (Int.shiftRight 0x01 48) MIPSDSP_Q0) = 0 := by decide
  have l7 : toS 8 (Int.land (Int.shiftRight 0x01 56) MIPSDSP_Q0) = 0 := by decide
  have s1 : ∀ e, mipsdsp_sat_abs8 true 1 e = (1, e) :=
    fun e => sat_abs8_small true 1 e (by omega)
  have s0 : ∀ e, mipsdsp_sat_abs8 true 0 e = (0, e) :=
    fun e => sat_abs8_small true 0 e (by omega)
  simp only [helper_absq_s_ob, range8, List.foldl, helper_absq_s_ob_step1,
    helper_absq_s_ob_step2, List.nil_append, List.cons_append, List.getD_cons_succ,
    List.getD_cons_zero, Nat.mul_zero, Nat.reduceMul, l0, l1, l2, l3, l4, l5, l6, l7, s0, s1]
  norm_num [toS_8, toU_8, toU_64]

/-- C23 at `rt = 0x01`: `helper_absq_s_ob` returns 0, because its second loop assigns
each lane to `result` instead of OR-ing it in and so keeps lane 7 only, while the
saturated absolute value of byte lane 0 is 1 and the 32-bit sibling
`helper_absq_s_qb` returns 1.  For every `rt` the low seven lanes of the result are
zero. -/
theorem helper_absq_s_ob_drops_lanes (env : CPUMIPSState) :
    helper_absq_s_ob 0x01 env = (0, env) ∧
    (mipsdsp_sat_abs8 true (toS 8 (Int.land (Int.shiftRight 0x01 (8 * 0)) MIPSDSP_Q0))
      env).1 = 1 ∧
    (helper_absq_s_qb true 0x01 env).1 = 1 ∧
    (∀ rt : Int, (helper_absq_s_ob rt env).1 % 2 ^ 56 = 0) := by
  refine ⟨helper_absq_s_ob_one env, ?_, ?_, fun rt => helper_absq_s_ob_low_lanes rt env⟩
  · have l0 : toS 8 (Int.land (Int.shiftRight 0x01 (8 * 0)) MIPSDSP_Q0) = 1 := by decide
    rw [l0, sat_abs8_small true 1 env (by omega)]
  · have l0 : toS 8 (toU 8 (MIPSDSP_SPLIT32_8 0x01).2.2.2) = 1 := by decide
    have l1 : toS 8 (toU 8 (MIPSDSP_SPLIT32_8 0x01).2.2.1) = 0 := by decide
    have l2 : toS 8 (toU 8 (MIPSDSP_SPLIT32_8 0x01).2.1) = 0 := by decide
    have l3 : toS 8 (toU 8 (MIPSDSP_SPLIT32_8 0x01).1) = 0 := by decide
    simp only [helper_absq_s_qb, l0, l1, l2, l3, sat_abs8_small true 1 _ (by omega),
      sat_abs8_small true 0 _ (by omega)]
    decide

/-! ## Rounding truncation to 16 bits -/

theorem mipsdsp_trunc16_sat16_round_of_ne (m64 : Bool) (a : Int) (env : CPUMIPSState)
    (ha : -2147483648 ≤ a ∧ a ≤ 2147483647) (hne : a ≠ 0x7FFF8000) :
    (mipsdsp_trunc16_sat16_round m64 a env).1 =
      (if a + 0x8000 ≤ 0x7FFFFFFF then (a + 0x8000) / 2 ^ 16 % 2 ^ 16 else 0x7FFF) ∧
    (mipsdsp_trunc16_sat16_round m64 a env).2.active_tc.DSPControl =
      (if a + 0x8000 ≤ 0x7FFFFFFF then env.active_tc.DSPControl
       else Int.lor env.active_tc.DSPControl (2 ^ 22)) := by
  simp only [mipsdsp_trunc16_sat16_round, toS_32, toS_64, toU_16, land_0xFFFF, shiftRight_div,
    set_flag_eq m64 22 (by norm_num)]
  norm_num
  norm_num at hne
  split_ifs <;> simp only [setDSPControl_DSPControl, and_true, and_self] <;>
    first | trivial | omega

/-- C24 at `a = 0x7FFF8000`: `a + 0x8000` exceeds `0x7FFFFFFF`, yet the test
`a > 0x7fff8000` is false there, so `mipsdsp_trunc16_sat16_round` returns `0x8000`
(the top half of the wrapped sum) and leaves the context unchanged, where the claim
has `0x7FFF` with bit 22 set; from `0x7FFF8001` on it saturates. -/
theorem mipsdsp_trunc16_sat16_round_at_edge (m64 : Bool) (env : CPUMIPSState) :
    mipsdsp_trunc16_sat16_round m64 0x7FFF8000 env = (0x8000, env) ∧
    (0x7FFFFFFF : Int) < 0x7FFF8000 + 0x8000 ∧
    mipsdsp_trunc16_sat16_round m64 0x7FFF8001 env =
      (0x7FFF, set_DSPControl_overflow_flag m64 1 22 env) := by
  refine ⟨?_, by norm_num, ?_⟩
  · rw [mipsdsp_trunc16_sat16_round, if_neg (by norm_num [toS_32])]
    norm_num [toS_32, toS_64, toU_16, land_0xFFFF, shiftRight_div]
  · rw [mipsdsp_trunc16_sat16_round, if_pos (by norm_num [toS_32])]
    norm_num [toU_16, land_0xFFFF, shiftRight_div]

/-! ## Left shift of a byte with bit 7 set -/

/-- The discarded-bits word of `mipsdsp_lshift8` for a lane with bit 7 set. -/
theorem discard8_neg (a : Int) (s : Nat) (hs : 1 ≤ s ∧ s ≤ 7) :
    Int.lor (shlInt (toS 32 (shlInt 0x01 (8 - (s : Int)) - 1)) s)
        (Int.land (shr a (6 - ((s : Int) - 1))) (toS 32 (shlInt 0x01 s - 1))) =
      (2 ^ (8 - s) - 1) * 2 ^ s + a / 2 ^ (7 - s) % 2 ^ s := by
  have e1 : (8 - (s : Int)) = ((8 - s : Nat) : Int) := by omega
  have e2 : (6 - ((s : Int) - 1)) = ((7 - s : Nat) : Int) := by omega
  rw [e1, e2, mask_int _ (by omega), mask_int _ (by omega), shr_natCast, land_mask]
  have e3 : shlInt (2 ^ (8 - s) - 1) (s : Int) = (2 ^ (8 - s) - 1) * 2 ^ s := by
    rw [shlInt_natCast]
    obtain ⟨h1, h2⟩ := hs
    interval_cases s <;> decide
  rw [e3]
  have hp : (0 : Int) < 2 ^ s := by positivity
  have hq : (1 : Int) ≤ 2 ^ (8 - s) := one_le_pow₀ (by norm_num)
  exact lor_eq_add _ _ s (by linarith) (Int.emod_nonneg _ (ne_of_gt hp))
    (Int.emod_lt_of_pos _ hp)

theorem discard8_neg_ne_zero (a : Int) (s : Nat) (hs : 1 ≤ s ∧ s ≤ 7) :
    ¬ ((2 ^ (8 - s) - 1) * 2 ^ s + a / 2 ^ (7 - s) % 2 ^ s) % 256 = 0 := by
  obtain ⟨h1, h2⟩ := hs
  interval_cases s <;> simp only [Nat.reduceSub, Int.reducePow] <;> omega

/-- For a byte with bit 7 set, `mipsdsp_lshift8` sets bit 22 whatever the discarded
bits are. -/
theorem mipsdsp_lshift8_neg (m64 : Bool) (a : Int) (s : Nat) (env : CPUMIPSState)
    (ha : 128 ≤ a ∧ a ≤ 255) (hs : 1 ≤ s ∧ s ≤ 7) :
    mipsdsp_lshift8 m64 a s env =
      ((a * 2 ^ s) % 256, set_DSPControl_overflow_flag m64 1 22 env) := by
  have hs0 : ¬ ((s : Int) = 0) := by omega
  have e7 : shr a 7 = a / 128 := by
    rw [show (7 : Int) = ((7 : Nat) : Int) from rfl, shr_natCast]; norm_num
  have hneg : ¬ (a / 128 % 2 % 256 = 0) := by omega
  simp only [mipsdsp_lshift8, hs0, if_false, e7, land_0x01, toU_8]
  simp only [hneg, ne_eq, not_false_eq_true, if_true, discard8_neg a s hs,
    discard8_neg_ne_zero a s hs]
  simp only [shlInt_natCast, toS_32]
  congr 1
  generalize a * 2 ^ s = X
  omega

/-- C25 at `a = 0xFF`, `s = 1`: the sign-extended lane shifted right by `7 - s` is
all ones (`-1`), yet `mipsdsp_lshift8` sets bit 22, because it tests `discard != 0x00`
only; the 16-bit kernel at `0xFFFF`, `s = 1` leaves the context unchanged. -/
theorem mipsdsp_lshift8_all_ones_discard (m64 : Bool) (env : CPUMIPSState) :
    mipsdsp_lshift8 m64 0xFF 1 env =
      (0xFE, set_DSPControl_overflow_flag m64 1 22 env) ∧
    shr (toS 8 0xFF) (7 - 1) = -1 ∧
    mipsdsp_lshift16 m64 0xFFFF 1 env = (0xFFFE, env) := by
  refine ⟨?_, ?_, ?_⟩
  · have h := mipsdsp_lshift8_neg m64 0xFF 1 env (by norm_num) (by norm_num)
    rw [show ((1 : Nat) : Int) = 1 from rfl] at h
    rw [h]
    norm_num
  · rw [show (7 - 1 : Int) = ((6 : Nat) : Int) from rfl, shr_natCast, toS_8]
    norm_num
  · have hs : (1 : Nat) ≤ 1 ∧ 1 ≤ 15 := by norm_num
    have e15 : shr 0xFFFF 15 = 1 := by
      rw [show (15 : Int) = ((15 : Nat) : Int) from rfl, shr_natCast]; norm_num
    have hd := discard16_neg 0xFFFF 1 hs
    rw [show ((1 : Nat) : Int) = 1 from rfl] at hd
    simp only [mipsdsp_lshift16, e15, land_0x01, toU_8, hd]
    norm_num [toU_16, shlInt, toS_32]

/-! ## Left shift of a 16-bit lane -/

theorem mipsdsp_lshift16_nonneg (m64 : Bool) (a : Int) (s : Nat) (env : CPUMIPSState)
    (ha : 0 ≤ a ∧ a < 32768) (hs : 1 ≤ s ∧ s ≤ 15) :
    (mipsdsp_lshift16 m64 a s env).1 = (a * 2 ^ s) % 65536 ∧
    (mipsdsp_lshift16 m64 a s env).2.active_tc.DSPControl =
      (if toS 16 a * 2 ^ s < -32768 ∨ 32767 < toS 16 a * 2 ^ s then
        Int.lor env.active_tc.DSPControl (2 ^ 22)
       else env.active_tc.DSPControl) := by
  have hs0 : ¬ ((s : Int) = 0) := by omega
  have e2 : (14 - ((s : Int) - 1)) = ((15 - s : Nat) : Int) := by omega
  have e15 : shr a 15 = a / 32768 := by
    rw [show (15 : Int) = ((15 : Nat) : Int) from rfl, shr_natCast]; norm_num
  have hneg : a / 32768 % 2 % 256 = 0 := by omega
  have hsa : toS 16 a = a := by rw [toS_16]; omega
  have hX : 0 ≤ a * 2 ^ s := mul_nonneg ha.1 (by positivity)
  simp only [mipsdsp_lshift16, hs0, if_false, e15, land_0x01, toU_8]
  simp only [hneg, ne_eq, not_true_eq_false, if_false, if_true, e2, shr_natCast,
    shlInt_natCast, hsa, toU_16, toS_32, discard16_nonneg_iff a s ha hs,
    set_flag_eq m64 22 (by norm_num)]
  generalize a * 2 ^ s = X at *
  split_ifs <;> (try simp only [setDSPControl_DSPControl, and_true]) <;> omega

theorem mipsdsp_lshift16_neg (m64 : Bool) (a : Int) (s : Nat) (env : CPUMIPSState)
    (ha : 32768 ≤ a ∧ a ≤ 65535) (hs : 1 ≤ s ∧ s ≤ 15) :
    (mipsdsp_lshift16 m64 a s env).1 = (a * 2 ^ s) % 65536 ∧
    (mipsdsp_lshift16 m64 a s env).2.active_tc.DSPControl =
      (if toS 16 a * 2 ^ s < -32768 ∨ 32767 < toS 16 a * 2 ^ s then
        Int.lor env.active_tc.DSPControl (2 ^ 22)
       else env.active_tc.DSPControl) := by
  have hs0 : ¬ ((s : Int) = 0) := by omega
  have e15 : shr a 15 = a / 32768 := by
    rw [show (15 : Int) = ((15 : Nat) : Int) from rfl, shr_natCast]; norm_num
  have hneg : ¬ (a / 32768 % 2 % 256 = 0) := by omega
  have hsa : toS 16 a * 2 ^ s = a * 2 ^ s - 65536 * 2 ^ s := by
    have : toS 16 a = a - 65536 := by rw [toS_16]; omega
    rw [this]; ring
  have hP : (2 : Int) ≤ 2 ^ s := by
    have := pow_le_pow_right₀ (show (1 : Int) ≤ 2 by norm_num) hs.1
    simpa using this
  have hX : a * 2 ^ s - 65536 * 2 ^ s < 0 := by
    have : (a - 65536) * 2 ^ s < 0 := mul_neg_of_neg_of_pos (by omega) (by positivity)
    linarith [this]
  simp only [mipsdsp_lshift16, hs0, if_false, e15, land_0x01, toU_8]
  simp only [hneg, ne_eq, not_false_eq_true, if_true, if_false, discard16_neg a s hs]
  simp only [shlInt_natCast, hsa, toU_16, toS_32, discard16_neg_iff a s ha hs,
    set_flag_eq m64 22 (by norm_num)]
  generalize a * 2 ^ s = X at *
  generalize (2 : Int) ^ s = P at *
  split_ifs <;> (try simp only [setDSPControl_DSPControl, and_true]) <;> omega

/-- The flag condition in terms of the top `s + 1` bits of the lane. -/
theorem lshift16_top_bits_iff (a : Int) (s : Nat) (ha : 0 ≤ a ∧ a ≤ 65535)
    (hs : 1 ≤ s ∧ s ≤ 15) :
    (toS 16 a * 2 ^ s < -32768 ∨ 32767 < toS 16 a * 2 ^ s) ↔
      ¬ (a / 2 ^ (15 - s) = 0 ∨ a / 2 ^ (15 - s) = 2 ^ (s + 1) - 1) := by
  obtain ⟨h1, h2⟩ := hs
  rw [toS_16]
  interval_cases s <;> norm_num <;> omega

/-- In the branch for a set sign bit, `discard` is the sign-extended lane shifted
right arithmetically by `15 - s`, truncated to 16 bits. -/
theorem mipsdsp_lshift16_discard_neg (a : Int) (s : Nat) (ha : 32768 ≤ a ∧ a ≤ 65535)
    (hs : 1 ≤ s ∧ s ≤ 15) :
    mipsdsp_lshift16_discard a s = toU 16 (shr (toS 16 a) (15 - (s : Int))) := by
  have e15 : shr a 15 = a / 32768 := by
    rw [show (15 : Int) = ((15 : Nat) : Int) from rfl, shr_natCast]; norm_num
  have hneg : ¬ (a / 32768 % 2 % 256 = 0) := by omega
  have e3 : (15 - (s : Int)) = ((15 - s : Nat) : Int) := by omega
  simp only [mipsdsp_lshift16_discard, e15, land_0x01, toU_8]
  simp only [hneg, ne_eq, not_false_eq_true, if_true, discard16_neg a s hs, e3, shr_natCast,
    toU_16, toS_16]
  obtain ⟨h1, h2⟩ := hs
  interval_cases s <;> norm_num <;> omega

/-- The kernel in terms of its local `discard`. -/
theorem mipsdsp_lshift16_eq (m64 : Bool) (a s : Int) (env : CPUMIPSState) (hs : s ≠ 0) :
    mipsdsp_lshift16 m64 a s env =
      (toU 16 (shlInt a s),
        if mipsdsp_lshift16_discard a s ≠ 0x0000 ∧ mipsdsp_lshift16_discard a s ≠ 0xFFFF then
          set_DSPControl_overflow_flag m64 1 22 env
        else env) := by
  simp only [mipsdsp_lshift16, mipsdsp_lshift16_discard, hs, if_false]

/-- C26: for a 16-bit lane `a` and `s` in 1..15, `mipsdsp_lshift16` returns
`(a << s) mod 2^16` and ORs bit 22 into `DSPControl` exactly when `signed(a) * 2^s`
does not fit in a signed 16-bit integer, that is, when the top `s + 1` bits of `a`
are not all equal; the flag is decided by the local `discard`, which for a lane with
bit 15 set is the sign-extended `a` shifted right arithmetically by `15 - s`,
truncated to 16 bits. -/
theorem mipsdsp_lshift16_spec (m64 : Bool) (a : Int) (s : Nat) (env : CPUMIPSState)
    (ha : 0 ≤ a ∧ a ≤ 65535) (hs : 1 ≤ s ∧ s ≤ 15) :
    (mipsdsp_lshift16 m64 a s env).1 = (a * 2 ^ s) % 65536 ∧
    (mipsdsp_lshift16 m64 a s env).2.active_tc.DSPControl =
      (if toS 16 a * 2 ^ s < -32768 ∨ 32767 < toS 16 a * 2 ^ s then
        Int.lor env.active_tc.DSPControl (2 ^ 22)
       else env.active_tc.DSPControl) ∧
    ((toS 16 a * 2 ^ s < -32768 ∨ 32767 < toS 16 a * 2 ^ s) ↔
      ¬ (a / 2 ^ (15 - s) = 0 ∨ a / 2 ^ (15 - s) = 2 ^ (s + 1) - 1)) ∧
    mipsdsp_lshift16 m64 a s env =
      (toU 16 (shlInt a s),
        if mipsdsp_lshift16_discard a s ≠ 0x0000 ∧ mipsdsp_lshift16_discard a s ≠ 0xFFFF then
          set_DSPControl_overflow_flag m64 1 22 env
        else env) ∧
    (32768 ≤ a →
      mipsdsp_lshift16_discard a s = toU 16 (shr (toS 16 a) (15 - (s : Int)))) := by
  have h12 : (mipsdsp_lshift16 m64 a s env).1 = (a * 2 ^ s) % 65536 ∧
      (mipsdsp_lshift16 m64 a s env).2.active_tc.DSPControl =
        (if toS 16 a * 2 ^ s < -32768 ∨ 32767 < toS 16 a * 2 ^ s then
          Int.lor env.active_tc.DSPControl (2 ^ 22)
         else env.active_tc.DSPControl) := by
    by_cases h : a < 32768
    · exact mipsdsp_lshift16_nonneg m64 a s env ⟨ha.1, h⟩ hs
    · exact mipsdsp_lshift16_neg m64 a s env ⟨by omega, ha.2⟩ hs
  exact ⟨h12.1, h12.2, lshift16_top_bits_iff a s ha hs,
    mipsdsp_lshift16_eq m64 a s env (by omega),
    fun h => mipsdsp_lshift16_discard_neg a s ⟨h, ha.2⟩ hs⟩

/-- C26 at `a = 0xC000`, `s = 1`: the product `-32768` fits, the result is `0x8000`,
`DSPControl` is unchanged and `discard` is `0xFFFF`. -/
theorem mipsdsp_lshift16_spec_witness :
    (mipsdsp_lshift16 false 0xC000 1 env0).1 = 0x8000 ∧
    (mipsdsp_lshift16 false 0xC000 1 env0).2.active_tc.DSPControl = 0 ∧
    mipsdsp_lshift16_discard 0xC000 1 = 0xFFFF := by
  have h := mipsdsp_lshift16_spec false 0xC000 1 env0 (by norm_num) (by norm_num)
  rw [show ((1 : Nat) : Int) = 1 from rfl] at h
  refine ⟨h.1.trans (by norm_num), h.2.1.trans ?_, (h.2.2.2.2 (by norm_num)).trans ?_⟩
  · rw [if_neg (by norm_num [toS_16])]
    rfl
  · rw [show (15 - 1 : Int) = ((14 : Nat) : Int) from rfl, shr_natCast, toU_16, toS_16]
    norm_num

/-! ## Overflow detection of the two 32-bit left shifts -/

theorem discard32_plain_iff (y : Int) (s : Nat) (hy : -2147483648 ≤ y ∧ y ≤ 2147483647)
    (hs : 1 ≤ s ∧ s ≤ 31) :
    (¬ y / 2 ^ (32 - s) % 4294967296 = 0 ∧ ¬ y / 2 ^ (32 - s) % 4294967296 = 4294967295) ↔
      (y * 2 ^ (s - 1) < -2147483648 ∨ 2147483647 < y * 2 ^ (s - 1)) := by
  obtain ⟨h1, h2⟩ := hs
  interval_cases s <;> simp only [Nat.reduceSub, Int.reducePow] <;> omega

/-- `mipsdsp_lshift32` looks at the top `s` bits only: it sets bit 22 exactly when
`signed(a) * 2^(s-1)` does not fit in 32 bits. -/
theorem mipsdsp_lshift32_flag (m64 : Bool) (a : Int) (s : Nat) (env : CPUMIPSState)
    (hs : 1 ≤ s ∧ s ≤ 31) :
    (mipsdsp_lshift32 m64 a s env).2.active_tc.DSPControl =
      (if toS 32 a * 2 ^ (s - 1) < -2147483648 ∨ 2147483647 < toS 32 a * 2 ^ (s - 1) then
        Int.lor env.active_tc.DSPControl (2 ^ 22)
       else env.active_tc.DSPControl) := by
  have hs0 : ¬ ((s : Int) = 0) := by omega
  have e2 : (31 - ((s : Int) - 1)) = ((32 - s : Nat) : Int) := by omega
  have hy : -2147483648 ≤ toS 32 a ∧ toS 32 a ≤ 2147483647 := by rw [toS_32]; omega
  simp only [mipsdsp_lshift32, hs0, if_false, e2, shr_natCast, toU_32, ne_eq,
    discard32_plain_iff (toS 32 a) s hy hs, set_flag_eq m64 22 (by norm_num)]
  split_ifs <;> rfl

/-- C27 at `a = 0x40000000`, `s = 1`: `a << 1` is `0x80000000`, which does not fit
in a signed 32-bit integer; `mipsdsp_sat32_lshift` saturates and sets bit 22, while
`mipsdsp_lshift32`, whose `discard` is `(int32_t)a >> (31 - (s - 1))` and so holds
the top `s` bits only, leaves the context unchanged. -/
theorem mipsdsp_lshift32_misses_overflow (m64 : Bool) (env : CPUMIPSState) :
    mipsdsp_lshift32 m64 0x40000000 1 env = (0x80000000, env) ∧
    mipsdsp_sat32_lshift m64 0x40000000 1 env =
      (0x7FFFFFFF, set_DSPControl_overflow_flag m64 1 22 env) ∧
    (2147483647 : Int) < toS 32 0x40000000 * 2 ^ 1 := by
  refine ⟨?_, ?_, by norm_num [toS_32]⟩
  · have h : shr (toS 32 0x40000000) (31 - (1 - 1)) = 0 := by
      rw [show (31 - (1 - 1) : Int) = ((31 : Nat) : Int) from rfl, shr_natCast, toS_32]
      norm_num
    simp only [mipsdsp_lshift32, h]
    norm_num [toU_32, shlU32]
  · have h : shr 0x40000000 (30 - (1 - 1)) = 1 := by
      rw [show (30 - (1 - 1) : Int) = ((30 : Nat) : Int) from rfl, shr_natCast]
      norm_num
    have h31 : shr 0x40000000 31 = 0 := by
      rw [show (31 : Int) = ((31 : Nat) : Int) from rfl, shr_natCast]
      norm_num
    simp only [mipsdsp_sat32_lshift, h, h31, land_0x01, toU_8]
    norm_num [toU_32]

/-! ## Averaging subtraction of four bytes -/

theorem pack32_8_lanes (m64 : Bool) (a b c d : Int) (ha : 0 ≤ a ∧ a ≤ 255)
    (hb : 0 ≤ b ∧ b ≤ 255) (hc : 0 ≤ c ∧ c ≤ 255) (hd : 0 ≤ d ∧ d ≤ 255) :
    toU (TARGET_LONG_BITS m64)
      (Int.lor
        (Int.lor
          (Int.lor (toU 32 (toU 32 a * 2 ^ 24)) (toU 32 (toU 32 b * 2 ^ 16)))
          (toU 32 (toU 32 c * 2 ^ 8)))
        (toU 32 d)) = a * 2 ^ 24 + b * 2 ^ 16 + c * 2 ^ 8 + d := by
  have e3 : toU 32 (toU 32 a * 2 ^ 24) = a * 2 ^ 24 := by
    simp only [toU]; norm_num; omega
  have e2 : toU 32 (toU 32 b * 2 ^ 16) = b * 2 ^ 16 := by
    simp only [toU]; norm_num; omega
  have e1 : toU 32 (toU 32 c * 2 ^ 8) = c * 2 ^ 8 := by
    simp only [toU]; norm_num; omega
  have e0 : toU 32 d = d := by
    simp only [toU]; norm_num; omega
  rw [e3, e2, e1, e0]
  rw [lor_eq_add_of_dvd (a * 2 ^ 24) (b * 2 ^ 16) 24 (by omega) (by norm_num) (by omega)
    (by norm_num; omega)]
  rw [lor_eq_add_of_dvd (a * 2 ^ 24 + b * 2 ^ 16) (c * 2 ^ 8) 16 (by omega)
    (by norm_num; omega) (by omega) (by norm_num; omega)]
  rw [lor_eq_add_of_dvd (a * 2 ^ 24 + b * 2 ^ 16 + c * 2 ^ 8) d 8 (by omega)
    (by norm_num; omega) (by omega) (by norm_num; omega)]
  cases m64 <;> simp only [TARGET_LONG_BITS, Bool.false_eq_true, if_false, if_true, toU_32,
    toU_64] <;> omega

theorem subuh_lane (x y : Int) (hx : 0 ≤ x ∧ x ≤ 255) (hy : 0 ≤ y ∧ y ≤ 255) :
    toU 8 (Int.shiftRight (toS 32 (toU 16 x - toU 16 y + 0)) 1) =
      mipsdsp_rshift1_sub_u8 x y ∧
    toU 8 (Int.shiftRight (toS 32 (toU 16 x - toU 16 y + 1)) 1) =
      mipsdsp_rrshift1_sub_u8 x y := by
  simp only [mipsdsp_rshift1_sub_u8, mipsdsp_rrshift1_sub_u8, shiftRight_div, land_0xFF,
    toU_8, toU_16, toS_32]
  norm_num
  omega

theorem SUBUH_QB_lanes (m64 : Bool) (var : Int) (k : Int → Int → Int)
    (hk : ∀ x y : Int, 0 ≤ x ∧ x ≤ 255 → 0 ≤ y ∧ y ≤ 255 →
      toU 8 (Int.shiftRight (toS 32 (toU 16 x - toU 16 y + var)) 1) = k x y)
    (rs rt : Int) :
    SUBUH_QB m64 var rs rt % 256 = k (rs % 256) (rt % 256) ∧
    SUBUH_QB m64 var rs rt / 2 ^ 8 % 256 = k (rs / 2 ^ 8 % 256) (rt / 2 ^ 8 % 256) ∧
    SUBUH_QB m64 var rs rt / 2 ^ 16 % 256 = k (rs / 2 ^ 16 % 256) (rt / 2 ^ 16 % 256) ∧
    SUBUH_QB m64 var rs rt / 2 ^ 24 % 256 = k (rs / 2 ^ 24 % 256) (rt / 2 ^ 24 % 256) := by
  have L : ∀ (x : Int) (n : Nat),
      toU 8 (Int.land (Int.shiftRight x n) MIPSDSP_Q0) = x / 2 ^ n % 256 := by
    intro x n
    rw [MIPSDSP_Q0, land_0xFF, shiftRight_div, toU_8]
    generalize x / 2 ^ n = y
    omega
  have L0 : ∀ x : Int, toU 8 (Int.land x MIPSDSP_Q0) = x % 256 := by
    intro x
    rw [MIPSDSP_Q0, land_0xFF, toU_8]
    omega
  have B : ∀ x : Int, 0 ≤ x % 256 ∧ x % 256 ≤ 255 := fun x => by omega
  have T : ∀ x y : Int, 0 ≤ x ∧ x ≤ 255 → 0 ≤ y ∧ y ≤ 255 → 0 ≤ k x y ∧ k x y ≤ 255 := by
    intro x y hx hy
    rw [← hk x y hx hy, toU_8]
    omega
  simp only [SUBUH_QB, MIPSDSP_SPLIT32_8, L, L0]
  rw [hk _ _ (B _) (B _), hk _ _ (B _) (B _), hk _ _ (B _) (B _), hk _ _ (B _) (B _)]
  have t0 := T _ _ (B rs) (B rt)
  have t1 := T _ _ (B (rs / 2 ^ 8)) (B (rt / 2 ^ 8))
  have t2 := T _ _ (B (rs / 2 ^ 16)) (B (rt / 2 ^ 16))
  have t3 := T _ _ (B (rs / 2 ^ 24)) (B (rt / 2 ^ 24))
  rw [pack32_8_lanes m64 _ _ _ _ t3 t2 t1 t0]
  generalize k (rs % 256) (rt % 256) = v0 at t0 ⊢
  generalize k (rs / 2 ^ 8 % 256) (rt / 2 ^ 8 % 256) = v1 at t1 ⊢
  generalize k (rs / 2 ^ 16 % 256) (rt / 2 ^ 16 % 256) = v2 at t2 ⊢
  generalize k (rs / 2 ^ 24 % 256) (rt / 2 ^ 24 % 256) = v3 at t3 ⊢
  norm_num
  omega

/-- C28: every byte lane of `helper_subuh_qb(rs, rt)` is `mipsdsp_rshift1_sub_u8` of
the same-index operand lanes and every byte lane of `helper_subuh_r_qb(rs, rt)` is
`mipsdsp_rrshift1_sub_u8` of them: the inline expression
`((uint16_t)rs_i - (uint16_t)rt_i + var) >> 1`, truncated to 8 bits, agrees with the
kernel function for `var` = 0 and `var` = 1. -/
theorem helper_subuh_qb_uses_kernel (m64 : Bool) (rs rt : Int) :
    (helper_subuh_qb m64 rs rt % 256 = mipsdsp_rshift1_sub_u8 (rs % 256) (rt % 256) ∧
      helper_subuh_qb m64 rs rt / 2 ^ 8 % 256 =
        mipsdsp_rshift1_sub_u8 (rs / 2 ^ 8 % 256) (rt / 2 ^ 8 % 256) ∧
      helper_subuh_qb m64 rs rt / 2 ^ 16 % 256 =
        mipsdsp_rshift1_sub_u8 (rs / 2 ^ 16 % 256) (rt / 2 ^ 16 % 256) ∧
      helper_subuh_qb m64 rs rt / 2 ^ 24 % 256 =
        mipsdsp_rshift1_sub_u8 (rs / 2 ^ 24 % 256) (rt / 2 ^ 24 % 256)) ∧
    (helper_subuh_r_qb m64 rs rt % 256 = mipsdsp_rrshift1_sub_u8 (rs % 256) (rt % 256) ∧
      helper_subuh_r_qb m64 rs rt / 2 ^ 8 % 256 =
        mipsdsp_rrshift1_sub_u8 (rs / 2 ^ 8 % 256) (rt / 2 ^ 8 % 256) ∧
      helper_subuh_r_qb m64 rs rt / 2 ^ 16 % 256 =
        mipsdsp_rrshift1_sub_u8 (rs / 2 ^ 16 % 256) (rt / 2 ^ 16 % 256) ∧
      helper_subuh_r_qb m64 rs rt / 2 ^ 24 % 256 =
        mipsdsp_rrshift1_sub_u8 (rs / 2 ^ 24 % 256) (rt / 2 ^ 24 % 256)) ∧
    (∀ x y : Int, 0 ≤ x ∧ x ≤ 255 → 0 ≤ y ∧ y ≤ 255 →
      toU 8 (Int.shiftRight (toS 32 (toU 16 x - toU 16 y + 0)) 1) =
        mipsdsp_rshift1_sub_u8 x y ∧
      toU 8 (Int.shiftRight (toS 32 (toU 16 x - toU 16 y + 1)) 1) =
        mipsdsp_rrshift1_sub_u8 x y) :=
  ⟨SUBUH_QB_lanes m64 0 mipsdsp_rshift1_sub_u8 (fun x y hx hy => (subuh_lane x y hx hy).1)
      rs rt,
    SUBUH_QB_lanes m64 1 mipsdsp_rrshift1_sub_u8 (fun x y hx hy => (subuh_lane x y hx hy).2)
      rs rt,
    subuh_lane⟩

/-- C28 at the lanes `1` and `4`: the difference is negative, and the inline
expression and the kernels give `0xFE` without and `0xFF` with rounding. -/
theorem helper_subuh_qb_uses_kernel_witness :
    (toU 8 (Int.shiftRight (toS 32 (toU 16 1 - toU 16 4 + 0)) 1) =
        mipsdsp_rshift1_sub_u8 1 4 ∧
      toU 8 (Int.shiftRight (toS 32 (toU 16 1 - toU 16 4 + 1)) 1) =
        mipsdsp_rrshift1_sub_u8 1 4) ∧
    mipsdsp_rshift1_sub_u8 1 4 = 0xFE ∧ mipsdsp_rrshift1_sub_u8 1 4 = 0xFF :=
  ⟨(helper_subuh_qb_uses_kernel false 0 0).2.2 1 4 (by decide) (by decide),
    by decide, by decide⟩

/-! ## Precision reduction with a right shift by zero -/

theorem shr_zero (x : Int) : shr x 0 = x := by
  rw [show (0 : Int) = ((0 : Nat) : Int) from rfl, shr_natCast]
  norm_num

theorem helper_precr_sra_ph_w_zero (m64 : Bool) (rs rt : Int) :
    helper_precr_sra_ph_w m64 0 rs rt =
      toU (TARGET_LONG_BITS m64) (toS 32 ((rt % 65536) * 2 ^ 16 + rs % 65536)) := by
  have hb : toU 16 (Int.land (shr (toS 32 rt) 0) MIPSDSP_LO) = rt % 65536 := by
    rw [shr_zero, MIPSDSP_LO, land_0xFFFF, toU_16, toS_32]; omega
  have ha : toU 16 (Int.land (shr (toS 32 rs) 0) MIPSDSP_LO) = rs % 65536 := by
    rw [shr_zero, MIPSDSP_LO, land_0xFFFF, toU_16, toS_32]; omega
  simp only [helper_precr_sra_ph_w, ha, hb]
  rw [return32_16_eq _ _ (by omega) (by omega)]

theorem helper_precr_sra_r_ph_w_zero (m64 : Bool) (rs rt : Int) :
    helper_precr_sra_r_ph_w m64 0 rs rt =
      toU (TARGET_LONG_BITS m64) (toS 32 ((rt % 65536) * 2 ^ 16 + rs % 65536)) := by
  have hl : ∀ x : Int,
      Int.land (Int.shiftRight
        (toU 64 (toU (TARGET_LONG_BITS m64) (Int.land x MIPSDSP_LO * 2 ^ 1))) 1) MIPSDSP_LO =
        x % 65536 := by
    intro x
    rw [MIPSDSP_LO, land_0xFFFF, land_0xFFFF, shiftRight_div, toU_64]
    cases m64 <;> simp only [TARGET_LONG_BITS, Bool.false_eq_true, if_false, if_true, toU_32,
      toU_64] <;> omega
  simp only [helper_precr_sra_r_ph_w, if_true, hl]
  have e1 : toU 64 (rt % 65536 * 2 ^ 16) = rt % 65536 * 2 ^ 16 := by
    rw [toU_64]; omega
  rw [e1, lor_eq_add _ _ 16 (by omega) (by omega) (by norm_num; omega)]
  congr 2
  cases m64 <;> simp only [TARGET_LONG_BITS, Bool.false_eq_true, if_false, if_true, toU_32,
    toU_64] <;> omega

/-- C29: at `sa = 0` the two 32-bit helpers agree and return
`((rt & 0xFFFF) << 16) | (rs & 0xFFFF)`, sign-extended from 32 bits; the 64-bit
rounding helper does not agree with the plain one: at `rs = 1`, `rt = 0`, `sa = 0`
`helper_precr_sra_qh_pw` returns 1 and `helper_precr_sra_r_qh_pw` returns 2, its
branch for `sa == 0` storing `lane << 1` without the final shift by one. -/
theorem helper_precr_sra_r_shift_zero (m64 : Bool) :
    (∀ rs rt : Int,
      helper_precr_sra_r_ph_w m64 0 rs rt = helper_precr_sra_ph_w m64 0 rs rt ∧
      helper_precr_sra_ph_w m64 0 rs rt =
        toU (TARGET_LONG_BITS m64) (toS 32 ((rt % 65536) * 2 ^ 16 + rs % 65536))) ∧
    helper_precr_sra_qh_pw 1 0 0 = 1 ∧
    helper_precr_sra_r_qh_pw 1 0 0 = 2 := by
  refine ⟨fun rs rt => ⟨?_, helper_precr_sra_ph_w_zero m64 rs rt⟩, by decide, by decide⟩
  rw [helper_precr_sra_r_ph_w_zero, helper_precr_sra_ph_w_zero]

/-! ## Arithmetic right shift of an accumulator -/

theorem rashift_acc_lor (B A : Int) (k : Nat) (hk : 1 ≤ k ∧ k ≤ 31)
    (hA : 0 ≤ A ∧ A < 18446744073709551616) :
    Int.lor ((B * 2 ^ (64 - k)) % 18446744073709551616) (A / 2 ^ k) =
      (B * 2 ^ (64 - k)) % 18446744073709551616 + A / 2 ^ k := by
  obtain ⟨h1, h2⟩ := hk
  apply lor_eq_add_of_dvd _ _ (64 - k)
  · omega
  · interval_cases k <;> simp only [Nat.reduceSub, Int.reducePow] <;> omega
  · exact Int.ediv_nonneg hA.1 (by positivity)
  · interval_cases k <;> simp only [Nat.reduceSub, Int.reducePow] <;> omega

theorem rashift_acc_lo_bound (B A : Int) (k : Nat) (hk : 1 ≤ k ∧ k ≤ 31)
    (hA : 0 ≤ A ∧ A < 18446744073709551616) :
    0 ≤ (B * 2 ^ (64 - k)) % 18446744073709551616 + A / 2 ^ k ∧
    (B * 2 ^ (64 - k)) % 18446744073709551616 + A / 2 ^ k < 2 ^ 64 := by
  obtain ⟨h1, h2⟩ := hk
  interval_cases k <;> simp only [Nat.reduceSub, Int.reducePow] <;> omega

theorem rashift_acc_arith (B A : Int) (k : Nat) (hk : 1 ≤ k ∧ k ≤ 31)
    (hA : 0 ≤ A ∧ A < 18446744073709551616) :
    (((B + 9223372036854775808) % 18446744073709551616 - 9223372036854775808) / 2 ^ k %
        18446744073709551616) * 2 ^ 64 +
      ((B * 2 ^ (64 - k)) % 18446744073709551616 + A / 2 ^ k) =
    ((((B + 9223372036854775808) % 18446744073709551616 - 9223372036854775808) * 2 ^ 64 + A) /
      2 ^ k) % 2 ^ 128 := by
  obtain ⟨h1, h2⟩ := hk
  interval_cases k <;> simp only [Nat.reduceSub, Int.reducePow] <;> omega

theorem mipsdsp_rashift_acc_correct (ac : Nat) (shift : Int) (env : CPUMIPSState)
    (hhi : 0 ≤ env.active_tc.HI ac ∧ env.active_tc.HI ac < 2 ^ 64)
    (hlo : 0 ≤ env.active_tc.LO ac ∧ env.active_tc.LO ac < 2 ^ 64) :
    (0 ≤ (mipsdsp_rashift_acc ac shift env).1 ∧
      (mipsdsp_rashift_acc ac shift env).1 < 2 ^ 64) ∧
    (0 ≤ (mipsdsp_rashift_acc ac shift env).2 ∧
      (mipsdsp_rashift_acc ac shift env).2 < 2 ^ 64) ∧
    (mipsdsp_rashift_acc ac shift env).2 * 2 ^ 64 + (mipsdsp_rashift_acc ac shift env).1 =
      ((toS 64 (env.active_tc.HI ac) * 2 ^ 64 + env.active_tc.LO ac) /
        2 ^ (shift % 32).toNat) % 2 ^ 128 ∧
    (shift % 32 = 0 →
      mipsdsp_rashift_acc ac shift env = (env.active_tc.LO ac, env.active_tc.HI ac)) := by
  have hm : toU 32 (Int.land shift 0x1F) = shift % 32 := by rw [land_0x1F, toU_32]; omega
  obtain ⟨k, hk⟩ : ∃ k : Nat, shift % 32 = (k : Int) := ⟨(shift % 32).toNat, by omega⟩
  have hk31 : k ≤ 31 := by omega
  norm_num at hhi hlo
  have hB : toU 64 (env.active_tc.HI ac) = env.active_tc.HI ac := by rw [toU_64]; omega
  have hA : toU 64 (env.active_tc.LO ac) = env.active_tc.LO ac := by rw [toU_64]; omega
  simp only [mipsdsp_rashift_acc, hm, hk, hB, hA, Int.toNat_ofNat]
  generalize env.active_tc.HI ac = B at hhi ⊢
  generalize env.active_tc.LO ac = A at hlo ⊢
  rcases Nat.eq_zero_or_pos k with h0 | hpos
  · subst h0
    simp only [Nat.cast_zero, if_true, pow_zero, Int.ediv_one, toS_64, implies_true, and_true]
    norm_num
    omega
  · have hne : ¬ ((k : Int) = 0) := by omega
    have e64 : (64 - (k : Int)) = ((64 - k : Nat) : Int) := by omega
    simp only [hne, if_false, e64, shlU64_natCast, shr_natCast, toU_64, toS_64, false_implies,
      and_true]
    rw [rashift_acc_lor B A k ⟨hpos, hk31⟩ hlo, rashift_acc_arith B A k ⟨hpos, hk31⟩ hlo]
    refine ⟨rashift_acc_lo_bound B A k ⟨hpos, hk31⟩ hlo, ?_, rfl⟩
    generalize ((B + 9223372036854775808) % 18446744073709551616 - 9223372036854775808) /
      2 ^ k = q
    omega

/-- C30: in 64-bit mode (`HI[ac]` and `LO[ac]` are 64-bit words), with
`k = shift & 0x1F`, `mipsdsp_rashift_acc` writes two 64-bit words `p[1]:p[0]` that
form `floor(A / 2^k)` as a 128-bit two's-complement value, `A` being the signed
128-bit value of `HI[ac]:LO[ac]`; for `k = 0` it copies `LO[ac]` and `HI[ac]`. -/
theorem mipsdsp_rashift_acc_spec (ac : Nat) (shift : Int) (env : CPUMIPSState)
    (hhi : 0 ≤ env.active_tc.HI ac ∧ env.active_tc.HI ac < 2 ^ 64)
    (hlo : 0 ≤ env.active_tc.LO ac ∧ env.active_tc.LO ac < 2 ^ 64) :
    (0 ≤ (mipsdsp_rashift_acc ac shift env).1 ∧
      (mipsdsp_rashift_acc ac shift env).1 < 2 ^ 64) ∧
    (0 ≤ (mipsdsp_rashift_acc ac shift env).2 ∧
      (mipsdsp_rashift_acc ac shift env).2 < 2 ^ 64) ∧
    (mipsdsp_rashift_acc ac shift env).2 * 2 ^ 64 + (mipsdsp_rashift_acc ac shift env).1 =
      ((toS 64 (env.active_tc.HI ac) * 2 ^ 64 + env.active_tc.LO ac) /
        2 ^ (shift % 32).toNat) % 2 ^ 128 ∧
    (shift % 32 = 0 →
      mipsdsp_rashift_acc ac shift env = (env.active_tc.LO ac, env.active_tc.HI ac)) :=
  mipsdsp_rashift_acc_correct ac shift env hhi hlo

/-- C30 at `HI = 0x8000000000000001`, `LO = 0xF0000000000000FF`, `shift = 4`: the
sign is carried into the high word and the low four bits of `HI` enter the low
word. -/
theorem mipsdsp_rashift_acc_spec_witness :
    (mipsdsp_rashift_acc 0 4 (envAcc 0x8000000000000001 0xF0000000000000FF)).2 * 2 ^ 64 +
      (mipsdsp_rashift_acc 0 4 (envAcc 0x8000000000000001 0xF0000000000000FF)).1 =
    0xF8000000000000001F0000000000000F := by
  have h := (mipsdsp_rashift_acc_spec 0 4 (envAcc 0x8000000000000001 0xF0000000000000FF)
    (by norm_num [envAcc]) (by norm_num [envAcc])).2.2.1
  rw [h, show ((4 : Int) % 32).toNat = 4 from rfl]
  norm_num [envAcc, toS_64]

/-! ## Averaging addition of bytes -/

/-- C39: for unsigned 8-bit `a` and `b`, `mipsdsp_rshift1_add_u8` is
`floor((a + b) / 2)` and `mipsdsp_rrshift1_add_u8` is `floor((a + b + 1) / 2)`; they
lie between `min(a, b)` and `max(a, b)` in this order, the rounded one exceeds the
other by 1 when `a + b` is odd and by 0 when it is even, and both are symmetric. -/
theorem mipsdsp_rshift1_add_u8_spec (a b : Int) (ha : 0 ≤ a ∧ a ≤ 255)
    (hb : 0 ≤ b ∧ b ≤ 255) :
    mipsdsp_rshift1_add_u8 a b = (a + b) / 2 ∧
    mipsdsp_rrshift1_add_u8 a b = (a + b + 1) / 2 ∧
    min a b ≤ mipsdsp_rshift1_add_u8 a b ∧
    mipsdsp_rshift1_add_u8 a b ≤ mipsdsp_rrshift1_add_u8 a b ∧
    mipsdsp_rrshift1_add_u8 a b ≤ max a b ∧
    ((a + b) % 2 = 1 → mipsdsp_rrshift1_add_u8 a b = mipsdsp_rshift1_add_u8 a b + 1) ∧
    ((a + b) % 2 = 0 → mipsdsp_rrshift1_add_u8 a b = mipsdsp_rshift1_add_u8 a b) ∧
    mipsdsp_rshift1_add_u8 a b = mipsdsp_rshift1_add_u8 b a ∧
    mipsdsp_rrshift1_add_u8 a b = mipsdsp_rrshift1_add_u8 b a := by
  simp only [mipsdsp_rshift1_add_u8, mipsdsp_rrshift1_add_u8, shiftRight_div, land_0xFF,
    toU_8, toU_16]
  norm_num
  omega

/-- C39 at `a = 255`, `b = 254`: the sum is odd, the averages are 254 and 255. -/
theorem mipsdsp_rshift1_add_u8_spec_witness :
    mipsdsp_rshift1_add_u8 255 254 = 254 ∧ mipsdsp_rrshift1_add_u8 255 254 = 255 := by
  have h := mipsdsp_rshift1_add_u8_spec 255 254 (by norm_num) (by norm_num)
  exact ⟨h.1.trans (by norm_num), h.2.1.trans (by norm_num)⟩

/-! ## Precision reduction to an unsigned byte -/

theorem mipsdsp_sat8_reduce_precision_correct (m64 : Bool) (a : Int) (env : CPUMIPSState)
    (ha : 0 ≤ a ∧ a ≤ 65535) :
    (mipsdsp_sat8_reduce_precision m64 a env).1 = max 0 (min (toS 16 a / 128) 255) ∧
    (mipsdsp_sat8_reduce_precision m64 a env).2.active_tc.DSPControl =
      (if toS 16 a < 0 ∨ 0x7F80 < toS 16 a then Int.lor env.active_tc.DSPControl (2 ^ 22)
       else env.active_tc.DSPControl) := by
  have hm : Int.land a 0x7FFF = a % 32768 := by
    have := land_mask a 15
    norm_num at this
    exact this
  simp only [mipsdsp_sat8_reduce_precision, hm, shiftRight_div, land_0x01, land_0xFFFF, toU_8,
    toU_16, toU_32, toS_16, set_flag_eq m64 22 (by norm_num)]
  norm_num
  split_ifs <;> (try simp only [setDSPControl_DSPControl, and_true]) <;> omega

/-- C38: for every 16-bit pattern `a`, `mipsdsp_sat8_reduce_precision` returns
`floor(signed(a) / 128)` clamped to `[0, 255]` and ORs bit 22 into `DSPControl`
exactly when `signed(a) < 0` or `signed(a) > 0x7F80`; the result is non-decreasing in
`signed(a)`. -/
theorem mipsdsp_sat8_reduce_precision_spec (m64 : Bool) (env : CPUMIPSState) :
    (∀ a : Int, 0 ≤ a ∧ a ≤ 65535 →
      (mipsdsp_sat8_reduce_precision m64 a env).1 = max 0 (min (toS 16 a / 128) 255) ∧
      (mipsdsp_sat8_reduce_precision m64 a env).2.active_tc.DSPControl =
        (if toS 16 a < 0 ∨ 0x7F80 < toS 16 a then Int.lor env.active_tc.DSPControl (2 ^ 22)
         else env.active_tc.DSPControl)) ∧
    (∀ (a b : Int) (env' : CPUMIPSState), 0 ≤ a ∧ a ≤ 65535 → 0 ≤ b ∧ b ≤ 65535 →
      toS 16 a ≤ toS 16 b →
      (mipsdsp_sat8_reduce_precision m64 a env).1 ≤
        (mipsdsp_sat8_reduce_precision m64 b env').1) := by
  refine ⟨fun a ha => mipsdsp_sat8_reduce_precision_correct m64 a env ha,
    fun a b env' ha hb hab => ?_⟩
  rw [(mipsdsp_sat8_reduce_precision_correct m64 a env ha).1,
    (mipsdsp_sat8_reduce_precision_correct m64 b env' hb).1]
  omega

/-- C38 at `0x7F80`, the largest pattern that is not clipped (255, flag untouched),
and at `0x7F81` and `0xFFFF`, which set bit 22. -/
theorem mipsdsp_sat8_reduce_precision_spec_witness :
    ((mipsdsp_sat8_reduce_precision false 0x7F80 env0).1 = 255 ∧
      (mipsdsp_sat8_reduce_precision false 0x7F80 env0).2.active_tc.DSPControl = 0) ∧
    ((mipsdsp_sat8_reduce_precision false 0x7F81 env0).1 = 255 ∧
      (mipsdsp_sat8_reduce_precision false 0x7F81 env0).2.active_tc.DSPControl = 0x400000) ∧
    ((mipsdsp_sat8_reduce_precision false 0xFFFF env0).1 = 0 ∧
      (mipsdsp_sat8_reduce_precision false 0xFFFF env0).2.active_tc.DSPControl = 0x400000) := by
  have h1 := (mipsdsp_sat8_reduce_precision_spec false env0).1 0x7F80 (by norm_num)
  have h2 := (mipsdsp_sat8_reduce_precision_spec false env0).1 0x7F81 (by norm_num)
  have h3 := (mipsdsp_sat8_reduce_precision_spec false env0).1 0xFFFF (by norm_num)
  refine ⟨⟨h1.1.trans (by norm_num [toS_16]), h1.2.trans ?_⟩,
    ⟨h2.1.trans (by norm_num [toS_16]), h2.2.trans ?_⟩,
    ⟨h3.1.trans (by norm_num [toS_16]), h3.2.trans ?_⟩⟩
  · rw [if_neg (by norm_num [toS_16])]; rfl
  · rw [if_pos (by norm_num [toS_16])]; decide
  · rw [if_pos (by norm_num [toS_16])]; decide

/-! ## Commutativity of saturating addition -/

theorem mipsdsp_sat_add_i32_correct (m64 : Bool) (a b : Int) (env : CPUMIPSState)
    (ha : -2147483648 ≤ a ∧ a ≤ 2147483647) (hb : -2147483648 ≤ b ∧ b ≤ 2147483647) :
    (mipsdsp_sat_add_i32 m64 a b env).1 = max (-2147483648) (min (a + b) 2147483647) ∧
    (mipsdsp_sat_add_i32 m64 a b env).2 =
      (if a + b < -2147483648 ∨ 2147483647 < a + b then
        set_DSPControl_overflow_flag m64 1 20 env
       else env) := by
  simp only [mipsdsp_sat_add_i32, toS_32]
  have hov := MIPSDSP_OVERFLOW_32 a b ((a + b + 2147483648) % 4294967296 - 2147483648)
  by_cases h : MIPSDSP_OVERFLOW a b ((a + b + 2147483648) % 4294967296 - 2147483648)
      0x80000000 = true
  · have h' := h
    rw [hov] at h'
    have hc : a + b < -2147483648 ∨ 2147483647 < a + b := by omega
    simp only [h, if_true, hc, and_true]
    by_cases hp : a > 0
    · simp only [hp, if_true]; omega
    · simp only [hp, if_false]; omega
  · have h' := h
    rw [hov] at h'
    have hc : ¬ (a + b < -2147483648 ∨ 2147483647 < a + b) := by omega
    simp only [h, Bool.false_eq_true, if_false, hc, and_true]
    omega

theorem mipsdsp_sat_add_i16_env (m64 : Bool) (a b : Int) (env : CPUMIPSState)
    (ha : -32768 ≤ a ∧ a ≤ 32767) (hb : -32768 ≤ b ∧ b ≤ 32767) :
    (mipsdsp_sat_add_i16 m64 a b env).1 = max (-32768) (min (a + b) 32767) ∧
    (mipsdsp_sat_add_i16 m64 a b env).2 =
      (if a + b < -32768 ∨ 32767 < a + b then set_DSPControl_overflow_flag m64 1 20 env
       else env) := by
  simp only [mipsdsp_sat_add_i16, toS_16]
  have hov := MIPSDSP_OVERFLOW_16 a b ((a + b + 32768) % 65536 - 32768)
  by_cases h : MIPSDSP_OVERFLOW a b ((a + b + 32768) % 65536 - 32768) 0x8000 = true
  · have h' := h
    rw [hov] at h'
    have hc : a + b < -32768 ∨ 32767 < a + b := by omega
    simp only [h, if_true, hc, and_true]
    by_cases hp : a > 0
    · simp only [hp, if_true]; omega
    · simp only [hp, if_false]; omega
  · have h' := h
    rw [hov] at h'
    have hc : ¬ (a + b < -32768 ∨ 32767 < a + b) := by omega
    simp only [h, Bool.false_eq_true, if_false, hc, and_true]
    omega

/-- C37: for signed 16-bit (resp. 32-bit) `a` and `b` and every context,
`mipsdsp_sat_add_i16` (resp. `mipsdsp_sat_add_i32`) returns the same value and the
same context for `(a, b)` and `(b, a)`: when the sum overflows both operands have the
same sign, so taking the clamp direction from the first one makes no difference. -/
theorem mipsdsp_sat_add_comm (m64 : Bool) (env : CPUMIPSState) :
    (∀ a b : Int, -32768 ≤ a ∧ a ≤ 32767 → -32768 ≤ b ∧ b ≤ 32767 →
      mipsdsp_sat_add_i16 m64 a b env = mipsdsp_sat_add_i16 m64 b a env ∧
      ((a + b < -32768 ∨ 32767 < a + b) → (0 < a ↔ 0 < b))) ∧
    (∀ a b : Int, -2147483648 ≤ a ∧ a ≤ 2147483647 → -2147483648 ≤ b ∧ b ≤ 2147483647 →
      mipsdsp_sat_add_i32 m64 a b env = mipsdsp_sat_add_i32 m64 b a env ∧
      ((a + b < -2147483648 ∨ 2147483647 < a + b) → (0 < a ↔ 0 < b))) := by
  refine ⟨fun a b ha hb => ⟨?_, by omega⟩, fun a b ha hb => ⟨?_, by omega⟩⟩
  · apply Prod.ext
    · rw [(mipsdsp_sat_add_i16_env m64 a b env ha hb).1,
        (mipsdsp_sat_add_i16_env m64 b a env hb ha).1, add_comm]
    · rw [(mipsdsp_sat_add_i16_env m64 a b env ha hb).2,
        (mipsdsp_sat_add_i16_env m64 b a env hb ha).2, add_comm]
  · apply Prod.ext
    · rw [(mipsdsp_sat_add_i32_correct m64 a b env ha hb).1,
        (mipsdsp_sat_add_i32_correct m64 b a env hb ha).1, add_comm]
    · rw [(mipsdsp_sat_add_i32_correct m64 a b env ha hb).2,
        (mipsdsp_sat_add_i32_correct m64 b a env hb ha).2, add_comm]

/-- C37 at `(0x7FFF, 1)` and `(1, 0x7FFF)`: both orders saturate to `0x7FFF`. -/
theorem mipsdsp_sat_add_comm_witness :
    mipsdsp_sat_add_i16 false 0x7FFF 1 env0 = mipsdsp_sat_add_i16 false 1 0x7FFF env0 ∧
    mipsdsp_sat_add_i32 false 0x7FFFFFFF 1 env0 =
      mipsdsp_sat_add_i32 false 1 0x7FFFFFFF env0 :=
  ⟨((mipsdsp_sat_add_comm false env0).1 0x7FFF 1 (by decide) (by decide)).1,
    ((mipsdsp_sat_add_comm false env0).2 0x7FFFFFFF 1 (by decide) (by decide)).1⟩

/-! ## Add with carry -/

theorem land_two_pow_val (x : Int) (k : Nat) :
    Int.land x (2 ^ k) = if x / 2 ^ k % 2 = 1 then 2 ^ k else 0 := by
  have ht := testBit_eq_div_mod x k
  have hc : ((2 : Int) ^ k) = ((2 ^ k : Nat) : Int) := by push_cast; rfl
  have key : Int.land x (2 ^ k) = if x.testBit k then 2 ^ k else 0 := by
    rw [hc]
    cases x with
    | ofNat n =>
      show Int.land (n : Int) ((2 ^ k : Nat) : Int) =
        if Nat.testBit n k then ((2 ^ k : Nat) : Int) else 0
      rw [land_natCast, and_two_pow_eq]
      cases hn : n.testBit k <;> simp
    | negSucc n =>
      show (((Nat.ldiff (2 ^ k) n : Nat) : Int)) =
        if (!(Nat.testBit n k)) then ((2 ^ k : Nat) : Int) else 0
      rw [ldiff_two_pow]
      cases hn : n.testBit k <;> simp
  rw [key, ht]
  by_cases hb : x / 2 ^ k % 2 = 1 <;> simp [hb]

theorem helper_addsc_correct (m64 : Bool) (rs rt : Int) (env : CPUMIPSState) :
    (helper_addsc m64 rs rt env).1 =
      toU (TARGET_LONG_BITS m64) (toS 32 ((rs % 2 ^ 32 + rt % 2 ^ 32) % 2 ^ 32)) ∧
    (helper_addsc m64 rs rt env).2 =
      env.setDSPControl (Int.lor env.active_tc.DSPControl
        ((rs % 2 ^ 32 + rt % 2 ^ 32) / 2 ^ 32 * 2 ^ 13)) ∧
    ((rs % 2 ^ 32 + rt % 2 ^ 32) / 2 ^ 32 = 0 ∨ (rs % 2 ^ 32 + rt % 2 ^ 32) / 2 ^ 32 = 1) := by
  have hl : ∀ x : Int, Int.land (toU 64 x) MIPSDSP_LLO = x % 4294967296 := by
    intro x
    rw [MIPSDSP_LLO, land_0xFFFFFFFF, toU_64]
    omega
  have hp : (0x0100000000 : Int) = 2 ^ 32 := by norm_num
  simp only [helper_addsc, hl, hp, land_two_pow_val, set_DSPControl_carryflag, MIPSDSP_LLO,
    land_0xFFFFFFFF, shiftRight_div, toU_64, toU_32, toS_32]
  norm_num
  have hr := Int.emod_nonneg rs (show (4294967296 : Int) ≠ 0 by norm_num)
  have hr' := Int.emod_lt_of_pos rs (show (0 : Int) < 4294967296 by norm_num)
  have ht := Int.emod_nonneg rt (show (4294967296 : Int) ≠ 0 by norm_num)
  have ht' := Int.emod_lt_of_pos rt (show (0 : Int) < 4294967296 by norm_num)
  generalize rs % 4294967296 = A at *
  generalize rt % 4294967296 = B at *
  refine ⟨?_, by omega⟩
  congr 2
  have hc : (A + B) / 4294967296 = 0 ∨ (A + B) / 4294967296 = 1 := by omega
  rcases hc with hc | hc
  · have h1 : ¬ ((A + B) % 18446744073709551616 / 4294967296 % 2 = 1) := by omega
    rw [if_neg h1, hc]
    cases m64 <;> simp only [TARGET_LONG_BITS, Bool.false_eq_true, if_false, if_true, toU_32,
      toU_64] <;> norm_num
  · have h1 : (A + B) % 18446744073709551616 / 4294967296 % 2 = 1 := by omega
    rw [if_pos h1, hc]
    cases m64 <;> simp only [TARGET_LONG_BITS, Bool.false_eq_true, if_false, if_true, toU_32,
      toU_64] <;> norm_num

/-- C35: `helper_addsc(rs, rt)` returns the low 32 bits of
`(rs mod 2^32) + (rt mod 2^32)`, sign-extended, and replaces `DSPControl` by itself
OR-ed with the carry out of bit 31 placed at bit 13: every other bit is unchanged,
and bit 13 afterwards is the OR of the old bit 13 and the carry. -/
theorem helper_addsc_spec (m64 : Bool) (rs rt : Int) (env : CPUMIPSState) :
    (helper_addsc m64 rs rt env).1 =
      toU (TARGET_LONG_BITS m64) (toS 32 ((rs % 2 ^ 32 + rt % 2 ^ 32) % 2 ^ 32)) ∧
    (helper_addsc m64 rs rt env).2 =
      env.setDSPControl (Int.lor env.active_tc.DSPControl
        ((rs % 2 ^ 32 + rt % 2 ^ 32) / 2 ^ 32 * 2 ^ 13)) ∧
    ((rs % 2 ^ 32 + rt % 2 ^ 32) / 2 ^ 32 = 0 ∨ (rs % 2 ^ 32 + rt % 2 ^ 32) / 2 ^ 32 = 1) ∧
    (∀ q : Nat, q ≠ 13 →
      (helper_addsc m64 rs rt env).2.active_tc.DSPControl.testBit q =
        env.active_tc.DSPControl.testBit q) ∧
    (helper_addsc m64 rs rt env).2.active_tc.DSPControl.testBit 13 =
      (env.active_tc.DSPControl.testBit 13 ||
        decide ((rs % 2 ^ 32 + rt % 2 ^ 32) / 2 ^ 32 = 1)) := by
  obtain ⟨h1, h2, h3⟩ := helper_addsc_correct m64 rs rt env
  refine ⟨h1, h2, h3, ?_, ?_⟩
  · intro q hq
    rw [h2, setDSPControl_DSPControl]
    rcases h3 with h3 | h3
    · rw [h3, zero_mul, lor_zero_int]
    · rw [h3, one_mul, Int.testBit_lor, testBit_two_pow_int]
      have : ¬ (13 = q) := fun h => hq h.symm
      simp [this]
  · rw [h2, setDSPControl_DSPControl]
    rcases h3 with h3 | h3
    · rw [h3, zero_mul, lor_zero_int]
      simp
    · rw [h3, one_mul, Int.testBit_lor, testBit_two_pow_int]
      simp

/-- C35 at `0xFFFFFFFF + 1` (carry out, result 0, bit 13 set) and at `1 + 1` on a
`DSPControl` whose bit 13 is already set (no carry, bit 13 stays set). -/
theorem helper_addsc_spec_witness :
    (helper_addsc false 0xFFFFFFFF 1 env0).2.active_tc.DSPControl.testBit 13 = true ∧
    (helper_addsc false 1 1 (env0.setDSPControl 0x2000)).2.active_tc.DSPControl.testBit 13 =
      true ∧
    (helper_addsc false 1 1 (env0.setDSPControl 0x2000)).2.active_tc.DSPControl.testBit 20 =
      false := by
  have h1 := (helper_addsc_spec false 0xFFFFFFFF 1 env0).2.2.2.2
  have h2 := (helper_addsc_spec false 1 1 (env0.setDSPControl 0x2000)).2.2.2.2
  have h3 := (helper_addsc_spec false 1 1 (env0.setDSPControl 0x2000)).2.2.2.1 20 (by decide)
  refine ⟨h1.trans (by decide), h2.trans (by decide), h3.trans (by decide)⟩


theorem helper_addwc_correct (m64 : Bool) (rs rt : Int) (env : CPUMIPSState) :
    (helper_addwc m64 rs rt env).1 =
      toU (TARGET_LONG_BITS m64)
        (toS 32 (toS 32 rs + toS 32 rt + get_DSPControl_carryflag env)) ∧
    (helper_addwc m64 rs rt env).2 =
      (if toS 32 rs + toS 32 rt + get_DSPControl_carryflag env < -2147483648 ∨
          2147483647 < toS 32 rs + toS 32 rt + get_DSPControl_carryflag env then
        set_DSPControl_overflow_flag m64 1 20 env
       else env) := by
  have hc : get_DSPControl_carryflag env = 0 ∨ get_DSPControl_carryflag env = 1 := by
    rw [get_carry_eq]
    cases env.active_tc.DSPControl.testBit 13 <;> simp
  have ha : -2147483648 ≤ toS 32 rs ∧ toS 32 rs ≤ 2147483647 := by rw [toS_32]; omega
  have hb : -2147483648 ≤ toS 32 rt ∧ toS 32 rt ≤ 2147483647 := by rw [toS_32]; omega
  simp only [helper_addwc, MIPSDSP_LLO, land_0xFFFFFFFF, land_0x01, shiftRight_div]
  generalize get_DSPControl_carryflag env = c at hc ⊢
  generalize toS 32 rs = A at ha ⊢
  generalize toS 32 rt = B at hb ⊢
  simp only [toS_64, toS_32, toU_64, toU_32, ne_eq]
  norm_num
  constructor
  · congr 1
    omega
  · split_ifs <;> first | rfl | omega

/-- C36: with `c` the carry bit (bit 13 of `DSPControl`), `helper_addwc(rs, rt)`
returns the low 32 bits of `signed32(rs) + signed32(rt) + c`, sign-extended, sets
bit 20 exactly when that sum does not fit in a signed 32-bit integer (the context is
unchanged otherwise), and the carry bit read afterwards is the one read before. -/
theorem helper_addwc_spec (m64 : Bool) (rs rt : Int) (env : CPUMIPSState) :
    (helper_addwc m64 rs rt env).1 =
      toU (TARGET_LONG_BITS m64)
        (toS 32 (toS 32 rs + toS 32 rt + get_DSPControl_carryflag env)) ∧
    (helper_addwc m64 rs rt env).2 =
      (if toS 32 rs + toS 32 rt + get_DSPControl_carryflag env < -2147483648 ∨
          2147483647 < toS 32 rs + toS 32 rt + get_DSPControl_carryflag env then
        set_DSPControl_overflow_flag m64 1 20 env
       else env) ∧
    get_DSPControl_carryflag env =
      (if env.active_tc.DSPControl.testBit 13 then 1 else 0) ∧
    get_DSPControl_carryflag (helper_addwc m64 rs rt env).2 =
      get_DSPControl_carryflag env := by
  obtain ⟨h1, h2⟩ := helper_addwc_correct m64 rs rt env
  refine ⟨h1, h2, get_carry_eq env, ?_⟩
  rw [h2]
  split_ifs
  · rw [get_carry_eq, get_carry_eq,
      set_flag_testBit_ne m64 20 13 (by norm_num) (by norm_num) env]
  · rfl

/-! ## Accumulators are not written -/

theorem setsOnlyFlag_keepsAccumulators {α : Type} (m64 : Bool) (p : Nat)
    (f : CPUMIPSState → α × CPUMIPSState) (h : SetsOnlyFlag m64 p f) :
    KeepsAccumulators f := by
  intro env
  rcases h env with h | h <;> rw [h] <;> exact ⟨fun _ => rfl, fun _ => rfl, rfl⟩

/-- C34: `mipsdsp_sat32_acc_q31`, `mipsdsp_sat64_acc_add_q63`,
`mipsdsp_sat64_acc_sub_q63` and `mipsdsp_rashift_short_acc` return a context whose
`HI[i]` and `LO[i]` are those of the given context for every `i`, so that it differs
from it in `DSPControl` at most.  `mipsdsp_rashift_acc` and `mipsdsp_rndrashift_acc`
assign to `p[]` only: they are functions from the context to the words written, the
context itself stays as it is, and they do not depend on `DSPControl`. -/
theorem accumulators_not_written (m64 : Bool) (ac : Nat) :
    (∀ a, KeepsAccumulators (mipsdsp_sat32_acc_q31 m64 ac a)) ∧
    (∀ a, KeepsAccumulators (mipsdsp_sat64_acc_add_q63 m64 ac a)) ∧
    (∀ a, KeepsAccumulators (mipsdsp_sat64_acc_sub_q63 m64 ac a)) ∧
    (∀ shift, KeepsAccumulators (mipsdsp_rashift_short_acc m64 ac shift)) ∧
    (∀ (shift v : Int) (env : CPUMIPSState),
      mipsdsp_rashift_acc ac shift (env.setDSPControl v) = mipsdsp_rashift_acc ac shift env) ∧
    (∀ (shift v : Int) (env : CPUMIPSState),
      mipsdsp_rndrashift_acc ac shift (env.setDSPControl v) =
        mipsdsp_rndrashift_acc ac shift env) :=
  ⟨fun a => setsOnlyFlag_keepsAccumulators m64 (16 + ac) _
      (mipsdsp_sat32_acc_q31_env m64 ac a),
    fun a => setsOnlyFlag_keepsAccumulators m64 (16 + ac) _
      (mipsdsp_sat64_acc_add_q63_env m64 ac a),
    fun a => setsOnlyFlag_keepsAccumulators m64 (16 + ac) _
      (mipsdsp_sat64_acc_sub_q63_env m64 ac a),
    fun shift => setsOnlyFlag_keepsAccumulators m64 23 _
      (rashift_short_acc_flag23 m64 ac shift),
    fun _ _ _ => rfl, fun _ _ _ => rfl⟩

/-! ## Rounding Q15 multiplication -/

theorem nat_land_shifted_mask (x n k : Nat) :
    x &&& ((2 ^ n - 1) <<< k) = ((x >>> k) % 2 ^ n) <<< k := by
  apply Nat.eq_of_testBit_eq
  intro j
  simp only [Nat.testBit_and, Nat.testBit_shiftLeft, Nat.testBit_two_pow_sub_one,
    Nat.testBit_mod_two_pow, Nat.testBit_shiftRight]
  by_cases h : k ≤ j
  · have e : k + (j - k) = j := by omega
    simp only [ge_iff_le, h, decide_True, Bool.true_and, e]
    cases x.testBit j <;> cases decide (j - k < n) <;> rfl
  · simp [h]

theorem land_0xFFFF0000 (x : Int) (hx : 0 ≤ x) :
    Int.land x 0xFFFF0000 = x / 65536 % 65536 * 65536 := by
  obtain ⟨n, rfl⟩ := Int.eq_ofNat_of_zero_le hx
  have hm : (0xFFFF0000 : Int) = (((2 ^ 16 - 1) <<< 16 : Nat) : Int) := by decide
  rw [hm, land_natCast, nat_land_shifted_mask, Nat.shiftLeft_eq, Nat.shiftRight_eq_div_pow]
  push_cast
  norm_num

theorem mipsdsp_rndq15_mul_q15_q15_of_nonneg (m64 : Bool) (a b : Int) (env : CPUMIPSState)
    (ha : 0 ≤ a ∧ a < 0x8000) (hb : 0 ≤ b ∧ b < 0x8000) :
    mipsdsp_rndq15_mul_q15_q15 m64 a b env =
      (toS 16 (toU 32 (2 * (toS 16 a * toS 16 b) + 0x8000) / 2 ^ 16 % 2 ^ 16), env) := by
  have hsa : toS 16 a = a := by rw [toS_16]; omega
  have hsb : toS 16 b = b := by rw [toS_16]; omega
  have hab : 0 ≤ a * b := mul_nonneg ha.1 hb.1
  have hab' : a * b ≤ 32767 * 32767 := by
    have h1 : a * b ≤ 32767 * b := mul_le_mul_of_nonneg_right (by omega) hb.1
    have h2 : (32767 : Int) * b ≤ 32767 * 32767 := mul_le_mul_of_nonneg_left (by omega) (by norm_num)
    linarith
  have hne : ¬ (a = 0x8000 ∧ b = 0x8000) := by omega
  simp only [mipsdsp_rndq15_mul_q15_q15, hne, if_false, hsa, hsb]
  rw [show (1 : Int) = ((1 : Nat) : Int) from rfl, shlInt_natCast,
    land_0xFFFF0000 _ (by rw [toU_32]; omega)]
  simp only [shiftRight_div, toU_32, toS_32, toS_16]
  generalize a * b = X at hab hab' ⊢
  norm_num
  omega

/-- C32 at `a = 0xFFFF`, `b = 0x0001`: `mipsdsp_rndq15_mul_q15_q15` multiplies the
unsigned 16-bit patterns (`65535 * 1`) and returns 2, whereas bits 31..16 of
`2 * signed(a) * signed(b) + 0x8000 = 0x7FFE` are 0; the context is unchanged.  At
`(0x8000, 0x8000)` it returns `0x7FFF` and sets bit 21. -/
theorem mipsdsp_rndq15_mul_q15_q15_unsigned_product (m64 : Bool) (env : CPUMIPSState) :
    mipsdsp_rndq15_mul_q15_q15 m64 0xFFFF 0x0001 env = (2, env) ∧
    toS 16 (toU 32 (2 * (toS 16 0xFFFF * toS 16 0x0001) + 0x8000) / 2 ^ 16 % 2 ^ 16) = 0 ∧
    mipsdsp_rndq15_mul_q15_q15 m64 0x8000 0x8000 env =
      (0x7FFF, set_DSPControl_overflow_flag m64 1 21 env) := by
  refine ⟨?_, by norm_num [toS_16, toU_32], ?_⟩
  · have hne : ¬ ((0xFFFF : Int) = 0x8000 ∧ (0x0001 : Int) = 0x8000) := by norm_num
    simp only [mipsdsp_rndq15_mul_q15_q15, hne, if_false]
    rw [show (1 : Int) = ((1 : Nat) : Int) from rfl, shlInt_natCast,
      land_0xFFFF0000 _ (by rw [toU_32]; omega)]
    norm_num [shiftRight_div, toU_32, toS_32, toS_16]
  · simp only [mipsdsp_rndq15_mul_q15_q15, and_self, if_true]
    rw [land_0xFFFF0000 _ (by norm_num)]
    norm_num [shiftRight_div, toS_16]

/-! ## Rounding right shift of an accumulator -/

theorem zero_lor_int (x : Int) : Int.lor 0 x = x := by
  apply int_eq_of_testBit_eq
  intro k
  rw [Int.testBit_lor]
  have : (0 : Int).testBit k = false := by
    show Nat.testBit 0 k = false
    simp
  rw [this, Bool.false_or]

theorem lor_neg_one_int (x : Int) : Int.lor x (-1) = -1 := by
  apply int_eq_of_testBit_eq
  intro k
  rw [Int.testBit_lor, testBit_neg_one, Bool.or_true]

theorem land_0x3F (x : Int) : Int.land x 0x3F = x % 64 := by
  have := land_mask x 6
  norm_num at this
  exact this

/-- C31 at `HI = 0`, `LO = 0x8000000000000000`: the accumulator is `A = 2^63`.  For
`shift = 2`, `floor(A / 2) = 2^62`, but `mipsdsp_rndrashift_acc` returns
`p[0] = 0xC000000000000000`; for `shift = 0`, `2 * A = 2^64` has `p[1] = 1`, but the
kernel returns `p[1] = 0xFFFFFFFFFFFFFFFF`.  `tempA` is an `int64_t`, so `tempA >> n`
is an arithmetic shift and fills with the top bit of `LO`. -/
theorem mipsdsp_rndrashift_acc_sign_fill :
    mipsdsp_rndrashift_acc 0 2 (envAcc 0 0x8000000000000000) =
      (0xC000000000000000, 0, 0) ∧
    ((toS 64 0 * 2 ^ 64 + 0x8000000000000000) / 2 ^ (2 - 1) : Int) = 0x4000000000000000 ∧
    mipsdsp_rndrashift_acc 0 0 (envAcc 0 0x8000000000000000) =
      (0, 0xFFFFFFFFFFFFFFFF, 0) ∧
    (2 * (toS 64 0 * 2 ^ 64 + 0x8000000000000000) : Int) = 1 * 2 ^ 64 + 0 := by
  have hA : toS 64 0x8000000000000000 = -0x8000000000000000 := by
    rw [toS_64]; norm_num
  have hB : toS 64 0 = 0 := by rw [toS_64]; norm_num
  refine ⟨?_, by rw [hB]; norm_num, ?_, by rw [hB]; norm_num⟩
  · have hk : toU 32 (Int.land 2 0x3F) = 2 := by rw [land_0x3F, toU_32]; norm_num
    simp only [mipsdsp_rndrashift_acc, envAcc, hk, hA, hB]
    rw [if_neg (by norm_num), if_pos (by norm_num)]
    have e1 : shlInt64 0 (65 - 2) = 0 := by
      rw [show (65 - 2 : Int) = ((63 : Nat) : Int) from rfl]
      simp only [shlInt64, Int.toNat_ofNat, zero_mul, toS_64]
      norm_num
    have e2 : shr (-0x8000000000000000) (2 - 1) = -0x4000000000000000 := by
      rw [show (2 - 1 : Int) = ((1 : Nat) : Int) from rfl, shr_natCast]; norm_num
    have e3 : shr 0 (2 - 1) = 0 := by
      rw [show (2 - 1 : Int) = ((1 : Nat) : Int) from rfl, shr_natCast]; norm_num
    rw [e1, e2, e3, zero_lor_int]
    norm_num [toU_64]
  · have hk : toU 32 (Int.land 0 0x3F) = 0 := by rw [land_0x3F, toU_32]; norm_num
    simp only [mipsdsp_rndrashift_acc, envAcc, hk, hA, hB, if_true]
    have e1 : shlInt64 (-0x8000000000000000) 1 = 0 := by
      rw [show (1 : Int) = ((1 : Nat) : Int) from rfl]
      simp only [shlInt64, Int.toNat_ofNat, toS_64]
      norm_num
    have e2 : shr (-0x8000000000000000) 63 = -1 := by
      rw [show (63 : Int) = ((63 : Nat) : Int) from rfl, shr_natCast]; norm_num
    have e3 : shr 0 63 = 0 := by
      rw [show (63 : Int) = ((63 : Nat) : Int) from rfl, shr_natCast]; norm_num
    have e4 : shlInt64 0 1 = 0 := by
      rw [show (1 : Int) = ((1 : Nat) : Int) from rfl]
      simp only [shlInt64, Int.toNat_ofNat, zero_mul, toS_64]
      norm_num
    rw [e1, e2, e3, e4, lor_neg_one_int]
    norm_num [toU_64]

/-! ## `DSPControl` fields -/

theorem nat_testBit_of_lt (x b j : Nat) (h : x < 2 ^ b) (hj : b ≤ j) : x.testBit j = false :=
  Nat.testBit_lt_two_pow (lt_of_lt_of_le h (Nat.pow_le_pow_right (by norm_num) hj))

theorem nat_field_mask_lt (l : Nat) (hl : l ≤ 8) : (2 ^ l - 1) <<< 24 < 2 ^ 32 := by
  rw [Nat.shiftLeft_eq]
  have h1 : 2 ^ l ≤ 2 ^ 8 := Nat.pow_le_pow_right (by norm_num) hl
  have h2 : 0 < 2 ^ l := Nat.two_pow_pos l
  norm_num at h1 ⊢
  omega

theorem nat_field_filter_testBit (l q : Nat) (hl : l ≤ 8) :
    (2 ^ 32 - ((2 ^ l - 1) <<< 24 + 1)).testBit q =
      (decide (q < 32) && !(decide (24 ≤ q) && decide (q - 24 < l))) := by
  rw [Nat.testBit_two_pow_sub_succ (nat_field_mask_lt l hl), Nat.testBit_shiftLeft,
    Nat.testBit_two_pow_sub_one]

theorem nat_field_get_set (n f l : Nat) (hf : f < 2 ^ l) (hl : l ≤ 8) :
    (((n &&& (2 ^ 32 - ((2 ^ l - 1) <<< 24 + 1))) ||| (f <<< 24)) >>> 24) &&& (2 ^ l - 1) =
      f := by
  apply Nat.eq_of_testBit_eq
  intro j
  simp only [Nat.testBit_and, Nat.testBit_or, Nat.testBit_shiftRight, Nat.testBit_shiftLeft,
    Nat.testBit_two_pow_sub_one, nat_field_filter_testBit _ _ hl]
  have e : 24 + j - 24 = j := by omega
  have h24 : 24 ≤ 24 + j := by omega
  rw [e]
  by_cases hj : j < l
  · simp [hj, h24]
  · have := nat_testBit_of_lt f l j hf (by omega)
    simp [hj, this]

theorem nat_field_set_other (n f l q : Nat) (hn : n < 2 ^ 32) (hf : f < 2 ^ l) (hl : l ≤ 8)
    (hq : q < 24 ∨ 24 + l ≤ q) :
    ((n &&& (2 ^ 32 - ((2 ^ l - 1) <<< 24 + 1))) ||| (f <<< 24)).testBit q = n.testBit q := by
  simp only [Nat.testBit_and, Nat.testBit_or, Nat.testBit_shiftLeft,
    nat_field_filter_testBit _ _ hl]
  rcases hq with hq | hq
  · have h1 : ¬ (24 ≤ q) := by omega
    have h2 : q < 32 := by omega
    simp [h1, h2]
  · have h1 : ¬ (q - 24 < l) := by omega
    have h2 := nat_testBit_of_lt f l (q - 24) hf (by omega)
    by_cases h3 : q < 32
    · simp [h1, h2, h3]
    · have h4 := nat_testBit_of_lt n 32 q hn (by omega)
      simp [h1, h2, h3, h4]

theorem nat_pos_get_set (n p : Nat) (hp : p < 2 ^ 6) :
    ((n &&& ((2 ^ 26 - 1) <<< 6)) ||| p) &&& (2 ^ 6 - 1) = p := by
  apply Nat.eq_of_testBit_eq
  intro j
  simp only [Nat.testBit_and, Nat.testBit_or, Nat.testBit_shiftLeft,
    Nat.testBit_two_pow_sub_one]
  by_cases hj : j < 6
  · have h1 : ¬ (6 ≤ j) := by omega
    simp [hj, h1]
  · have := nat_testBit_of_lt p 6 j hp (by omega)
    simp [hj, this]

theorem nat_pos_set_other (n p q : Nat) (hn : n < 2 ^ 32) (hp : p < 2 ^ 6) (hq : 6 ≤ q) :
    ((n &&& ((2 ^ 26 - 1) <<< 6)) ||| p).testBit q = n.testBit q := by
  simp only [Nat.testBit_and, Nat.testBit_or, Nat.testBit_shiftLeft,
    Nat.testBit_two_pow_sub_one]
  have h2 := nat_testBit_of_lt p 6 q hp hq
  by_cases h3 : q - 6 < 26
  · simp [hq, h2, h3]
  · have h4 := nat_testBit_of_lt n 32 q hn (by omega)
    simp [hq, h2, h3, h4]

theorem dspcontrol_pos_roundtrip (env : CPUMIPSState) (pos : Int)
    (hd : 0 ≤ env.active_tc.DSPControl ∧ env.active_tc.DSPControl < 2 ^ 32)
    (hpos : 0 ≤ pos ∧ pos ≤ 63) :
    get_DSPControl_pos false (set_DSPControl_pos false pos env) = pos ∧
    (∀ q : Nat, 6 ≤ q →
      (set_DSPControl_pos false pos env).active_tc.DSPControl.testBit q =
        env.active_tc.DSPControl.testBit q) := by
  obtain ⟨n, hn⟩ := Int.eq_ofNat_of_zero_le hd.1
  obtain ⟨p, rfl⟩ := Int.eq_ofNat_of_zero_le hpos.1
  have hn32 : n < 2 ^ 32 := by
    have := hd.2
    rw [hn] at this
    exact_mod_cast this
  have hp6 : p < 2 ^ 6 := by
    have := hpos.2
    norm_num
    omega
  have hm : (0xFFFFFFC0 : Int) = (((2 ^ 26 - 1) <<< 6 : Nat) : Int) := by decide
  have hm' : (0x3F : Int) = ((2 ^ 6 - 1 : Nat) : Int) := by decide
  simp only [get_DSPControl_pos, set_DSPControl_pos, setDSPControl_DSPControl, hn,
    Bool.false_eq_true, if_false, hm, hm', land_natCast, lor_natCast]
  constructor
  · rw [nat_pos_get_set n p hp6, toU_32]
    omega
  · intro q hq
    exact nat_pos_set_other n p q hn32 hp6 hq

theorem set24_filter_eq (l : Nat) (hl : 1 ≤ l ∧ l ≤ 7) :
    toU 32 (Int.lnot (toU 32 (shlInt (toS 32 (shlInt 0x01 (l : Int) - 1)) 24))) =
      ((2 ^ 32 - ((2 ^ l - 1) <<< 24 + 1) : Nat) : Int) := by
  obtain ⟨h1, h2⟩ := hl
  interval_cases l <;> decide

theorem get24_filter_eq (l : Nat) (hl : 1 ≤ l ∧ l ≤ 7) :
    toU 32 (toS 32 (shlInt 0x01 (l : Int) - 1)) = ((2 ^ l - 1 : Nat) : Int) := by
  obtain ⟨h1, h2⟩ := hl
  interval_cases l <;> decide

theorem set24_flag_eq (f l : Nat) (hl : 1 ≤ l ∧ l ≤ 7) (hf : f < 2 ^ l) :
    toU 32 (toU 32 (f : Int) * 2 ^ 24) = ((f <<< 24 : Nat) : Int) := by
  have h1 : 2 ^ l ≤ 2 ^ 7 := Nat.pow_le_pow_right (by norm_num) hl.2
  rw [Nat.shiftLeft_eq, toU_32, toU_32]
  push_cast
  norm_num at h1 ⊢
  omega

theorem dspcontrol_24_roundtrip (env : CPUMIPSState) (len : Nat) (flag : Int)
    (hd : 0 ≤ env.active_tc.DSPControl ∧ env.active_tc.DSPControl < 2 ^ 32)
    (hlen : 1 ≤ len ∧ len ≤ 7) (hflag : 0 ≤ flag ∧ flag < 2 ^ len) :
    get_DSPControl_24 len (set_DSPControl_24 false flag len env) = flag ∧
    (∀ q : Nat, q < 24 ∨ 24 + len ≤ q →
      (set_DSPControl_24 false flag len env).active_tc.DSPControl.testBit q =
        env.active_tc.DSPControl.testBit q) := by
  obtain ⟨n, hn⟩ := Int.eq_ofNat_of_zero_le hd.1
  obtain ⟨f, rfl⟩ := Int.eq_ofNat_of_zero_le hflag.1
  have hn32 : n < 2 ^ 32 := by
    have := hd.2
    rw [hn] at this
    exact_mod_cast this
  have hf : f < 2 ^ len := by exact_mod_cast hflag.2
  have hs : ∀ x : Nat, Int.shiftRight (x : Int) 24 = ((x >>> 24 : Nat) : Int) := fun _ => rfl
  simp only [get_DSPControl_24, set_DSPControl_24, setDSPControl_DSPControl, hn,
    TARGET_LONG_BITS, Bool.false_eq_true, if_false, set24_filter_eq len hlen,
    get24_filter_eq len hlen, set24_flag_eq f len hlen hf, land_natCast, lor_natCast, hs]
  constructor
  · rw [nat_field_get_set n f len hf (by omega), toU_32]
    have h1 : 2 ^ len ≤ 2 ^ 7 := Nat.pow_le_pow_right (by norm_num) hlen.2
    norm_num at h1
    omega
  · intro q hq
    exact nat_field_set_other n f len q hn32 hf (by omega) hq

/-- C33: in 32-bit mode (`DSPControl` is a 32-bit word), for `pos` in 0..63
`get_DSPControl_pos` after `set_DSPControl_pos(pos)` returns `pos` and every bit of
`DSPControl` from bit 6 upward (so every carry and overflow flag) is unchanged; for
`len` in 1..7 and `flag < 2^len`, `get_DSPControl_24(len)` after
`set_DSPControl_24(flag, len)` returns `flag` and every bit outside
`24 .. 24 + len - 1` is unchanged. -/
theorem dspcontrol_fields_roundtrip (env : CPUMIPSState)
    (hd : 0 ≤ env.active_tc.DSPControl ∧ env.active_tc.DSPControl < 2 ^ 32) :
    (∀ pos : Int, 0 ≤ pos ∧ pos ≤ 63 →
      get_DSPControl_pos false (set_DSPControl_pos false pos env) = pos ∧
      (∀ q : Nat, 6 ≤ q →
        (set_DSPControl_pos false pos env).active_tc.DSPControl.testBit q =
          env.active_tc.DSPControl.testBit q)) ∧
    (∀ (len : Nat) (flag : Int), 1 ≤ len ∧ len ≤ 7 → 0 ≤ flag ∧ flag < 2 ^ len →
      get_DSPControl_24 len (set_DSPControl_24 false flag len env) = flag ∧
      (∀ q : Nat, q < 24 ∨ 24 + len ≤ q →
        (set_DSPControl_24 false flag len env).active_tc.DSPControl.testBit q =
          env.active_tc.DSPControl.testBit q)) :=
  ⟨fun pos hpos => dspcontrol_pos_roundtrip env pos hd hpos,
    fun len flag hlen hflag => dspcontrol_24_roundtrip env len flag hd hlen hflag⟩

/-- C33 on a `DSPControl` of `0xFFFFFFFF`: position 37 is read back and bit 20 stays
set; the 3-bit field value 5 is read back and bit 13 stays set. -/
theorem dspcontrol_fields_roundtrip_witness :
    (get_DSPControl_pos false (set_DSPControl_pos false 37 (env0.setDSPControl 0xFFFFFFFF)) =
        37 ∧
      (set_DSPControl_pos false 37
        (env0.setDSPControl 0xFFFFFFFF)).active_tc.DSPControl.testBit 20 = true) ∧
    (get_DSPControl_24 3 (set_DSPControl_24 false 5 3 (env0.setDSPControl 0xFFFFFFFF)) = 5 ∧
      (set_DSPControl_24 false 5 3
        (env0.setDSPControl 0xFFFFFFFF)).active_tc.DSPControl.testBit 13 = true) := by
  have h := dspcontrol_fields_roundtrip (env0.setDSPControl 0xFFFFFFFF)
    (by rw [setDSPControl_DSPControl]; norm_num)
  have h1 := h.1 37 (by norm_num)
  have h2 := h.2 3 5 (by norm_num) (by norm_num)
  refine ⟨⟨h1.1, (h1.2 20 (by norm_num)).trans (by decide)⟩,
    ⟨h2.1, (h2.2 13 (by norm_num)).trans (by decide)⟩⟩

/-! ## NC-SI checksum -/

theorem lnot_eq_int (x : Int) : Int.lnot x = -x - 1 := by
  cases x with
  | ofNat n =>
    show Int.negSucc n = -(n : Int) - 1
    rw [Int.negSucc_eq]
    ring
  | negSucc m =>
    show (m : Int) = -(Int.negSucc m) - 1
    rw [Int.negSucc_eq]
    ring

theorem ncsi_checksum_fold (htons : Int → Int) (data : Nat → Int) (l : List Nat) (c : Int) :
    (l.foldl (ncsi_calculate_checksum_step htons data) c) % 2 ^ 32 =
      (c + (l.map (fun i => toU 16 (htons (data i)))).sum) % 2 ^ 32 := by
  induction l generalizing c with
  | nil => simp
  | cons i l ih =>
    rw [List.foldl_cons, ih, List.map_cons, List.sum_cons, ncsi_calculate_checksum_step,
      toU, ← add_assoc]
    rw [Int.add_emod, Int.emod_emod_of_dvd _ (dvd_refl _), ← Int.add_emod]

/-- C40: for every `data` and `len` (and whatever the host's `htons` is),
`ncsi_calculate_checksum` returns a 32-bit value `checksum` with
`(sum of htons(data[i]) for i < len) + checksum` congruent to 0 modulo `2^32`. -/
theorem ncsi_calculate_checksum_spec (htons : Int → Int) (data : Nat → Int) (len : Int) :
    (((List.range len.toNat).map (fun i => toU 16 (htons (data i)))).sum +
      ncsi_calculate_checksum htons data len) % 2 ^ 32 = 0 ∧
    0 ≤ ncsi_calculate_checksum htons data len ∧
    ncsi_calculate_checksum htons data len < 2 ^ 32 := by
  have h := ncsi_checksum_fold htons data (List.range len.toNat) 0
  rw [zero_add] at h
  simp only [ncsi_calculate_checksum, lnot_eq_int, toU_32]
  norm_num at h ⊢
  generalize ((List.range len.toNat).map (fun i => toU 16 (htons (data i)))).sum = S at h ⊢
  generalize List.foldl (ncsi_calculate_checksum_step htons data) 0 (List.range len.toNat) = C
    at h ⊢
  omega

end DspHelper
